import Mathlib

/-!
PlaneCamera: a shallow embedding of `include/my_plane_camera.h`.

The C++ class `PlaneCamera` keeps an aircraft pose in three rotation encodings
(Euler angles, a front/right/up basis, a quaternion) and derives a camera position
from it.  Every member function is embedded as a pure function on the record
`PlaneCamera α`.

`float` is embedded as an arbitrary linearly ordered field `α` (exact arithmetic: no
rounding, no NaN).  The transcendental functions of `<cmath>` are collected in the
record `Glm.Scalar α`, so that all definitions stay computable; `Glm.Scalar.real`
instantiates them with the real functions of Mathlib.  Statements that hold in exact
arithmetic only are marked as such, and what the code computes instead is evaluated in a
second embedding over binary32 numbers (`Glm.F32`, `Glm.Scalar.binary32`).

The functions of the GLM library that the header calls (`glm::rotate`,
`glm::angleAxis`, `glm::toQuat`, ...) are transcribed in the namespace `Glm` from the
GLM sources (`ext/matrix_transform.inl`, `ext/quaternion_*.inl`, `gtc/quaternion.inl`).
-/

namespace Glm

/-- The `<cmath>` functions used by GLM and by the camera, over the scalar type `α`.
`atan2 y x` has the argument order of C; `epsilon` is `glm::epsilon<float>()`. -/
structure Scalar (α : Type) where
  sin : α → α
  cos : α → α
  asin : α → α
  atan2 : α → α → α
  sqrt : α → α
  pi : α
  epsilon : α

/-- The scalar functions over the reals: `atan2 y x` is the argument of `x + y i`
(which is `0` at the origin, as in C), `epsilon` is `FLT_EPSILON = 2⁻²³`. -/
noncomputable def Scalar.real : Scalar ℝ where
  sin := Real.sin
  cos := Real.cos
  asin := Real.arcsin
  atan2 := fun y x => Complex.arg ⟨x, y⟩
  sqrt := Real.sqrt
  pi := Real.pi
  epsilon := 1 / 2 ^ 23

/-- Embedding of `glm::vec3`. -/
@[ext]
structure Vec3 (α : Type) where
  x : α
  y : α
  z : α

/-- Embedding of `glm::vec4`. -/
@[ext]
structure Vec4 (α : Type) where
  x : α
  y : α
  z : α
  w : α

/-- Embedding of `glm::quat`; the constructor takes `w` first, as `glm::quat(w, x, y, z)` does. -/
@[ext]
structure Quat (α : Type) where
  w : α
  x : α
  y : α
  z : α

/-- Embedding of `glm::mat3`, stored by columns: `c0` is `m[0]`. -/
@[ext]
structure Mat3 (α : Type) where
  c0 : Vec3 α
  c1 : Vec3 α
  c2 : Vec3 α

/-- Embedding of `glm::mat4`, stored by columns: `c0` is `m[0]`. -/
@[ext]
structure Mat4 (α : Type) where
  c0 : Vec4 α
  c1 : Vec4 α
  c2 : Vec4 α
  c3 : Vec4 α

variable {α : Type} [LinearOrderedField α]

/-- Embedding of `vec3 + vec3`. -/
def Vec3.add (a b : Vec3 α) : Vec3 α := ⟨a.x + b.x, a.y + b.y, a.z + b.z⟩

/-- Embedding of `vec3 - vec3`. -/
def Vec3.sub (a b : Vec3 α) : Vec3 α := ⟨a.x - b.x, a.y - b.y, a.z - b.z⟩

/-- Embedding of `-vec3`. -/
def Vec3.neg (a : Vec3 α) : Vec3 α := ⟨-a.x, -a.y, -a.z⟩

/-- Embedding of `vec3 * float`. -/
def Vec3.scale (a : Vec3 α) (s : α) : Vec3 α := ⟨a.x * s, a.y * s, a.z * s⟩

/-- Embedding of `float * vec3`. -/
def Vec3.lscale (s : α) (a : Vec3 α) : Vec3 α := ⟨s * a.x, s * a.y, s * a.z⟩

/-- Embedding of `glm::dot` on `vec3`. -/
def dot (a b : Vec3 α) : α := a.x * b.x + a.y * b.y + a.z * b.z

/-- Embedding of `glm::cross`. -/
def cross (a b : Vec3 α) : Vec3 α :=
  ⟨a.y * b.z - b.y * a.z, a.z * b.x - b.z * a.x, a.x * b.y - b.x * a.y⟩

/-- Embedding of `glm::inversesqrt`. -/
def inversesqrt (M : Scalar α) (x : α) : α := 1 / M.sqrt x

/-- Embedding of `glm::normalize` on `vec3`. -/
def normalize (M : Scalar α) (v : Vec3 α) : Vec3 α := v.scale (inversesqrt M (dot v v))

/-- Embedding of `glm::radians`: degrees times `π / 180`. -/
def radians (M : Scalar α) (degrees : α) : α := degrees * (M.pi / 180)

/-- Embedding of `glm::clamp`. -/
def clamp (x minVal maxVal : α) : α := min (max x minVal) maxVal

/-- Embedding of `vec4 + vec4`. -/
def Vec4.add (a b : Vec4 α) : Vec4 α := ⟨a.x + b.x, a.y + b.y, a.z + b.z, a.w + b.w⟩

/-- Embedding of `vec4 * float`. -/
def Vec4.scale (a : Vec4 α) (s : α) : Vec4 α := ⟨a.x * s, a.y * s, a.z * s, a.w * s⟩

/-- Embedding of `glm::vec4(v, w)`. -/
def Vec4.ofVec3 (v : Vec3 α) (w : α) : Vec4 α := ⟨v.x, v.y, v.z, w⟩

/-- Embedding of `glm::vec3(v)` for a `vec4`: drops `w`. -/
def Vec4.xyz (v : Vec4 α) : Vec3 α := ⟨v.x, v.y, v.z⟩

/-- Embedding of `glm::mat4(1.0f)`. -/
def Mat4.identity : Mat4 α := ⟨⟨1, 0, 0, 0⟩, ⟨0, 1, 0, 0⟩, ⟨0, 0, 1, 0⟩, ⟨0, 0, 0, 1⟩⟩

/-- Embedding of `glm::mat3(m)` for a `mat4`: the upper-left block. -/
def Mat4.toMat3 (m : Mat4 α) : Mat3 α := ⟨m.c0.xyz, m.c1.xyz, m.c2.xyz⟩

/-- Embedding of `glm::mat4(m)` for a `mat3`: the block completed by the identity. -/
def Mat3.toMat4 (m : Mat3 α) : Mat4 α :=
  ⟨Vec4.ofVec3 m.c0 0, Vec4.ofVec3 m.c1 0, Vec4.ofVec3 m.c2 0, ⟨0, 0, 0, 1⟩⟩

/-- Embedding of `mat4 * vec4`. -/
def Mat4.mulVec (m : Mat4 α) (v : Vec4 α) : Vec4 α :=
  ((m.c0.scale v.x).add (m.c1.scale v.y)).add ((m.c2.scale v.z).add (m.c3.scale v.w))

/-- Embedding of `mat3 * vec3`. -/
def Mat3.mulVec (m : Mat3 α) (v : Vec3 α) : Vec3 α :=
  ⟨m.c0.x * v.x + m.c1.x * v.y + m.c2.x * v.z,
   m.c0.y * v.x + m.c1.y * v.y + m.c2.y * v.z,
   m.c0.z * v.x + m.c1.z * v.y + m.c2.z * v.z⟩

/-- One column of `mat4 * mat4`: `a[0]*b[0] + a[1]*b[1] + a[2]*b[2] + a[3]*b[3]`. -/
def Mat4.mulCol (a : Mat4 α) (b : Vec4 α) : Vec4 α :=
  (((a.c0.scale b.x).add (a.c1.scale b.y)).add (a.c2.scale b.z)).add (a.c3.scale b.w)

/-- Embedding of `mat4 * mat4`. -/
def Mat4.mul (a b : Mat4 α) : Mat4 α :=
  ⟨a.mulCol b.c0, a.mulCol b.c1, a.mulCol b.c2, a.mulCol b.c3⟩

/-- Embedding of `glm::translate(m, v)`. -/
def translate (m : Mat4 α) (v : Vec3 α) : Mat4 α :=
  { m with c3 := (((m.c0.scale v.x).add (m.c1.scale v.y)).add (m.c2.scale v.z)).add m.c3 }

/-- Embedding of `glm::rotate(m, angle, v)`: `m` times the rotation by `angle` about `normalize(v)`. -/
def rotate (M : Scalar α) (m : Mat4 α) (angle : α) (v : Vec3 α) : Mat4 α :=
  let c := M.cos angle
  let s := M.sin angle
  let axis := normalize M v
  let temp := Vec3.lscale (1 - c) axis
  let r00 := c + temp.x * axis.x
  let r01 := temp.x * axis.y + s * axis.z
  let r02 := temp.x * axis.z - s * axis.y
  let r10 := temp.y * axis.x - s * axis.z
  let r11 := c + temp.y * axis.y
  let r12 := temp.y * axis.z + s * axis.x
  let r20 := temp.z * axis.x + s * axis.y
  let r21 := temp.z * axis.y - s * axis.x
  let r22 := c + temp.z * axis.z
  ⟨((m.c0.scale r00).add (m.c1.scale r01)).add (m.c2.scale r02),
   ((m.c0.scale r10).add (m.c1.scale r11)).add (m.c2.scale r12),
   ((m.c0.scale r20).add (m.c1.scale r21)).add (m.c2.scale r22),
   m.c3⟩

/-- Embedding of `glm::angleAxis(angle, v)`. -/
def angleAxis (M : Scalar α) (angle : α) (v : Vec3 α) : Quat α :=
  let s := M.sin (angle * (1 / 2))
  ⟨M.cos (angle * (1 / 2)), v.x * s, v.y * s, v.z * s⟩

/-- Embedding of `quat * quat`. -/
def Quat.mul (p q : Quat α) : Quat α :=
  ⟨p.w * q.w - p.x * q.x - p.y * q.y - p.z * q.z,
   p.w * q.x + p.x * q.w + p.y * q.z - p.z * q.y,
   p.w * q.y + p.y * q.w + p.z * q.x - p.x * q.z,
   p.w * q.z + p.z * q.w + p.x * q.y - p.y * q.x⟩

/-- Embedding of `quat * vec3`: the vector rotated by the quaternion. -/
def Quat.rotateVec (q : Quat α) (v : Vec3 α) : Vec3 α :=
  let quatVector : Vec3 α := ⟨q.x, q.y, q.z⟩
  let uv := cross quatVector v
  let uuv := cross quatVector uv
  v.add (((uv.scale q.w).add uuv).scale 2)

/-- Embedding of `glm::dot` on quaternions. -/
def Quat.dot (a b : Quat α) : α := a.w * b.w + a.x * b.x + a.y * b.y + a.z * b.z

/-- Embedding of `glm::length` on a quaternion. -/
def Quat.length (M : Scalar α) (q : Quat α) : α := M.sqrt (Quat.dot q q)

/-- Embedding of `glm::normalize` on a quaternion: the identity when the length is not positive. -/
def Quat.normalize (M : Scalar α) (q : Quat α) : Quat α :=
  let len := Quat.length M q
  if len ≤ 0 then ⟨1, 0, 0, 0⟩
  else
    let oneOverLen := 1 / len
    ⟨q.w * oneOverLen, q.x * oneOverLen, q.y * oneOverLen, q.z * oneOverLen⟩

/-- Embedding of `glm::quat_cast` on a `mat3`: the quaternion of a rotation matrix. -/
def quatCast (M : Scalar α) (m : Mat3 α) : Quat α :=
  let fourXSquaredMinus1 := m.c0.x - m.c1.y - m.c2.z
  let fourYSquaredMinus1 := m.c1.y - m.c0.x - m.c2.z
  let fourZSquaredMinus1 := m.c2.z - m.c0.x - m.c1.y
  let fourWSquaredMinus1 := m.c0.x + m.c1.y + m.c2.z
  let s0 : Nat × α := (0, fourWSquaredMinus1)
  let s1 : Nat × α := if fourXSquaredMinus1 > s0.2 then (1, fourXSquaredMinus1) else s0
  let s2 : Nat × α := if fourYSquaredMinus1 > s1.2 then (2, fourYSquaredMinus1) else s1
  let s3 : Nat × α := if fourZSquaredMinus1 > s2.2 then (3, fourZSquaredMinus1) else s2
  let biggestIndex := s3.1
  let biggestVal := M.sqrt (s3.2 + 1) * (1 / 2)
  let mult := (1 / 4) / biggestVal
  if biggestIndex = 0 then
    ⟨biggestVal, (m.c1.z - m.c2.y) * mult, (m.c2.x - m.c0.z) * mult, (m.c0.y - m.c1.x) * mult⟩
  else if biggestIndex = 1 then
    ⟨(m.c1.z - m.c2.y) * mult, biggestVal, (m.c0.y + m.c1.x) * mult, (m.c2.x + m.c0.z) * mult⟩
  else if biggestIndex = 2 then
    ⟨(m.c2.x - m.c0.z) * mult, (m.c0.y + m.c1.x) * mult, biggestVal, (m.c1.z + m.c2.y) * mult⟩
  else
    ⟨(m.c0.y - m.c1.x) * mult, (m.c2.x + m.c0.z) * mult, (m.c1.z + m.c2.y) * mult, biggestVal⟩

/-- Embedding of `glm::toQuat` on a `mat4`. -/
def toQuat (M : Scalar α) (m : Mat4 α) : Quat α := quatCast M m.toMat3

/-- Embedding of `glm::mat3_cast`: the rotation matrix of a quaternion. -/
def mat3Cast (q : Quat α) : Mat3 α :=
  let qxx := q.x * q.x
  let qyy := q.y * q.y
  let qzz := q.z * q.z
  let qxz := q.x * q.z
  let qxy := q.x * q.y
  let qyz := q.y * q.z
  let qwx := q.w * q.x
  let qwy := q.w * q.y
  let qwz := q.w * q.z
  ⟨⟨1 - 2 * (qyy + qzz), 2 * (qxy + qwz), 2 * (qxz - qwy)⟩,
   ⟨2 * (qxy - qwz), 1 - 2 * (qxx + qzz), 2 * (qyz + qwx)⟩,
   ⟨2 * (qxz + qwy), 2 * (qyz - qwx), 1 - 2 * (qxx + qyy)⟩⟩

/-- Embedding of `glm::toMat4`. -/
def toMat4 (q : Quat α) : Mat4 α := (mat3Cast q).toMat4

/-- Embedding of `glm::roll`. -/
def roll (M : Scalar α) (q : Quat α) : α :=
  let y := 2 * (q.x * q.y + q.w * q.z)
  let x := q.w * q.w + q.x * q.x - q.y * q.y - q.z * q.z
  if abs (x - 0) ≤ M.epsilon ∧ abs (y - 0) ≤ M.epsilon then 0
  else M.atan2 y x

/-- Embedding of `glm::pitch`. -/
def pitch (M : Scalar α) (q : Quat α) : α :=
  let y := 2 * (q.y * q.z + q.w * q.x)
  let x := q.w * q.w - q.x * q.x - q.y * q.y + q.z * q.z
  if abs (x - 0) ≤ M.epsilon ∧ abs (y - 0) ≤ M.epsilon then 2 * M.atan2 q.x q.w
  else M.atan2 y x

/-- Embedding of `glm::yaw`. -/
def yaw (M : Scalar α) (q : Quat α) : α :=
  M.asin (clamp (-2 * (q.x * q.z - q.w * q.y)) (-1) 1)

/-- Embedding of `glm::lookAt(eye, center, up)` (right-handed). -/
def lookAt (M : Scalar α) (eye center up : Vec3 α) : Mat4 α :=
  let f := normalize M (center.sub eye)
  let s := normalize M (cross f up)
  let u := cross s f
  ⟨⟨s.x, u.x, -f.x, 0⟩, ⟨s.y, u.y, -f.y, 0⟩, ⟨s.z, u.z, -f.z, 0⟩,
   ⟨-dot s eye, -dot u eye, dot f eye, 1⟩⟩

/-- Embedding of `glm::eulerAngles`: `(pitch, yaw, roll)`. -/
def eulerAngles (M : Scalar α) (q : Quat α) : Vec3 α := ⟨pitch M q, yaw M q, roll M q⟩

/-- The product of the three `glm::rotate` calls of `getRotatedOffset` and
`getPlaneModelMatrix` (roll `z` about the world front, yaw `y` about the world up, pitch
`x` about the world right) written out entry by entry; `rotate_euler` proves that the
calls give this matrix. -/
def eulerMatrix (M : Scalar α) (x y z : α) : Mat3 α :=
  ⟨⟨M.cos z * M.cos y, -(M.sin z * M.cos y), -M.sin y⟩,
   ⟨M.cos z * M.sin y * M.sin x + M.sin z * M.cos x,
     -(M.sin z * M.sin y * M.sin x) + M.cos z * M.cos x, M.cos y * M.sin x⟩,
   ⟨M.cos z * M.sin y * M.cos x - M.sin z * M.sin x,
     -(M.sin z * M.sin y * M.cos x) - M.cos z * M.sin x, M.cos y * M.cos x⟩⟩

end Glm

open Glm

/-! Section: Constants of the header. -/

variable {α : Type} [LinearOrderedField α]

/-- Embedding of `MIN_ZOOM = 1.0f`. -/
def MIN_ZOOM : α := 1

/-- Embedding of `MAX_ZOOM = 60.0f`. -/
def MAX_ZOOM : α := 60

/-- Embedding of `CAMERA_SPEED = 2.5f`. -/
def CAMERA_SPEED : α := 5 / 2

/-- Embedding of `TURN_SPEED = 5.0f`. -/
def TURN_SPEED : α := 5

/-- Embedding of `ZOOM = 50.0f`. -/
def ZOOM : α := 50

/-- Embedding of `WORLD_ORIGIN(0, 0, 0)`. -/
def WORLD_ORIGIN : Vec3 α := ⟨0, 0, 0⟩

/-- Embedding of `WORLD_FRONT(0, 0, -1)`. -/
def WORLD_FRONT : Vec3 α := ⟨0, 0, -1⟩

/-- Embedding of `WORLD_UP(0, 1, 0)`. -/
def WORLD_UP : Vec3 α := ⟨0, 1, 0⟩

/-- Embedding of `WORLD_RIGHT(1, 0, 0)`. -/
def WORLD_RIGHT : Vec3 α := ⟨1, 0, 0⟩

/-- Embedding of `QUAT_IDENTITY(1, 0, 0, 0)`. -/
def QUAT_IDENTITY : Quat α := ⟨1, 0, 0, 0⟩

/-- Enumerator `EulerAngles = 0`. -/
def EulerAngles : Int := 0

/-- Enumerator `FrontRightUpVecs = 1`. -/
def FrontRightUpVecs : Int := 1

/-- Enumerator `Quaternions = 2`. -/
def Quaternions : Int := 2

/-- Embedding of `GLFW_KEY_A` of `GLFW/glfw3.h`. -/
def GLFW_KEY_A : Int := 65

/-- Embedding of `GLFW_KEY_D` of `GLFW/glfw3.h`. -/
def GLFW_KEY_D : Int := 68

/-- Embedding of `GLFW_KEY_E` of `GLFW/glfw3.h`. -/
def GLFW_KEY_E : Int := 69

/-- Embedding of `GLFW_KEY_Q` of `GLFW/glfw3.h`. -/
def GLFW_KEY_Q : Int := 81

/-- Embedding of `GLFW_KEY_S` of `GLFW/glfw3.h`. -/
def GLFW_KEY_S : Int := 83

/-- Embedding of `GLFW_KEY_W` of `GLFW/glfw3.h`. -/
def GLFW_KEY_W : Int := 87

/-- Embedding of `GLFW_KEY_X` of `GLFW/glfw3.h`. -/
def GLFW_KEY_X : Int := 88

/-- Embedding of `GLFW_KEY_Z` of `GLFW/glfw3.h`. -/
def GLFW_KEY_Z : Int := 90

/-! Section: The camera state. -/

/-- The data members of `class PlaneCamera`, in the order of their declaration. -/
@[ext]
structure PlaneCamera (α : Type) where
  planePosition : Vec3 α
  cameraPosition : Vec3 α
  cameraOffset : Vec3 α
  firstPersonOffset : Vec3 α
  thirdPersonOffset : Vec3 α
  front : Vec3 α
  up : Vec3 α
  right : Vec3 α
  rotX : α
  rotY : α
  rotZ : α
  planeOrientation : Quat α
  selectedCameraType : Int
  movementSpeed : α
  zoom : α
  turnSpeed : α
  zoomEnabled : Bool
  firstPerson : Bool
  moveFreely : Bool

namespace PlaneCamera

/-- The constructor `PlaneCamera(planePosition, firstPersonOffset, thirdPersonOffset,
zoomEnable)`. -/
def ctor (planePosition firstPersonOffset thirdPersonOffset : Vec3 α) (zoomEnable : Bool) :
    PlaneCamera α :=
  let front : Vec3 α := WORLD_FRONT
  let up : Vec3 α := WORLD_UP
  let firstPerson := false
  let cameraOffset := if firstPerson then firstPersonOffset else thirdPersonOffset
  { planePosition := planePosition
    cameraPosition := planePosition.add cameraOffset
    cameraOffset := cameraOffset
    firstPersonOffset := firstPersonOffset
    thirdPersonOffset := thirdPersonOffset
    front := front
    up := up
    right := cross front up
    rotX := 0
    rotY := 0
    rotZ := 0
    planeOrientation := QUAT_IDENTITY
    selectedCameraType := FrontRightUpVecs
    movementSpeed := CAMERA_SPEED
    zoom := ZOOM
    turnSpeed := TURN_SPEED
    zoomEnabled := zoomEnable
    firstPerson := firstPerson
    moveFreely := true }

/-- The constructor called with its default arguments: position `WORLD_ORIGIN`, offsets
`(0, 1, 0)` and `(0, 1, 10)`, zoom enabled. -/
def default : PlaneCamera α := ctor WORLD_ORIGIN ⟨0, 1, 0⟩ ⟨0, 1, 10⟩ true

/-- Embedding of `getRotatedOffset`: the offset rotated by roll, then yaw, then pitch. -/
def getRotatedOffset (M : Scalar α) (c : PlaneCamera α) (offset : Vec3 α) : Vec3 α :=
  let rotation : Mat4 α := Mat4.identity
  let rotation := rotate M rotation c.rotZ WORLD_FRONT
  let rotation := rotate M rotation c.rotY WORLD_UP
  let rotation := rotate M rotation c.rotX WORLD_RIGHT
  (rotation.mulVec (Vec4.ofVec3 offset 1)).xyz

/-- Embedding of `updateCameraPosition`. -/
def updateCameraPosition (M : Scalar α) (c : PlaneCamera α) : PlaneCamera α :=
  if c.selectedCameraType = EulerAngles then
    if c.moveFreely then
      { c with cameraPosition := c.planePosition.add (getRotatedOffset M c c.cameraOffset) }
    else
      { c with cameraPosition := c.planePosition.add c.thirdPersonOffset }
  else if c.selectedCameraType = FrontRightUpVecs then
    if c.moveFreely then
      { c with cameraPosition := Vec3.add (c.planePosition.sub (c.front.scale c.cameraOffset.z))
                                   (c.up.scale c.cameraOffset.y) }
    else
      { c with cameraPosition := c.planePosition.add c.thirdPersonOffset }
  else if c.selectedCameraType = Quaternions then
    if c.moveFreely then
      { c with cameraPosition := c.planePosition.add (c.planeOrientation.rotateVec c.cameraOffset) }
    else
      { c with cameraPosition := c.planePosition.add c.thirdPersonOffset }
  else c

/-- The `switch` of `updateCameraType`: the encoding of the mode that was selected is
converted into the two others. -/
def convertEncodings (M : Scalar α) (c : PlaneCamera α) : PlaneCamera α :=
  if c.selectedCameraType = EulerAngles then
    let qPitch := angleAxis M c.rotX WORLD_RIGHT
    let qYaw := angleAxis M c.rotY WORLD_UP
    let qRoll := angleAxis M c.rotZ WORLD_FRONT
    { c with
      front := getRotatedOffset M c WORLD_FRONT
      right := getRotatedOffset M c WORLD_RIGHT
      up := getRotatedOffset M c WORLD_UP
      planeOrientation := Quat.normalize M ((qYaw.mul qPitch).mul qRoll) }
  else if c.selectedCameraType = FrontRightUpVecs then
    let rotationMatrix : Mat4 α := Mat4.identity
    let rotationMatrix := { rotationMatrix with c0 := Vec4.ofVec3 c.right 0 }
    let rotationMatrix := { rotationMatrix with c1 := Vec4.ofVec3 c.up 0 }
    let rotationMatrix := { rotationMatrix with c2 := Vec4.ofVec3 c.front.neg 0 }
    { c with
      rotX := M.asin c.front.y
      rotY := -M.atan2 c.front.x (-c.front.z)
      rotZ := M.atan2 c.right.y c.up.y
      planeOrientation := toQuat M rotationMatrix }
  else if c.selectedCameraType = Quaternions then
    let eulerAngles := eulerAngles M c.planeOrientation
    { c with
      rotX := eulerAngles.x
      rotY := eulerAngles.y
      rotZ := eulerAngles.z
      front := c.planeOrientation.rotateVec WORLD_FRONT
      right := c.planeOrientation.rotateVec WORLD_RIGHT
      up := c.planeOrientation.rotateVec WORLD_UP }
  else c

/-- Embedding of `updateCameraType(camType)`. -/
def updateCameraType (M : Scalar α) (c : PlaneCamera α) (camType : Int) : PlaneCamera α :=
  let c := convertEncodings M c
  let c := { c with selectedCameraType := camType }
  updateCameraPosition M c

/-- Embedding of `setCameraMovementSpeed`. -/
def setCameraMovementSpeed (c : PlaneCamera α) (newSpeed : α) : PlaneCamera α :=
  { c with movementSpeed := newSpeed }

/-- Embedding of `setZoom`. -/
def setZoom (c : PlaneCamera α) (enableZoom : Bool) (zoom : α) : PlaneCamera α :=
  { c with zoomEnabled := enableZoom, zoom := zoom }

/-- Embedding of `setCameraTurnSpeed`. -/
def setCameraTurnSpeed (c : PlaneCamera α) (turnSpeed : α) : PlaneCamera α :=
  { c with turnSpeed := turnSpeed }

/-- Embedding of `resetAllParams`. -/
def resetAllParams (c : PlaneCamera α) : PlaneCamera α :=
  let c := { c with rotX := 0, rotY := 0, rotZ := 0 }
  let c := { c with planePosition := WORLD_ORIGIN }
  let c := { c with front := WORLD_FRONT }
  let c := { c with up := WORLD_UP }
  let c := { c with right := cross c.front c.up }
  let c := { c with cameraPosition := c.planePosition.add c.cameraOffset }
  { c with planeOrientation := QUAT_IDENTITY }

/-- Embedding of `changeCameraPerspective`. -/
def changeCameraPerspective (M : Scalar α) (c : PlaneCamera α) : PlaneCamera α :=
  let c :=
    if c.firstPerson then { c with cameraOffset := c.thirdPersonOffset, firstPerson := false }
    else { c with cameraOffset := c.firstPersonOffset, firstPerson := true }
  updateCameraPosition M c

/-- Embedding of `processMouseScroll(yOff)`. -/
def processMouseScroll (c : PlaneCamera α) (yOff : α) : PlaneCamera α :=
  if c.zoomEnabled then
    let c := { c with zoom := c.zoom - yOff }
    let c := if c.zoom < MIN_ZOOM then { c with zoom := MIN_ZOOM } else c
    if c.zoom > MAX_ZOOM then { c with zoom := MAX_ZOOM } else c
  else c

/-- The inner `switch (key)` of `processKeyboardInput`, case `EulerAngles`. -/
def eulerKeys (M : Scalar α) (c : PlaneCamera α) (key : Int) (rotationSpeed : α) :
    PlaneCamera α :=
  if key = GLFW_KEY_A then { c with rotY := c.rotY + radians M rotationSpeed }
  else if key = GLFW_KEY_D then { c with rotY := c.rotY - radians M rotationSpeed }
  else if key = GLFW_KEY_Q then { c with rotX := c.rotX + radians M rotationSpeed }
  else if key = GLFW_KEY_E then { c with rotX := c.rotX - radians M rotationSpeed }
  else if key = GLFW_KEY_Z then { c with rotZ := c.rotZ - radians M rotationSpeed }
  else if key = GLFW_KEY_X then { c with rotZ := c.rotZ + radians M rotationSpeed }
  else c

/-- The inner `switch (key)` of `processKeyboardInput`, case `FrontRightUpVecs`. -/
def basisKeys (M : Scalar α) (c : PlaneCamera α) (key : Int) (velocity rotationSpeed : α) :
    PlaneCamera α :=
  if key = GLFW_KEY_W then
    { c with planePosition := c.planePosition.add (c.front.scale velocity) }
  else if key = GLFW_KEY_S then
    { c with planePosition := c.planePosition.sub (c.front.scale velocity) }
  else if key = GLFW_KEY_A then
    let angle := radians M rotationSpeed
    let c := { c with front := (rotate M Mat4.identity angle c.up).toMat3.mulVec c.front }
    { c with right := cross c.front c.up }
  else if key = GLFW_KEY_D then
    let angle := radians M (-rotationSpeed)
    let c := { c with front := (rotate M Mat4.identity angle c.up).toMat3.mulVec c.front }
    { c with right := cross c.front c.up }
  else if key = GLFW_KEY_Q then
    let angle := radians M rotationSpeed
    let c := { c with front := (rotate M Mat4.identity angle c.right).toMat3.mulVec c.front }
    { c with up := cross c.right c.front }
  else if key = GLFW_KEY_E then
    let angle := radians M (-rotationSpeed)
    let c := { c with front := (rotate M Mat4.identity angle c.right).toMat3.mulVec c.front }
    { c with up := cross c.right c.front }
  else if key = GLFW_KEY_Z then
    let angle := radians M (-rotationSpeed)
    let c := { c with up := (rotate M Mat4.identity angle c.front).toMat3.mulVec c.up }
    { c with right := cross c.front c.up }
  else if key = GLFW_KEY_X then
    let angle := radians M rotationSpeed
    let c := { c with up := (rotate M Mat4.identity angle c.front).toMat3.mulVec c.up }
    { c with right := cross c.front c.up }
  else c

/-- The inner `switch (key)` of `processKeyboardInput`, case `Quaternions`. -/
def quaternionKeys (M : Scalar α) (c : PlaneCamera α) (key : Int) (velocity rotationSpeed : α) :
    PlaneCamera α :=
  if key = GLFW_KEY_W then
    { c with planePosition :=
        c.planePosition.add ((c.planeOrientation.rotateVec WORLD_FRONT).scale velocity) }
  else if key = GLFW_KEY_S then
    { c with planePosition :=
        c.planePosition.sub ((c.planeOrientation.rotateVec WORLD_FRONT).scale velocity) }
  else if key = GLFW_KEY_A then
    let angle := radians M rotationSpeed
    let rotationQuat := angleAxis M angle WORLD_UP
    { c with planeOrientation := Quat.normalize M (rotationQuat.mul c.planeOrientation) }
  else if key = GLFW_KEY_D then
    let angle := radians M (-rotationSpeed)
    let rotationQuat := angleAxis M angle WORLD_UP
    { c with planeOrientation := Quat.normalize M (rotationQuat.mul c.planeOrientation) }
  else if key = GLFW_KEY_Q then
    let angle := radians M rotationSpeed
    let rotationQuat := angleAxis M angle (c.planeOrientation.rotateVec WORLD_RIGHT)
    { c with planeOrientation := Quat.normalize M (rotationQuat.mul c.planeOrientation) }
  else if key = GLFW_KEY_E then
    let angle := radians M (-rotationSpeed)
    let rotationQuat := angleAxis M angle (c.planeOrientation.rotateVec WORLD_RIGHT)
    { c with planeOrientation := Quat.normalize M (rotationQuat.mul c.planeOrientation) }
  else if key = GLFW_KEY_Z then
    let angle := radians M (-rotationSpeed)
    let rotationQuat := angleAxis M angle (c.planeOrientation.rotateVec WORLD_FRONT)
    { c with planeOrientation := Quat.normalize M (rotationQuat.mul c.planeOrientation) }
  else if key = GLFW_KEY_X then
    let angle := radians M rotationSpeed
    let rotationQuat := angleAxis M angle (c.planeOrientation.rotateVec WORLD_FRONT)
    { c with planeOrientation := Quat.normalize M (rotationQuat.mul c.planeOrientation) }
  else c

/-- Embedding of `processKeyboardInput(key, deltaTime)`: the outer `switch (selectedCameraType)`; the
three inner key switches are `eulerKeys`, `basisKeys` and `quaternionKeys`. -/
def processKeyboardInput (M : Scalar α) (c : PlaneCamera α) (key : Int) (deltaTime : α) :
    PlaneCamera α :=
  let velocity := c.movementSpeed * deltaTime
  let rotationSpeed := c.turnSpeed * deltaTime
  if c.selectedCameraType = EulerAngles then
    let c := eulerKeys M c key rotationSpeed
    if c.moveFreely then
      { c with cameraPosition := c.planePosition.add (getRotatedOffset M c c.cameraOffset) }
    else c
  else if c.selectedCameraType = FrontRightUpVecs then
    let c := basisKeys M c key velocity rotationSpeed
    if c.moveFreely then
      { c with cameraPosition := Vec3.add (c.planePosition.sub (c.front.scale c.cameraOffset.z))
                                   (c.up.scale c.cameraOffset.y) }
    else c
  else if c.selectedCameraType = Quaternions then
    let c := quaternionKeys M c key velocity rotationSpeed
    if c.moveFreely then
      { c with cameraPosition := c.planePosition.add (c.planeOrientation.rotateVec c.cameraOffset) }
    else c
  else c

/-- The `(eye, center, up)` arguments that `getViewMatrix` passes to `glm::lookAt`;
`none` when no call is made (free camera with a mode outside the three). -/
def lookAtArgs (M : Scalar α) (c : PlaneCamera α) : Option (Vec3 α × Vec3 α × Vec3 α) :=
  if c.moveFreely then
    if c.selectedCameraType = EulerAngles then
      some (c.cameraPosition, c.cameraPosition.add (getRotatedOffset M c WORLD_FRONT),
        getRotatedOffset M c WORLD_UP)
    else if c.selectedCameraType = FrontRightUpVecs then
      some (c.cameraPosition, c.cameraPosition.add c.front, c.up)
    else if c.selectedCameraType = Quaternions then
      some (c.cameraPosition, c.cameraPosition.add (c.planeOrientation.rotateVec WORLD_FRONT),
        c.planeOrientation.rotateVec WORLD_UP)
    else none
  else some (c.cameraPosition, c.planePosition, WORLD_UP)

/-- Embedding of `getViewMatrix`. -/
def getViewMatrix (M : Scalar α) (c : PlaneCamera α) : Mat4 α :=
  match lookAtArgs M c with
  | some (eye, center, up) => lookAt M eye center up
  | none => Mat4.identity

/-- Embedding of `getPlaneModelMatrix`. -/
def getPlaneModelMatrix (M : Scalar α) (c : PlaneCamera α) : Mat4 α :=
  let model : Mat4 α := Mat4.identity
  let model := translate model c.planePosition
  let rotation : Mat4 α := Mat4.identity
  let rotation :=
    if c.selectedCameraType = EulerAngles then
      let rotation := rotate M rotation c.rotZ WORLD_FRONT
      let rotation := rotate M rotation c.rotY WORLD_UP
      rotate M rotation c.rotX WORLD_RIGHT
    else if c.selectedCameraType = FrontRightUpVecs then
      let rotation := { rotation with c0 := Vec4.ofVec3 c.right 0 }
      let rotation := { rotation with c1 := Vec4.ofVec3 c.up 0 }
      { rotation with c2 := Vec4.ofVec3 c.front.neg 0 }
    else if c.selectedCameraType = Quaternions then
      toMat4 c.planeOrientation
    else rotation
  model.mul rotation

/-- The constructed camera after the free-movement box is cleared and the perspective is
toggled to first person: the observer camera with the first-person offset selected. -/
def observerFirstPerson : PlaneCamera α :=
  { (default : PlaneCamera α) with
    moveFreely := false
    firstPerson := true
    cameraOffset := ⟨0, 1, 0⟩ }

/-- The constructed camera with the free-movement box cleared. -/
def observer : PlaneCamera α :=
  { (default : PlaneCamera α) with moveFreely := false }

/-- The three values of the mode enumeration. -/
def isMode (m : Int) : Prop := m = EulerAngles ∨ m = FrontRightUpVecs ∨ m = Quaternions

/-- The six keys that rotate: A, D (yaw), Q, E (pitch), Z, X (roll). -/
def isRotationKey (key : Int) : Prop :=
  key = GLFW_KEY_A ∨ key = GLFW_KEY_D ∨ key = GLFW_KEY_Q ∨ key = GLFW_KEY_E ∨
  key = GLFW_KEY_Z ∨ key = GLFW_KEY_X

/-- The eight keys that `processKeyboardInput` has a case for. -/
def isRecognizedKey (key : Int) : Prop :=
  key = GLFW_KEY_W ∨ key = GLFW_KEY_S ∨ isRotationKey key

/-- A sequence of calls `processKeyboardInput(key, deltaTime)`, applied from left to
right. -/
def processKeyboardInputs (M : Scalar α) (c : PlaneCamera α) (inputs : List (Int × α)) :
    PlaneCamera α :=
  inputs.foldl (fun s i => processKeyboardInput M s i.1 i.2) c

/-- The offset predicate: `cameraOffset` is the preset selected by `firstPerson`. -/
def offsetFollowsFlag (c : PlaneCamera α) : Prop :=
  c.cameraOffset = if c.firstPerson then c.firstPersonOffset else c.thirdPersonOffset

/-- The frame predicate: `front` and `up` are unit vectors, `front` is orthogonal to
`up`, and `right = front × up`. -/
def orthonormalFrame (c : PlaneCamera α) : Prop :=
  dot c.front c.front = 1 ∧ dot c.up c.up = 1 ∧ dot c.front c.up = 0 ∧
  c.right = cross c.front c.up

/-- The constructed camera in Euler mode with the given angles: what
`updateCameraType(EulerAngles)` followed by rotation keys leaves. -/
def eulerState (x y z : α) : PlaneCamera α :=
  { (default : PlaneCamera α) with
    selectedCameraType := EulerAngles
    rotX := x
    rotY := y
    rotZ := z }

/-- The constructed camera put in Quaternion mode with the given position and
orientation, `cameraPosition` still being the constructed `(0,1,10)`. -/
def quaternionState (position : Vec3 α) (q : Quat α) : PlaneCamera α :=
  { (default : PlaneCamera α) with
    selectedCameraType := Quaternions
    planePosition := position
    planeOrientation := q }

/-- The constructed camera, in Basis mode, with the given frame: what rotation keys
leave. -/
def basisState (front up right : Vec3 α) : PlaneCamera α :=
  { (default : PlaneCamera α) with
    front := front
    up := up
    right := right }

end PlaneCamera

/-- The settings-panel step of `main` (`main.cpp`, the three statements after the colour
widget): `ImGui::Combo` writes the item picked this frame, if any, into
`planeCamera.selectedCameraType`; `ImGui::Checkbox` flips `planeCamera.moveFreely` when
it is clicked; then `planeCamera.updateCameraType(planeCamera.selectedCameraType)`. -/
def mainSettingsPanel (M : Scalar α) (c : PlaneCamera α) (picked : Option Int)
    (clicked : Bool) : PlaneCamera α :=
  let c :=
    match picked with
    | some m => { c with selectedCameraType := m }
    | none => c
  let c := if clicked then { c with moveFreely := !c.moveFreely } else c
  c.updateCameraType M c.selectedCameraType

/-! Section: Binary32 arithmetic.

Statements that assert exact equalities of computed `float` values are also evaluated in
a model of binary32: a `float` is the rational number it denotes, and every operation is
the exact operation followed by rounding to nearest, ties to even, with 24 significant
bits.  The functions of GLM and of the camera are transcribed a second time over this
arithmetic, operation by operation in the order of the sources, in the namespaces
`Glm.F32` and `PlaneCamera.F32`. -/

namespace Glm

/-- The power `2^e` for an integer `e`, computed with a natural power. -/
def pow2 {K : Type} [LinearOrderedField K] (e : ℤ) : K :=
  if 0 ≤ e then ((2 ^ e.toNat : ℕ) : K) else 1 / ((2 ^ (-e).toNat : ℕ) : K)

/-- Bisection for the exponent of the binade of `x ≥ 0` among the `2^k` exponents from `e`
upwards: the exponent `e'` with `2^e' ≤ x < 2^(e'+1)` when there is one in the range, the
first exponent of the range when `x` is smaller and the last one when `x` is greater. -/
def exponentFrom {K : Type} [LinearOrderedField K] (x : K) : ℕ → ℤ → ℤ
  | 0, e => e
  | k + 1, e =>
    if x < pow2 (e + 2 ^ k) then exponentFrom x k e else exponentFrom x k (e + 2 ^ k)

/-- The integer nearest to `y`, the even one of the two when `y` lies halfway. -/
def roundEven {K : Type} [LinearOrderedField K] [FloorRing K] (y : K) : ℤ :=
  if y - ⌊y⌋ < 1 / 2 then ⌊y⌋
  else if 1 / 2 < y - ⌊y⌋ then ⌊y⌋ + 1
  else if ⌊y⌋ % 2 = 0 then ⌊y⌋ else ⌊y⌋ + 1

/-- The exponent that binary32 gives `x`: that of its binade, kept within `-126 .. 127`, so
that values below `2^-126` get the exponent of the subnormal numbers. -/
def exponent32 {K : Type} [LinearOrderedField K] (x : K) : ℤ :=
  min (exponentFrom |x| 8 (-126)) 127

/-- Rounding to binary32, to nearest with ties to even: the nearest multiple of the unit in
the last of 24 significant bits.  Values from `2^128` on, which binary32 turns into an
infinity, are rounded with the unit of the last binade. -/
def round32 {K : Type} [LinearOrderedField K] [FloorRing K] (x : K) : ℚ :=
  roundEven (x / pow2 (exponent32 x - 23)) * pow2 (exponent32 x - 23)

/-- The integer square root by bits: with `r = 0` and `i` bits, the greatest `s < 2^i` with
`s * s ≤ y`. -/
def sqrtBits (y : ℕ) : ℕ → ℕ → ℕ
  | 0, r => r
  | i + 1, r =>
    if (r + 2 ^ i) * (r + 2 ^ i) ≤ y then sqrtBits y i (r + 2 ^ i) else sqrtBits y i r

/-- The correctly rounded square root of IEEE 754 for binary32: `x` is scaled by a power of
four into `[2^48, 2^50)`, the integer square root `s` of the scaled value has 25 bits, and
its last bit decides the rounding of the 24-bit significand (`s` even: down; `s` odd: up,
or to even when the scaled value is exactly `s * s`). -/
def sqrt32 (x : ℚ) : ℚ :=
  if x ≤ 0 then 0
  else
    let k : ℤ := exponentFrom x 9 (-149) / 2
    let y : ℚ := x / pow2 (2 * k) * pow2 48
    let s : ℕ := sqrtBits ⌊y⌋₊ 25 0
    let n : ℕ :=
      if s % 2 = 0 then s / 2
      else if (s : ℚ) * s = y then (if (s / 2) % 2 = 0 then s / 2 else s / 2 + 1)
      else s / 2 + 1
    n * pow2 (k - 23)

/-- The Taylor polynomial of the sine of degree `2 k + 1` at `t`. -/
def sinSeries (t : ℚ) : ℕ → ℚ
  | 0 => t
  | k + 1 =>
    sinSeries t k + (-1) ^ (k + 1) * t ^ (2 * (k + 1) + 1) / (2 * (k + 1) + 1).factorial

/-- The Taylor polynomial of the cosine of degree `2 k` at `t`. -/
def cosSeries (t : ℚ) : ℕ → ℚ
  | 0 => 1
  | k + 1 => cosSeries t k + (-1) ^ (k + 1) * t ^ (2 * (k + 1)) / (2 * (k + 1)).factorial

/-- A binary32 number (`float`), kept as the rational number it denotes; the two zeros are
not told apart and there is no infinity or NaN. -/
structure F32 where
  val : ℚ
deriving DecidableEq

deriving instance DecidableEq for Vec3, Vec4, Quat

namespace F32

/-- A decimal or integer literal of type `float`: the nearest binary32 number. -/
def ofRat (q : ℚ) : F32 := ⟨round32 q⟩

instance (n : ℕ) : OfNat F32 n := ⟨ofRat n⟩

/-- The binary32 sum: the exact sum, rounded. -/
instance : Add F32 := ⟨fun a b => ⟨round32 (a.val + b.val)⟩⟩

/-- The binary32 difference: the exact difference, rounded. -/
instance : Sub F32 := ⟨fun a b => ⟨round32 (a.val - b.val)⟩⟩

/-- The binary32 product: the exact product, rounded. -/
instance : Mul F32 := ⟨fun a b => ⟨round32 (a.val * b.val)⟩⟩

/-- The binary32 quotient: the exact quotient, rounded. -/
instance : Div F32 := ⟨fun a b => ⟨round32 (a.val / b.val)⟩⟩

/-- The opposite, which is exact. -/
instance : Neg F32 := ⟨fun a => ⟨-a.val⟩⟩

instance : LT F32 := ⟨fun a b => a.val < b.val⟩

instance : LE F32 := ⟨fun a b => a.val ≤ b.val⟩

instance (a b : F32) : Decidable (a < b) := inferInstanceAs (Decidable (a.val < b.val))

instance (a b : F32) : Decidable (a ≤ b) := inferInstanceAs (Decidable (a.val ≤ b.val))

/-- Binary32 `sqrtf`, correctly rounded as IEEE 754 requires. -/
def sqrt (x : F32) : F32 := ⟨sqrt32 x.val⟩

/-- Binary32 `sinf`, taken as the binary32 number nearest to the Taylor polynomial of degree
25, which differs from the sine by less than `10^-15` for `|x| ≤ 3`. -/
def sin (x : F32) : F32 := ⟨round32 (sinSeries x.val 12)⟩

/-- Binary32 `cosf`, taken as the binary32 number nearest to the Taylor polynomial of degree
24, which differs from the cosine by less than `10^-14` for `|x| ≤ 3`. -/
def cos (x : F32) : F32 := ⟨round32 (cosSeries x.val 12)⟩

/-- Binary32 `fabsf`. -/
def abs (x : F32) : F32 := ⟨|x.val|⟩

end F32

/-- The `<cmath>` functions in binary32.  `asinf` and `atan2f`, whose results the camera
only stores in `rotX`, `rotY` and `rotZ`, are the real functions rounded to binary32. -/
noncomputable def Scalar.binary32 : Scalar F32 where
  sin := F32.sin
  cos := F32.cos
  asin := fun x => ⟨round32 (Real.arcsin x.val)⟩
  atan2 := fun y x => ⟨round32 (Complex.arg ⟨x.val, y.val⟩)⟩
  sqrt := F32.sqrt
  pi := F32.ofRat (314159265358979323846 / 10 ^ 20)
  epsilon := F32.ofRat (1 / 2 ^ 23)

namespace F32

/-- Binary32 evaluation of `vec3 + vec3`. -/
def Vec3.add (a b : Vec3 F32) : Vec3 F32 := ⟨a.x + b.x, a.y + b.y, a.z + b.z⟩

/-- Binary32 evaluation of `vec3 - vec3`. -/
def Vec3.sub (a b : Vec3 F32) : Vec3 F32 := ⟨a.x - b.x, a.y - b.y, a.z - b.z⟩

/-- Binary32 evaluation of `-vec3`. -/
def Vec3.neg (a : Vec3 F32) : Vec3 F32 := ⟨-a.x, -a.y, -a.z⟩

/-- Binary32 evaluation of `vec3 * float`. -/
def Vec3.scale (a : Vec3 F32) (s : F32) : Vec3 F32 := ⟨a.x * s, a.y * s, a.z * s⟩

/-- Binary32 evaluation of `float * vec3`. -/
def Vec3.lscale (s : F32) (a : Vec3 F32) : Vec3 F32 := ⟨s * a.x, s * a.y, s * a.z⟩

/-- Binary32 evaluation of `glm::dot` on `vec3`: `tmp.x + tmp.y + tmp.z` for the
componentwise product `tmp`. -/
def dot (a b : Vec3 F32) : F32 := a.x * b.x + a.y * b.y + a.z * b.z

/-- Binary32 evaluation of `glm::cross`. -/
def cross (a b : Vec3 F32) : Vec3 F32 :=
  ⟨a.y * b.z - b.y * a.z, a.z * b.x - b.z * a.x, a.x * b.y - b.x * a.y⟩

/-- Binary32 evaluation of `glm::inversesqrt`. -/
def inversesqrt (M : Scalar F32) (x : F32) : F32 := 1 / M.sqrt x

/-- Binary32 evaluation of `glm::normalize` on `vec3`. -/
def normalize (M : Scalar F32) (v : Vec3 F32) : Vec3 F32 :=
  Vec3.scale v (inversesqrt M (dot v v))

/-- Binary32 evaluation of `glm::radians`: degrees times the `float` literal
`0.01745329251994329576923690768489`. -/
def radians (degrees : F32) : F32 :=
  degrees * ofRat (1745329251994329576923690768489 / 10 ^ 32)

/-- Binary32 evaluation of `glm::clamp`: `min(max(x, minVal), maxVal)`, with
`max(a, b) = (a < b) ? b : a` and `min(a, b) = (b < a) ? b : a`. -/
def clamp (x minVal maxVal : F32) : F32 :=
  let m := if x < minVal then minVal else x
  if maxVal < m then maxVal else m

/-- Binary32 evaluation of `vec4 + vec4`. -/
def Vec4.add (a b : Vec4 F32) : Vec4 F32 := ⟨a.x + b.x, a.y + b.y, a.z + b.z, a.w + b.w⟩

/-- Binary32 evaluation of `vec4 * float`. -/
def Vec4.scale (a : Vec4 F32) (s : F32) : Vec4 F32 := ⟨a.x * s, a.y * s, a.z * s, a.w * s⟩

/-- The constructor `glm::vec4(v, w)`. -/
def Vec4.ofVec3 (v : Vec3 F32) (w : F32) : Vec4 F32 := ⟨v.x, v.y, v.z, w⟩

/-- The conversion `glm::vec3(v)` of a `vec4`: drops `w`. -/
def Vec4.xyz (v : Vec4 F32) : Vec3 F32 := ⟨v.x, v.y, v.z⟩

/-- The matrix `glm::mat4(1.0f)`. -/
def Mat4.identity : Mat4 F32 := ⟨⟨1, 0, 0, 0⟩, ⟨0, 1, 0, 0⟩, ⟨0, 0, 1, 0⟩, ⟨0, 0, 0, 1⟩⟩

/-- The conversion `glm::mat3(m)` of a `mat4`: the upper-left block. -/
def Mat4.toMat3 (m : Mat4 F32) : Mat3 F32 := ⟨Vec4.xyz m.c0, Vec4.xyz m.c1, Vec4.xyz m.c2⟩

/-- Binary32 evaluation of `mat4 * vec4`: `(m[0]*v.x + m[1]*v.y) + (m[2]*v.z + m[3]*v.w)`. -/
def Mat4.mulVec (m : Mat4 F32) (v : Vec4 F32) : Vec4 F32 :=
  Vec4.add (Vec4.add (Vec4.scale m.c0 v.x) (Vec4.scale m.c1 v.y))
    (Vec4.add (Vec4.scale m.c2 v.z) (Vec4.scale m.c3 v.w))

/-- Binary32 evaluation of `mat3 * vec3`. -/
def Mat3.mulVec (m : Mat3 F32) (v : Vec3 F32) : Vec3 F32 :=
  ⟨m.c0.x * v.x + m.c1.x * v.y + m.c2.x * v.z,
   m.c0.y * v.x + m.c1.y * v.y + m.c2.y * v.z,
   m.c0.z * v.x + m.c1.z * v.y + m.c2.z * v.z⟩

/-- Binary32 evaluation of `glm::rotate(m, angle, v)`. -/
def rotate (M : Scalar F32) (m : Mat4 F32) (angle : F32) (v : Vec3 F32) : Mat4 F32 :=
  let c := M.cos angle
  let s := M.sin angle
  let axis := normalize M v
  let temp := Vec3.lscale (1 - c) axis
  let r00 := c + temp.x * axis.x
  let r01 := temp.x * axis.y + s * axis.z
  let r02 := temp.x * axis.z - s * axis.y
  let r10 := temp.y * axis.x - s * axis.z
  let r11 := c + temp.y * axis.y
  let r12 := temp.y * axis.z + s * axis.x
  let r20 := temp.z * axis.x + s * axis.y
  let r21 := temp.z * axis.y - s * axis.x
  let r22 := c + temp.z * axis.z
  ⟨Vec4.add (Vec4.add (Vec4.scale m.c0 r00) (Vec4.scale m.c1 r01)) (Vec4.scale m.c2 r02),
   Vec4.add (Vec4.add (Vec4.scale m.c0 r10) (Vec4.scale m.c1 r11)) (Vec4.scale m.c2 r12),
   Vec4.add (Vec4.add (Vec4.scale m.c0 r20) (Vec4.scale m.c1 r21)) (Vec4.scale m.c2 r22),
   m.c3⟩

/-- Binary32 evaluation of `glm::angleAxis(angle, v)`. -/
def angleAxis (M : Scalar F32) (angle : F32) (v : Vec3 F32) : Quat F32 :=
  let s := M.sin (angle * (1 / 2))
  ⟨M.cos (angle * (1 / 2)), v.x * s, v.y * s, v.z * s⟩

/-- Binary32 evaluation of `quat * quat`. -/
def Quat.mul (p q : Quat F32) : Quat F32 :=
  ⟨p.w * q.w - p.x * q.x - p.y * q.y - p.z * q.z,
   p.w * q.x + p.x * q.w + p.y * q.z - p.z * q.y,
   p.w * q.y + p.y * q.w + p.z * q.x - p.x * q.z,
   p.w * q.z + p.z * q.w + p.x * q.y - p.y * q.x⟩

/-- Binary32 evaluation of `quat * vec3`. -/
def Quat.rotateVec (q : Quat F32) (v : Vec3 F32) : Vec3 F32 :=
  let quatVector : Vec3 F32 := ⟨q.x, q.y, q.z⟩
  let uv := cross quatVector v
  let uuv := cross quatVector uv
  Vec3.add v (Vec3.scale (Vec3.add (Vec3.scale uv q.w) uuv) 2)

/-- Binary32 evaluation of `glm::dot` on quaternions: `(tmp.x + tmp.y) + (tmp.z + tmp.w)`
for `tmp = vec4(a.w * b.w, a.x * b.x, a.y * b.y, a.z * b.z)`. -/
def Quat.dot (a b : Quat F32) : F32 := (a.w * b.w + a.x * b.x) + (a.y * b.y + a.z * b.z)

/-- Binary32 evaluation of `glm::length` on a quaternion. -/
def Quat.length (M : Scalar F32) (q : Quat F32) : F32 := M.sqrt (Quat.dot q q)

/-- Binary32 evaluation of `glm::normalize` on a quaternion. -/
def Quat.normalize (M : Scalar F32) (q : Quat F32) : Quat F32 :=
  let len := Quat.length M q
  if len ≤ 0 then ⟨1, 0, 0, 0⟩
  else
    let oneOverLen := 1 / len
    ⟨q.w * oneOverLen, q.x * oneOverLen, q.y * oneOverLen, q.z * oneOverLen⟩

/-- Binary32 evaluation of `glm::quat_cast` on a `mat3`. -/
def quatCast (M : Scalar F32) (m : Mat3 F32) : Quat F32 :=
  let fourXSquaredMinus1 := m.c0.x - m.c1.y - m.c2.z
  let fourYSquaredMinus1 := m.c1.y - m.c0.x - m.c2.z
  let fourZSquaredMinus1 := m.c2.z - m.c0.x - m.c1.y
  let fourWSquaredMinus1 := m.c0.x + m.c1.y + m.c2.z
  let s0 : Nat × F32 := (0, fourWSquaredMinus1)
  let s1 : Nat × F32 := if fourXSquaredMinus1 > s0.2 then (1, fourXSquaredMinus1) else s0
  let s2 : Nat × F32 := if fourYSquaredMinus1 > s1.2 then (2, fourYSquaredMinus1) else s1
  let s3 : Nat × F32 := if fourZSquaredMinus1 > s2.2 then (3, fourZSquaredMinus1) else s2
  let biggestIndex := s3.1
  let biggestVal := M.sqrt (s3.2 + 1) * (1 / 2)
  let mult := (1 / 4) / biggestVal
  if biggestIndex = 0 then
    ⟨biggestVal, (m.c1.z - m.c2.y) * mult, (m.c2.x - m.c0.z) * mult, (m.c0.y - m.c1.x) * mult⟩
  else if biggestIndex = 1 then
    ⟨(m.c1.z - m.c2.y) * mult, biggestVal, (m.c0.y + m.c1.x) * mult, (m.c2.x + m.c0.z) * mult⟩
  else if biggestIndex = 2 then
    ⟨(m.c2.x - m.c0.z) * mult, (m.c0.y + m.c1.x) * mult, biggestVal, (m.c1.z + m.c2.y) * mult⟩
  else
    ⟨(m.c0.y - m.c1.x) * mult, (m.c2.x + m.c0.z) * mult, (m.c1.z + m.c2.y) * mult, biggestVal⟩

/-- Binary32 evaluation of `glm::toQuat` on a `mat4`. -/
def toQuat (M : Scalar F32) (m : Mat4 F32) : Quat F32 := quatCast M (Mat4.toMat3 m)

/-- Binary32 evaluation of `glm::roll`. -/
def roll (M : Scalar F32) (q : Quat F32) : F32 :=
  let y := 2 * (q.x * q.y + q.w * q.z)
  let x := q.w * q.w + q.x * q.x - q.y * q.y - q.z * q.z
  if abs (x - 0) ≤ M.epsilon ∧ abs (y - 0) ≤ M.epsilon then 0
  else M.atan2 y x

/-- Binary32 evaluation of `glm::pitch`. -/
def pitch (M : Scalar F32) (q : Quat F32) : F32 :=
  let y := 2 * (q.y * q.z + q.w * q.x)
  let x := q.w * q.w - q.x * q.x - q.y * q.y + q.z * q.z
  if abs (x - 0) ≤ M.epsilon ∧ abs (y - 0) ≤ M.epsilon then 2 * M.atan2 q.x q.w
  else M.atan2 y x

/-- Binary32 evaluation of `glm::yaw`. -/
def yaw (M : Scalar F32) (q : Quat F32) : F32 :=
  M.asin (clamp (-2 * (q.x * q.z - q.w * q.y)) (-1) 1)

/-- Binary32 evaluation of `glm::eulerAngles`: `(pitch, yaw, roll)`. -/
def eulerAngles (M : Scalar F32) (q : Quat F32) : Vec3 F32 := ⟨pitch M q, yaw M q, roll M q⟩

end F32

end Glm

namespace PlaneCamera

namespace F32

/-- Binary32 value of `CAMERA_SPEED = 2.5f`. -/
def CAMERA_SPEED : F32 := Glm.F32.ofRat (5 / 2)

/-- Binary32 value of `TURN_SPEED = 5.0f`. -/
def TURN_SPEED : F32 := 5

/-- Binary32 value of `ZOOM = 50.0f`. -/
def ZOOM : F32 := 50

/-- Binary32 value of `WORLD_ORIGIN(0, 0, 0)`. -/
def WORLD_ORIGIN : Vec3 F32 := ⟨0, 0, 0⟩

/-- Binary32 value of `WORLD_FRONT(0, 0, -1)`. -/
def WORLD_FRONT : Vec3 F32 := ⟨0, 0, -1⟩

/-- Binary32 value of `WORLD_UP(0, 1, 0)`. -/
def WORLD_UP : Vec3 F32 := ⟨0, 1, 0⟩

/-- Binary32 value of `WORLD_RIGHT(1, 0, 0)`. -/
def WORLD_RIGHT : Vec3 F32 := ⟨1, 0, 0⟩

/-- Binary32 value of `QUAT_IDENTITY(1, 0, 0, 0)`. -/
def QUAT_IDENTITY : Quat F32 := ⟨1, 0, 0, 0⟩

/-- The constructor, evaluated in binary32. -/
def ctor (planePosition firstPersonOffset thirdPersonOffset : Vec3 F32) (zoomEnable : Bool) :
    PlaneCamera F32 :=
  let front : Vec3 F32 := WORLD_FRONT
  let up : Vec3 F32 := WORLD_UP
  let firstPerson := false
  let cameraOffset := if firstPerson then firstPersonOffset else thirdPersonOffset
  { planePosition := planePosition
    cameraPosition := Glm.F32.Vec3.add planePosition cameraOffset
    cameraOffset := cameraOffset
    firstPersonOffset := firstPersonOffset
    thirdPersonOffset := thirdPersonOffset
    front := front
    up := up
    right := Glm.F32.cross front up
    rotX := 0
    rotY := 0
    rotZ := 0
    planeOrientation := QUAT_IDENTITY
    selectedCameraType := FrontRightUpVecs
    movementSpeed := CAMERA_SPEED
    zoom := ZOOM
    turnSpeed := TURN_SPEED
    zoomEnabled := zoomEnable
    firstPerson := firstPerson
    moveFreely := true }

/-- The constructor called with its default arguments, evaluated in binary32. -/
def default : PlaneCamera F32 := ctor WORLD_ORIGIN ⟨0, 1, 0⟩ ⟨0, 1, 10⟩ true

/-- Binary32 evaluation of `getRotatedOffset`. -/
def getRotatedOffset (M : Scalar F32) (c : PlaneCamera F32) (offset : Vec3 F32) : Vec3 F32 :=
  let rotation : Mat4 F32 := Glm.F32.Mat4.identity
  let rotation := Glm.F32.rotate M rotation c.rotZ WORLD_FRONT
  let rotation := Glm.F32.rotate M rotation c.rotY WORLD_UP
  let rotation := Glm.F32.rotate M rotation c.rotX WORLD_RIGHT
  Glm.F32.Vec4.xyz (Glm.F32.Mat4.mulVec rotation (Glm.F32.Vec4.ofVec3 offset 1))

/-- Binary32 evaluation of `updateCameraPosition`. -/
def updateCameraPosition (M : Scalar F32) (c : PlaneCamera F32) : PlaneCamera F32 :=
  if c.selectedCameraType = EulerAngles then
    if c.moveFreely then
      { c with cameraPosition :=
          Glm.F32.Vec3.add c.planePosition (getRotatedOffset M c c.cameraOffset) }
    else
      { c with cameraPosition := Glm.F32.Vec3.add c.planePosition c.thirdPersonOffset }
  else if c.selectedCameraType = FrontRightUpVecs then
    if c.moveFreely then
      { c with
        cameraPosition :=
          Glm.F32.Vec3.add
            (Glm.F32.Vec3.sub c.planePosition (Glm.F32.Vec3.scale c.front c.cameraOffset.z))
            (Glm.F32.Vec3.scale c.up c.cameraOffset.y) }
    else
      { c with cameraPosition := Glm.F32.Vec3.add c.planePosition c.thirdPersonOffset }
  else if c.selectedCameraType = Quaternions then
    if c.moveFreely then
      { c with
        cameraPosition :=
          Glm.F32.Vec3.add c.planePosition
            (Glm.F32.Quat.rotateVec c.planeOrientation c.cameraOffset) }
    else
      { c with cameraPosition := Glm.F32.Vec3.add c.planePosition c.thirdPersonOffset }
  else c

/-- Binary32 evaluation of the `switch` of `updateCameraType`. -/
def convertEncodings (M : Scalar F32) (c : PlaneCamera F32) : PlaneCamera F32 :=
  if c.selectedCameraType = EulerAngles then
    let qPitch := Glm.F32.angleAxis M c.rotX WORLD_RIGHT
    let qYaw := Glm.F32.angleAxis M c.rotY WORLD_UP
    let qRoll := Glm.F32.angleAxis M c.rotZ WORLD_FRONT
    { c with
      front := getRotatedOffset M c WORLD_FRONT
      right := getRotatedOffset M c WORLD_RIGHT
      up := getRotatedOffset M c WORLD_UP
      planeOrientation :=
        Glm.F32.Quat.normalize M (Glm.F32.Quat.mul (Glm.F32.Quat.mul qYaw qPitch) qRoll) }
  else if c.selectedCameraType = FrontRightUpVecs then
    let rotationMatrix : Mat4 F32 := Glm.F32.Mat4.identity
    let rotationMatrix := { rotationMatrix with c0 := Glm.F32.Vec4.ofVec3 c.right 0 }
    let rotationMatrix := { rotationMatrix with c1 := Glm.F32.Vec4.ofVec3 c.up 0 }
    let rotationMatrix :=
      { rotationMatrix with c2 := Glm.F32.Vec4.ofVec3 (Glm.F32.Vec3.neg c.front) 0 }
    { c with
      rotX := M.asin c.front.y
      rotY := -M.atan2 c.front.x (-c.front.z)
      rotZ := M.atan2 c.right.y c.up.y
      planeOrientation := Glm.F32.toQuat M rotationMatrix }
  else if c.selectedCameraType = Quaternions then
    let eulerAngles := Glm.F32.eulerAngles M c.planeOrientation
    { c with
      rotX := eulerAngles.x
      rotY := eulerAngles.y
      rotZ := eulerAngles.z
      front := Glm.F32.Quat.rotateVec c.planeOrientation WORLD_FRONT
      right := Glm.F32.Quat.rotateVec c.planeOrientation WORLD_RIGHT
      up := Glm.F32.Quat.rotateVec c.planeOrientation WORLD_UP }
  else c

/-- Binary32 evaluation of `updateCameraType(camType)`. -/
def updateCameraType (M : Scalar F32) (c : PlaneCamera F32) (camType : Int) :
    PlaneCamera F32 :=
  let c := convertEncodings M c
  let c := { c with selectedCameraType := camType }
  updateCameraPosition M c

/-- Binary32 evaluation of the inner `switch (key)` of `processKeyboardInput`, case
`EulerAngles`. -/
def eulerKeys (c : PlaneCamera F32) (key : Int) (rotationSpeed : F32) : PlaneCamera F32 :=
  if key = GLFW_KEY_A then { c with rotY := c.rotY + Glm.F32.radians rotationSpeed }
  else if key = GLFW_KEY_D then { c with rotY := c.rotY - Glm.F32.radians rotationSpeed }
  else if key = GLFW_KEY_Q then { c with rotX := c.rotX + Glm.F32.radians rotationSpeed }
  else if key = GLFW_KEY_E then { c with rotX := c.rotX - Glm.F32.radians rotationSpeed }
  else if key = GLFW_KEY_Z then { c with rotZ := c.rotZ - Glm.F32.radians rotationSpeed }
  else if key = GLFW_KEY_X then { c with rotZ := c.rotZ + Glm.F32.radians rotationSpeed }
  else c

/-- Binary32 evaluation of the inner `switch (key)` of `processKeyboardInput`, case
`FrontRightUpVecs`. -/
def basisKeys (M : Scalar F32) (c : PlaneCamera F32) (key : Int) (velocity rotationSpeed : F32) :
    PlaneCamera F32 :=
  if key = GLFW_KEY_W then
    { c with
      planePosition := Glm.F32.Vec3.add c.planePosition (Glm.F32.Vec3.scale c.front velocity) }
  else if key = GLFW_KEY_S then
    { c with
      planePosition := Glm.F32.Vec3.sub c.planePosition (Glm.F32.Vec3.scale c.front velocity) }
  else if key = GLFW_KEY_A then
    let angle := Glm.F32.radians rotationSpeed
    let c :=
      { c with
        front :=
          Glm.F32.Mat3.mulVec
            (Glm.F32.Mat4.toMat3 (Glm.F32.rotate M Glm.F32.Mat4.identity angle c.up))
            c.front }
    { c with right := Glm.F32.cross c.front c.up }
  else if key = GLFW_KEY_D then
    let angle := Glm.F32.radians (-rotationSpeed)
    let c :=
      { c with
        front :=
          Glm.F32.Mat3.mulVec
            (Glm.F32.Mat4.toMat3 (Glm.F32.rotate M Glm.F32.Mat4.identity angle c.up))
            c.front }
    { c with right := Glm.F32.cross c.front c.up }
  else if key = GLFW_KEY_Q then
    let angle := Glm.F32.radians rotationSpeed
    let c :=
      { c with
        front :=
          Glm.F32.Mat3.mulVec
            (Glm.F32.Mat4.toMat3 (Glm.F32.rotate M Glm.F32.Mat4.identity angle c.right))
            c.front }
    { c with up := Glm.F32.cross c.right c.front }
  else if key = GLFW_KEY_E then
    let angle := Glm.F32.radians (-rotationSpeed)
    let c :=
      { c with
        front :=
          Glm.F32.Mat3.mulVec
            (Glm.F32.Mat4.toMat3 (Glm.F32.rotate M Glm.F32.Mat4.identity angle c.right))
            c.front }
    { c with up := Glm.F32.cross c.right c.front }
  else if key = GLFW_KEY_Z then
    let angle := Glm.F32.radians (-rotationSpeed)
    let c :=
      { c with
        up :=
          Glm.F32.Mat3.mulVec
            (Glm.F32.Mat4.toMat3 (Glm.F32.rotate M Glm.F32.Mat4.identity angle c.front))
            c.up }
    { c with right := Glm.F32.cross c.front c.up }
  else if key = GLFW_KEY_X then
    let angle := Glm.F32.radians rotationSpeed
    let c :=
      { c with
        up :=
          Glm.F32.Mat3.mulVec
            (Glm.F32.Mat4.toMat3 (Glm.F32.rotate M Glm.F32.Mat4.identity angle c.front))
            c.up }
    { c with right := Glm.F32.cross c.front c.up }
  else c

/-- Binary32 evaluation of the inner `switch (key)` of `processKeyboardInput`, case
`Quaternions`. -/
def quaternionKeys (M : Scalar F32) (c : PlaneCamera F32) (key : Int)
    (velocity rotationSpeed : F32) : PlaneCamera F32 :=
  if key = GLFW_KEY_W then
    { c with
      planePosition :=
        Glm.F32.Vec3.add c.planePosition
          (Glm.F32.Vec3.scale (Glm.F32.Quat.rotateVec c.planeOrientation WORLD_FRONT)
            velocity) }
  else if key = GLFW_KEY_S then
    { c with
      planePosition :=
        Glm.F32.Vec3.sub c.planePosition
          (Glm.F32.Vec3.scale (Glm.F32.Quat.rotateVec c.planeOrientation WORLD_FRONT)
            velocity) }
  else if key = GLFW_KEY_A then
    let angle := Glm.F32.radians rotationSpeed
    let rotationQuat := Glm.F32.angleAxis M angle WORLD_UP
    { c with
      planeOrientation :=
        Glm.F32.Quat.normalize M (Glm.F32.Quat.mul rotationQuat c.planeOrientation) }
  else if key = GLFW_KEY_D then
    let angle := Glm.F32.radians (-rotationSpeed)
    let rotationQuat := Glm.F32.angleAxis M angle WORLD_UP
    { c with
      planeOrientation :=
        Glm.F32.Quat.normalize M (Glm.F32.Quat.mul rotationQuat c.planeOrientation) }
  else if key = GLFW_KEY_Q then
    let angle := Glm.F32.radians rotationSpeed
    let rotationQuat :=
      Glm.F32.angleAxis M angle (Glm.F32.Quat.rotateVec c.planeOrientation WORLD_RIGHT)
    { c with
      planeOrientation :=
        Glm.F32.Quat.normalize M (Glm.F32.Quat.mul rotationQuat c.planeOrientation) }
  else if key = GLFW_KEY_E then
    let angle := Glm.F32.radians (-rotationSpeed)
    let rotationQuat :=
      Glm.F32.angleAxis M angle (Glm.F32.Quat.rotateVec c.planeOrientation WORLD_RIGHT)
    { c with
      planeOrientation :=
        Glm.F32.Quat.normalize M (Glm.F32.Quat.mul rotationQuat c.planeOrientation) }
  else if key = GLFW_KEY_Z then
    let angle := Glm.F32.radians (-rotationSpeed)
    let rotationQuat :=
      Glm.F32.angleAxis M angle (Glm.F32.Quat.rotateVec c.planeOrientation WORLD_FRONT)
    { c with
      planeOrientation :=
        Glm.F32.Quat.normalize M (Glm.F32.Quat.mul rotationQuat c.planeOrientation) }
  else if key = GLFW_KEY_X then
    let angle := Glm.F32.radians rotationSpeed
    let rotationQuat :=
      Glm.F32.angleAxis M angle (Glm.F32.Quat.rotateVec c.planeOrientation WORLD_FRONT)
    { c with
      planeOrientation :=
        Glm.F32.Quat.normalize M (Glm.F32.Quat.mul rotationQuat c.planeOrientation) }
  else c

/-- Binary32 evaluation of `processKeyboardInput(key, deltaTime)`. -/
def processKeyboardInput (M : Scalar F32) (c : PlaneCamera F32) (key : Int) (deltaTime : F32) :
    PlaneCamera F32 :=
  let velocity := c.movementSpeed * deltaTime
  let rotationSpeed := c.turnSpeed * deltaTime
  if c.selectedCameraType = EulerAngles then
    let c := eulerKeys c key rotationSpeed
    if c.moveFreely then
      { c with cameraPosition :=
          Glm.F32.Vec3.add c.planePosition (getRotatedOffset M c c.cameraOffset) }
    else c
  else if c.selectedCameraType = FrontRightUpVecs then
    let c := basisKeys M c key velocity rotationSpeed
    if c.moveFreely then
      { c with
        cameraPosition :=
          Glm.F32.Vec3.add
            (Glm.F32.Vec3.sub c.planePosition (Glm.F32.Vec3.scale c.front c.cameraOffset.z))
            (Glm.F32.Vec3.scale c.up c.cameraOffset.y) }
    else c
  else if c.selectedCameraType = Quaternions then
    let c := quaternionKeys M c key velocity rotationSpeed
    if c.moveFreely then
      { c with
        cameraPosition :=
          Glm.F32.Vec3.add c.planePosition
            (Glm.F32.Quat.rotateVec c.planeOrientation c.cameraOffset) }
    else c
  else c

/-- The constructed camera in Euler mode with the given angles, in binary32. -/
def eulerState (x y z : F32) : PlaneCamera F32 :=
  { default with
    selectedCameraType := EulerAngles
    rotX := x
    rotY := y
    rotZ := z }

/-- The constructed camera put in Quaternion mode with the given position and
orientation, in binary32. -/
def quaternionState (position : Vec3 F32) (q : Quat F32) : PlaneCamera F32 :=
  { default with
    selectedCameraType := Quaternions
    planePosition := position
    planeOrientation := q }

/-- The constructed camera, in Basis mode, with the given frame, in binary32. -/
def basisState (front up right : Vec3 F32) : PlaneCamera F32 :=
  { default with
    front := front
    up := up
    right := right }

end F32

end PlaneCamera

/-! Section: Frame lemmas for `updateCameraPosition`. -/

/-- A projection of a conditional whose two branches project to the same value. -/
theorem proj_ite {σ β : Type} (f : σ → β) (p : Prop) [Decidable p] (a b : σ) (x : β)
    (ha : f a = x) (hb : f b = x) : f (if p then a else b) = x := by
  split <;> assumption

namespace PlaneCamera

@[simp]
theorem updateCameraPosition_planePosition (M : Scalar α) (c : PlaneCamera α) :
    (updateCameraPosition M c).planePosition = c.planePosition := by
  unfold updateCameraPosition
  repeat (first | rfl | refine proj_ite PlaneCamera.planePosition _ _ _ _ ?_ ?_)

@[simp]
theorem updateCameraPosition_cameraOffset (M : Scalar α) (c : PlaneCamera α) :
    (updateCameraPosition M c).cameraOffset = c.cameraOffset := by
  unfold updateCameraPosition
  repeat (first | rfl | refine proj_ite PlaneCamera.cameraOffset _ _ _ _ ?_ ?_)

@[simp]
theorem updateCameraPosition_firstPersonOffset (M : Scalar α) (c : PlaneCamera α) :
    (updateCameraPosition M c).firstPersonOffset = c.firstPersonOffset := by
  unfold updateCameraPosition
  repeat (first | rfl | refine proj_ite PlaneCamera.firstPersonOffset _ _ _ _ ?_ ?_)

@[simp]
theorem updateCameraPosition_thirdPersonOffset (M : Scalar α) (c : PlaneCamera α) :
    (updateCameraPosition M c).thirdPersonOffset = c.thirdPersonOffset := by
  unfold updateCameraPosition
  repeat (first | rfl | refine proj_ite PlaneCamera.thirdPersonOffset _ _ _ _ ?_ ?_)

@[simp]
theorem updateCameraPosition_front (M : Scalar α) (c : PlaneCamera α) :
    (updateCameraPosition M c).front = c.front := by
  unfold updateCameraPosition
  repeat (first | rfl | refine proj_ite PlaneCamera.front _ _ _ _ ?_ ?_)

@[simp]
theorem updateCameraPosition_up (M : Scalar α) (c : PlaneCamera α) :
    (updateCameraPosition M c).up = c.up := by
  unfold updateCameraPosition
  repeat (first | rfl | refine proj_ite PlaneCamera.up _ _ _ _ ?_ ?_)

@[simp]
theorem updateCameraPosition_right (M : Scalar α) (c : PlaneCamera α) :
    (updateCameraPosition M c).right = c.right := by
  unfold updateCameraPosition
  repeat (first | rfl | refine proj_ite PlaneCamera.right _ _ _ _ ?_ ?_)

@[simp]
theorem updateCameraPosition_rotX (M : Scalar α) (c : PlaneCamera α) :
    (updateCameraPosition M c).rotX = c.rotX := by
  unfold updateCameraPosition
  repeat (first | rfl | refine proj_ite PlaneCamera.rotX _ _ _ _ ?_ ?_)

@[simp]
theorem updateCameraPosition_rotY (M : Scalar α) (c : PlaneCamera α) :
    (updateCameraPosition M c).rotY = c.rotY := by
  unfold updateCameraPosition
  repeat (first | rfl | refine proj_ite PlaneCamera.rotY _ _ _ _ ?_ ?_)

@[simp]
theorem updateCameraPosition_rotZ (M : Scalar α) (c : PlaneCamera α) :
    (updateCameraPosition M c).rotZ = c.rotZ := by
  unfold updateCameraPosition
  repeat (first | rfl | refine proj_ite PlaneCamera.rotZ _ _ _ _ ?_ ?_)

@[simp]
theorem updateCameraPosition_planeOrientation (M : Scalar α) (c : PlaneCamera α) :
    (updateCameraPosition M c).planeOrientation = c.planeOrientation := by
  unfold updateCameraPosition
  repeat (first | rfl | refine proj_ite PlaneCamera.planeOrientation _ _ _ _ ?_ ?_)

@[simp]
theorem updateCameraPosition_selectedCameraType (M : Scalar α) (c : PlaneCamera α) :
    (updateCameraPosition M c).selectedCameraType = c.selectedCameraType := by
  unfold updateCameraPosition
  repeat (first | rfl | refine proj_ite PlaneCamera.selectedCameraType _ _ _ _ ?_ ?_)

@[simp]
theorem updateCameraPosition_movementSpeed (M : Scalar α) (c : PlaneCamera α) :
    (updateCameraPosition M c).movementSpeed = c.movementSpeed := by
  unfold updateCameraPosition
  repeat (first | rfl | refine proj_ite PlaneCamera.movementSpeed _ _ _ _ ?_ ?_)

@[simp]
theorem updateCameraPosition_zoom (M : Scalar α) (c : PlaneCamera α) :
    (updateCameraPosition M c).zoom = c.zoom := by
  unfold updateCameraPosition
  repeat (first | rfl | refine proj_ite PlaneCamera.zoom _ _ _ _ ?_ ?_)

@[simp]
theorem updateCameraPosition_turnSpeed (M : Scalar α) (c : PlaneCamera α) :
    (updateCameraPosition M c).turnSpeed = c.turnSpeed := by
  unfold updateCameraPosition
  repeat (first | rfl | refine proj_ite PlaneCamera.turnSpeed _ _ _ _ ?_ ?_)

@[simp]
theorem updateCameraPosition_zoomEnabled (M : Scalar α) (c : PlaneCamera α) :
    (updateCameraPosition M c).zoomEnabled = c.zoomEnabled := by
  unfold updateCameraPosition
  repeat (first | rfl | refine proj_ite PlaneCamera.zoomEnabled _ _ _ _ ?_ ?_)

@[simp]
theorem updateCameraPosition_firstPerson (M : Scalar α) (c : PlaneCamera α) :
    (updateCameraPosition M c).firstPerson = c.firstPerson := by
  unfold updateCameraPosition
  repeat (first | rfl | refine proj_ite PlaneCamera.firstPerson _ _ _ _ ?_ ?_)

@[simp]
theorem updateCameraPosition_moveFreely (M : Scalar α) (c : PlaneCamera α) :
    (updateCameraPosition M c).moveFreely = c.moveFreely := by
  unfold updateCameraPosition
  repeat (first | rfl | refine proj_ite PlaneCamera.moveFreely _ _ _ _ ?_ ?_)

/-! Section: Frame lemmas for the conversion of encodings. -/

@[simp]
theorem convertEncodings_planePosition (M : Scalar α) (c : PlaneCamera α) :
    (convertEncodings M c).planePosition = c.planePosition := by
  unfold convertEncodings
  repeat (first | rfl | refine proj_ite PlaneCamera.planePosition _ _ _ _ ?_ ?_)

@[simp]
theorem convertEncodings_cameraOffset (M : Scalar α) (c : PlaneCamera α) :
    (convertEncodings M c).cameraOffset = c.cameraOffset := by
  unfold convertEncodings
  repeat (first | rfl | refine proj_ite PlaneCamera.cameraOffset _ _ _ _ ?_ ?_)

@[simp]
theorem convertEncodings_firstPersonOffset (M : Scalar α) (c : PlaneCamera α) :
    (convertEncodings M c).firstPersonOffset = c.firstPersonOffset := by
  unfold convertEncodings
  repeat (first | rfl | refine proj_ite PlaneCamera.firstPersonOffset _ _ _ _ ?_ ?_)

@[simp]
theorem convertEncodings_thirdPersonOffset (M : Scalar α) (c : PlaneCamera α) :
    (convertEncodings M c).thirdPersonOffset = c.thirdPersonOffset := by
  unfold convertEncodings
  repeat (first | rfl | refine proj_ite PlaneCamera.thirdPersonOffset _ _ _ _ ?_ ?_)

@[simp]
theorem convertEncodings_selectedCameraType (M : Scalar α) (c : PlaneCamera α) :
    (convertEncodings M c).selectedCameraType = c.selectedCameraType := by
  unfold convertEncodings
  repeat (first | rfl | refine proj_ite PlaneCamera.selectedCameraType _ _ _ _ ?_ ?_)

@[simp]
theorem convertEncodings_movementSpeed (M : Scalar α) (c : PlaneCamera α) :
    (convertEncodings M c).movementSpeed = c.movementSpeed := by
  unfold convertEncodings
  repeat (first | rfl | refine proj_ite PlaneCamera.movementSpeed _ _ _ _ ?_ ?_)

@[simp]
theorem convertEncodings_zoom (M : Scalar α) (c : PlaneCamera α) :
    (convertEncodings M c).zoom = c.zoom := by
  unfold convertEncodings
  repeat (first | rfl | refine proj_ite PlaneCamera.zoom _ _ _ _ ?_ ?_)

@[simp]
theorem convertEncodings_turnSpeed (M : Scalar α) (c : PlaneCamera α) :
    (convertEncodings M c).turnSpeed = c.turnSpeed := by
  unfold convertEncodings
  repeat (first | rfl | refine proj_ite PlaneCamera.turnSpeed _ _ _ _ ?_ ?_)

@[simp]
theorem convertEncodings_zoomEnabled (M : Scalar α) (c : PlaneCamera α) :
    (convertEncodings M c).zoomEnabled = c.zoomEnabled := by
  unfold convertEncodings
  repeat (first | rfl | refine proj_ite PlaneCamera.zoomEnabled _ _ _ _ ?_ ?_)

@[simp]
theorem convertEncodings_firstPerson (M : Scalar α) (c : PlaneCamera α) :
    (convertEncodings M c).firstPerson = c.firstPerson := by
  unfold convertEncodings
  repeat (first | rfl | refine proj_ite PlaneCamera.firstPerson _ _ _ _ ?_ ?_)

@[simp]
theorem convertEncodings_moveFreely (M : Scalar α) (c : PlaneCamera α) :
    (convertEncodings M c).moveFreely = c.moveFreely := by
  unfold convertEncodings
  repeat (first | rfl | refine proj_ite PlaneCamera.moveFreely _ _ _ _ ?_ ?_)

/-! Section: Frame lemmas for the key switches. -/

@[simp]
theorem eulerKeys_planePosition (M : Scalar α) (c : PlaneCamera α) (key : Int) (rs : α) :
    (eulerKeys M c key rs).planePosition = c.planePosition := by
  unfold eulerKeys
  repeat (first | rfl | refine proj_ite PlaneCamera.planePosition _ _ _ _ ?_ ?_)

@[simp]
theorem eulerKeys_cameraPosition (M : Scalar α) (c : PlaneCamera α) (key : Int) (rs : α) :
    (eulerKeys M c key rs).cameraPosition = c.cameraPosition := by
  unfold eulerKeys
  repeat (first | rfl | refine proj_ite PlaneCamera.cameraPosition _ _ _ _ ?_ ?_)

@[simp]
theorem eulerKeys_cameraOffset (M : Scalar α) (c : PlaneCamera α) (key : Int) (rs : α) :
    (eulerKeys M c key rs).cameraOffset = c.cameraOffset := by
  unfold eulerKeys
  repeat (first | rfl | refine proj_ite PlaneCamera.cameraOffset _ _ _ _ ?_ ?_)

@[simp]
theorem eulerKeys_firstPersonOffset (M : Scalar α) (c : PlaneCamera α) (key : Int) (rs : α) :
    (eulerKeys M c key rs).firstPersonOffset = c.firstPersonOffset := by
  unfold eulerKeys
  repeat (first | rfl | refine proj_ite PlaneCamera.firstPersonOffset _ _ _ _ ?_ ?_)

@[simp]
theorem eulerKeys_thirdPersonOffset (M : Scalar α) (c : PlaneCamera α) (key : Int) (rs : α) :
    (eulerKeys M c key rs).thirdPersonOffset = c.thirdPersonOffset := by
  unfold eulerKeys
  repeat (first | rfl | refine proj_ite PlaneCamera.thirdPersonOffset _ _ _ _ ?_ ?_)

@[simp]
theorem eulerKeys_front (M : Scalar α) (c : PlaneCamera α) (key : Int) (rs : α) :
    (eulerKeys M c key rs).front = c.front := by
  unfold eulerKeys
  repeat (first | rfl | refine proj_ite PlaneCamera.front _ _ _ _ ?_ ?_)

@[simp]
theorem eulerKeys_up (M : Scalar α) (c : PlaneCamera α) (key : Int) (rs : α) :
    (eulerKeys M c key rs).up = c.up := by
  unfold eulerKeys
  repeat (first | rfl | refine proj_ite PlaneCamera.up _ _ _ _ ?_ ?_)

@[simp]
theorem eulerKeys_right (M : Scalar α) (c : PlaneCamera α) (key : Int) (rs : α) :
    (eulerKeys M c key rs).right = c.right := by
  unfold eulerKeys
  repeat (first | rfl | refine proj_ite PlaneCamera.right _ _ _ _ ?_ ?_)

@[simp]
theorem eulerKeys_planeOrientation (M : Scalar α) (c : PlaneCamera α) (key : Int) (rs : α) :
    (eulerKeys M c key rs).planeOrientation = c.planeOrientation := by
  unfold eulerKeys
  repeat (first | rfl | refine proj_ite PlaneCamera.planeOrientation _ _ _ _ ?_ ?_)

@[simp]
theorem eulerKeys_selectedCameraType (M : Scalar α) (c : PlaneCamera α) (key : Int) (rs : α) :
    (eulerKeys M c key rs).selectedCameraType = c.selectedCameraType := by
  unfold eulerKeys
  repeat (first | rfl | refine proj_ite PlaneCamera.selectedCameraType _ _ _ _ ?_ ?_)

@[simp]
theorem eulerKeys_movementSpeed (M : Scalar α) (c : PlaneCamera α) (key : Int) (rs : α) :
    (eulerKeys M c key rs).movementSpeed = c.movementSpeed := by
  unfold eulerKeys
  repeat (first | rfl | refine proj_ite PlaneCamera.movementSpeed _ _ _ _ ?_ ?_)

@[simp]
theorem eulerKeys_zoom (M : Scalar α) (c : PlaneCamera α) (key : Int) (rs : α) :
    (eulerKeys M c key rs).zoom = c.zoom := by
  unfold eulerKeys
  repeat (first | rfl | refine proj_ite PlaneCamera.zoom _ _ _ _ ?_ ?_)

@[simp]
theorem eulerKeys_turnSpeed (M : Scalar α) (c : PlaneCamera α) (key : Int) (rs : α) :
    (eulerKeys M c key rs).turnSpeed = c.turnSpeed := by
  unfold eulerKeys
  repeat (first | rfl | refine proj_ite PlaneCamera.turnSpeed _ _ _ _ ?_ ?_)

@[simp]
theorem eulerKeys_zoomEnabled (M : Scalar α) (c : PlaneCamera α) (key : Int) (rs : α) :
    (eulerKeys M c key rs).zoomEnabled = c.zoomEnabled := by
  unfold eulerKeys
  repeat (first | rfl | refine proj_ite PlaneCamera.zoomEnabled _ _ _ _ ?_ ?_)

@[simp]
theorem eulerKeys_firstPerson (M : Scalar α) (c : PlaneCamera α) (key : Int) (rs : α) :
    (eulerKeys M c key rs).firstPerson = c.firstPerson := by
  unfold eulerKeys
  repeat (first | rfl | refine proj_ite PlaneCamera.firstPerson _ _ _ _ ?_ ?_)

@[simp]
theorem eulerKeys_moveFreely (M : Scalar α) (c : PlaneCamera α) (key : Int) (rs : α) :
    (eulerKeys M c key rs).moveFreely = c.moveFreely := by
  unfold eulerKeys
  repeat (first | rfl | refine proj_ite PlaneCamera.moveFreely _ _ _ _ ?_ ?_)

@[simp]
theorem basisKeys_cameraPosition (M : Scalar α) (c : PlaneCamera α) (key : Int) (v rs : α) :
    (basisKeys M c key v rs).cameraPosition = c.cameraPosition := by
  unfold basisKeys
  repeat (first | rfl | refine proj_ite PlaneCamera.cameraPosition _ _ _ _ ?_ ?_)

@[simp]
theorem basisKeys_cameraOffset (M : Scalar α) (c : PlaneCamera α) (key : Int) (v rs : α) :
    (basisKeys M c key v rs).cameraOffset = c.cameraOffset := by
  unfold basisKeys
  repeat (first | rfl | refine proj_ite PlaneCamera.cameraOffset _ _ _ _ ?_ ?_)

@[simp]
theorem basisKeys_firstPersonOffset (M : Scalar α) (c : PlaneCamera α) (key : Int) (v rs : α) :
    (basisKeys M c key v rs).firstPersonOffset = c.firstPersonOffset := by
  unfold basisKeys
  repeat (first | rfl | refine proj_ite PlaneCamera.firstPersonOffset _ _ _ _ ?_ ?_)

@[simp]
theorem basisKeys_thirdPersonOffset (M : Scalar α) (c : PlaneCamera α) (key : Int) (v rs : α) :
    (basisKeys M c key v rs).thirdPersonOffset = c.thirdPersonOffset := by
  unfold basisKeys
  repeat (first | rfl | refine proj_ite PlaneCamera.thirdPersonOffset _ _ _ _ ?_ ?_)

@[simp]
theorem basisKeys_rotX (M : Scalar α) (c : PlaneCamera α) (key : Int) (v rs : α) :
    (basisKeys M c key v rs).rotX = c.rotX := by
  unfold basisKeys
  repeat (first | rfl | refine proj_ite PlaneCamera.rotX _ _ _ _ ?_ ?_)

@[simp]
theorem basisKeys_rotY (M : Scalar α) (c : PlaneCamera α) (key : Int) (v rs : α) :
    (basisKeys M c key v rs).rotY = c.rotY := by
  unfold basisKeys
  repeat (first | rfl | refine proj_ite PlaneCamera.rotY _ _ _ _ ?_ ?_)

@[simp]
theorem basisKeys_rotZ (M : Scalar α) (c : PlaneCamera α) (key : Int) (v rs : α) :
    (basisKeys M c key v rs).rotZ = c.rotZ := by
  unfold basisKeys
  repeat (first | rfl | refine proj_ite PlaneCamera.rotZ _ _ _ _ ?_ ?_)

@[simp]
theorem basisKeys_planeOrientation (M : Scalar α) (c : PlaneCamera α) (key : Int) (v rs : α) :
    (basisKeys M c key v rs).planeOrientation = c.planeOrientation := by
  unfold basisKeys
  repeat (first | rfl | refine proj_ite PlaneCamera.planeOrientation _ _ _ _ ?_ ?_)

@[simp]
theorem basisKeys_selectedCameraType (M : Scalar α) (c : PlaneCamera α) (key : Int) (v rs : α) :
    (basisKeys M c key v rs).selectedCameraType = c.selectedCameraType := by
  unfold basisKeys
  repeat (first | rfl | refine proj_ite PlaneCamera.selectedCameraType _ _ _ _ ?_ ?_)

@[simp]
theorem basisKeys_movementSpeed (M : Scalar α) (c : PlaneCamera α) (key : Int) (v rs : α) :
    (basisKeys M c key v rs).movementSpeed = c.movementSpeed := by
  unfold basisKeys
  repeat (first | rfl | refine proj_ite PlaneCamera.movementSpeed _ _ _ _ ?_ ?_)

@[simp]
theorem basisKeys_zoom (M : Scalar α) (c : PlaneCamera α) (key : Int) (v rs : α) :
    (basisKeys M c key v rs).zoom = c.zoom := by
  unfold basisKeys
  repeat (first | rfl | refine proj_ite PlaneCamera.zoom _ _ _ _ ?_ ?_)

@[simp]
theorem basisKeys_turnSpeed (M : Scalar α) (c : PlaneCamera α) (key : Int) (v rs : α) :
    (basisKeys M c key v rs).turnSpeed = c.turnSpeed := by
  unfold basisKeys
  repeat (first | rfl | refine proj_ite PlaneCamera.turnSpeed _ _ _ _ ?_ ?_)

@[simp]
theorem basisKeys_zoomEnabled (M : Scalar α) (c : PlaneCamera α) (key : Int) (v rs : α) :
    (basisKeys M c key v rs).zoomEnabled = c.zoomEnabled := by
  unfold basisKeys
  repeat (first | rfl | refine proj_ite PlaneCamera.zoomEnabled _ _ _ _ ?_ ?_)

@[simp]
theorem basisKeys_firstPerson (M : Scalar α) (c : PlaneCamera α) (key : Int) (v rs : α) :
    (basisKeys M c key v rs).firstPerson = c.firstPerson := by
  unfold basisKeys
  repeat (first | rfl | refine proj_ite PlaneCamera.firstPerson _ _ _ _ ?_ ?_)

@[simp]
theorem basisKeys_moveFreely (M : Scalar α) (c : PlaneCamera α) (key : Int) (v rs : α) :
    (basisKeys M c key v rs).moveFreely = c.moveFreely := by
  unfold basisKeys
  repeat (first | rfl | refine proj_ite PlaneCamera.moveFreely _ _ _ _ ?_ ?_)

@[simp]
theorem quaternionKeys_cameraPosition (M : Scalar α) (c : PlaneCamera α) (key : Int) (v rs : α) :
    (quaternionKeys M c key v rs).cameraPosition = c.cameraPosition := by
  unfold quaternionKeys
  repeat (first | rfl | refine proj_ite PlaneCamera.cameraPosition _ _ _ _ ?_ ?_)

@[simp]
theorem quaternionKeys_cameraOffset (M : Scalar α) (c : PlaneCamera α) (key : Int) (v rs : α) :
    (quaternionKeys M c key v rs).cameraOffset = c.cameraOffset := by
  unfold quaternionKeys
  repeat (first | rfl | refine proj_ite PlaneCamera.cameraOffset _ _ _ _ ?_ ?_)

@[simp]
theorem quaternionKeys_firstPersonOffset (M : Scalar α) (c : PlaneCamera α) (key : Int) (v rs : α) :
    (quaternionKeys M c key v rs).firstPersonOffset = c.firstPersonOffset := by
  unfold quaternionKeys
  repeat (first | rfl | refine proj_ite PlaneCamera.firstPersonOffset _ _ _ _ ?_ ?_)

@[simp]
theorem quaternionKeys_thirdPersonOffset (M : Scalar α) (c : PlaneCamera α) (key : Int) (v rs : α) :
    (quaternionKeys M c key v rs).thirdPersonOffset = c.thirdPersonOffset := by
  unfold quaternionKeys
  repeat (first | rfl | refine proj_ite PlaneCamera.thirdPersonOffset _ _ _ _ ?_ ?_)

@[simp]
theorem quaternionKeys_front (M : Scalar α) (c : PlaneCamera α) (key : Int) (v rs : α) :
    (quaternionKeys M c key v rs).front = c.front := by
  unfold quaternionKeys
  repeat (first | rfl | refine proj_ite PlaneCamera.front _ _ _ _ ?_ ?_)

@[simp]
theorem quaternionKeys_up (M : Scalar α) (c : PlaneCamera α) (key : Int) (v rs : α) :
    (quaternionKeys M c key v rs).up = c.up := by
  unfold quaternionKeys
  repeat (first | rfl | refine proj_ite PlaneCamera.up _ _ _ _ ?_ ?_)

@[simp]
theorem quaternionKeys_right (M : Scalar α) (c : PlaneCamera α) (key : Int) (v rs : α) :
    (quaternionKeys M c key v rs).right = c.right := by
  unfold quaternionKeys
  repeat (first | rfl | refine proj_ite PlaneCamera.right _ _ _ _ ?_ ?_)

@[simp]
theorem quaternionKeys_rotX (M : Scalar α) (c : PlaneCamera α) (key : Int) (v rs : α) :
    (quaternionKeys M c key v rs).rotX = c.rotX := by
  unfold quaternionKeys
  repeat (first | rfl | refine proj_ite PlaneCamera.rotX _ _ _ _ ?_ ?_)

@[simp]
theorem quaternionKeys_rotY (M : Scalar α) (c : PlaneCamera α) (key : Int) (v rs : α) :
    (quaternionKeys M c key v rs).rotY = c.rotY := by
  unfold quaternionKeys
  repeat (first | rfl | refine proj_ite PlaneCamera.rotY _ _ _ _ ?_ ?_)

@[simp]
theorem quaternionKeys_rotZ (M : Scalar α) (c : PlaneCamera α) (key : Int) (v rs : α) :
    (quaternionKeys M c key v rs).rotZ = c.rotZ := by
  unfold quaternionKeys
  repeat (first | rfl | refine proj_ite PlaneCamera.rotZ _ _ _ _ ?_ ?_)

@[simp]
theorem quaternionKeys_selectedCameraType (M : Scalar α) (c : PlaneCamera α) (key : Int) (v rs : α) :
    (quaternionKeys M c key v rs).selectedCameraType = c.selectedCameraType := by
  unfold quaternionKeys
  repeat (first | rfl | refine proj_ite PlaneCamera.selectedCameraType _ _ _ _ ?_ ?_)

@[simp]
theorem quaternionKeys_movementSpeed (M : Scalar α) (c : PlaneCamera α) (key : Int) (v rs : α) :
    (quaternionKeys M c key v rs).movementSpeed = c.movementSpeed := by
  unfold quaternionKeys
  repeat (first | rfl | refine proj_ite PlaneCamera.movementSpeed _ _ _ _ ?_ ?_)

@[simp]
theorem quaternionKeys_zoom (M : Scalar α) (c : PlaneCamera α) (key : Int) (v rs : α) :
    (quaternionKeys M c key v rs).zoom = c.zoom := by
  unfold quaternionKeys
  repeat (first | rfl | refine proj_ite PlaneCamera.zoom _ _ _ _ ?_ ?_)

@[simp]
theorem quaternionKeys_turnSpeed (M : Scalar α) (c : PlaneCamera α) (key : Int) (v rs : α) :
    (quaternionKeys M c key v rs).turnSpeed = c.turnSpeed := by
  unfold quaternionKeys
  repeat (first | rfl | refine proj_ite PlaneCamera.turnSpeed _ _ _ _ ?_ ?_)

@[simp]
theorem quaternionKeys_zoomEnabled (M : Scalar α) (c : PlaneCamera α) (key : Int) (v rs : α) :
    (quaternionKeys M c key v rs).zoomEnabled = c.zoomEnabled := by
  unfold quaternionKeys
  repeat (first | rfl | refine proj_ite PlaneCamera.zoomEnabled _ _ _ _ ?_ ?_)

@[simp]
theorem quaternionKeys_firstPerson (M : Scalar α) (c : PlaneCamera α) (key : Int) (v rs : α) :
    (quaternionKeys M c key v rs).firstPerson = c.firstPerson := by
  unfold quaternionKeys
  repeat (first | rfl | refine proj_ite PlaneCamera.firstPerson _ _ _ _ ?_ ?_)

@[simp]
theorem quaternionKeys_moveFreely (M : Scalar α) (c : PlaneCamera α) (key : Int) (v rs : α) :
    (quaternionKeys M c key v rs).moveFreely = c.moveFreely := by
  unfold quaternionKeys
  repeat (first | rfl | refine proj_ite PlaneCamera.moveFreely _ _ _ _ ?_ ?_)

/-! Section: Frame lemmas for `processKeyboardInput`. -/

@[simp]
theorem processKeyboardInput_cameraOffset (M : Scalar α) (c : PlaneCamera α) (key : Int) (dt : α) :
    (processKeyboardInput M c key dt).cameraOffset = c.cameraOffset := by
  unfold processKeyboardInput
  repeat (first
    | rfl
    | exact eulerKeys_cameraOffset _ _ _ _
    | exact basisKeys_cameraOffset _ _ _ _ _
    | exact quaternionKeys_cameraOffset _ _ _ _ _
    | refine proj_ite PlaneCamera.cameraOffset _ _ _ _ ?_ ?_)

@[simp]
theorem processKeyboardInput_firstPersonOffset (M : Scalar α) (c : PlaneCamera α) (key : Int) (dt : α) :
    (processKeyboardInput M c key dt).firstPersonOffset = c.firstPersonOffset := by
  unfold processKeyboardInput
  repeat (first
    | rfl
    | exact eulerKeys_firstPersonOffset _ _ _ _
    | exact basisKeys_firstPersonOffset _ _ _ _ _
    | exact quaternionKeys_firstPersonOffset _ _ _ _ _
    | refine proj_ite PlaneCamera.firstPersonOffset _ _ _ _ ?_ ?_)

@[simp]
theorem processKeyboardInput_thirdPersonOffset (M : Scalar α) (c : PlaneCamera α) (key : Int) (dt : α) :
    (processKeyboardInput M c key dt).thirdPersonOffset = c.thirdPersonOffset := by
  unfold processKeyboardInput
  repeat (first
    | rfl
    | exact eulerKeys_thirdPersonOffset _ _ _ _
    | exact basisKeys_thirdPersonOffset _ _ _ _ _
    | exact quaternionKeys_thirdPersonOffset _ _ _ _ _
    | refine proj_ite PlaneCamera.thirdPersonOffset _ _ _ _ ?_ ?_)

@[simp]
theorem processKeyboardInput_selectedCameraType (M : Scalar α) (c : PlaneCamera α) (key : Int) (dt : α) :
    (processKeyboardInput M c key dt).selectedCameraType = c.selectedCameraType := by
  unfold processKeyboardInput
  repeat (first
    | rfl
    | exact eulerKeys_selectedCameraType _ _ _ _
    | exact basisKeys_selectedCameraType _ _ _ _ _
    | exact quaternionKeys_selectedCameraType _ _ _ _ _
    | refine proj_ite PlaneCamera.selectedCameraType _ _ _ _ ?_ ?_)

@[simp]
theorem processKeyboardInput_movementSpeed (M : Scalar α) (c : PlaneCamera α) (key : Int) (dt : α) :
    (processKeyboardInput M c key dt).movementSpeed = c.movementSpeed := by
  unfold processKeyboardInput
  repeat (first
    | rfl
    | exact eulerKeys_movementSpeed _ _ _ _
    | exact basisKeys_movementSpeed _ _ _ _ _
    | exact quaternionKeys_movementSpeed _ _ _ _ _
    | refine proj_ite PlaneCamera.movementSpeed _ _ _ _ ?_ ?_)

@[simp]
theorem processKeyboardInput_zoom (M : Scalar α) (c : PlaneCamera α) (key : Int) (dt : α) :
    (processKeyboardInput M c key dt).zoom = c.zoom := by
  unfold processKeyboardInput
  repeat (first
    | rfl
    | exact eulerKeys_zoom _ _ _ _
    | exact basisKeys_zoom _ _ _ _ _
    | exact quaternionKeys_zoom _ _ _ _ _
    | refine proj_ite PlaneCamera.zoom _ _ _ _ ?_ ?_)

@[simp]
theorem processKeyboardInput_turnSpeed (M : Scalar α) (c : PlaneCamera α) (key : Int) (dt : α) :
    (processKeyboardInput M c key dt).turnSpeed = c.turnSpeed := by
  unfold processKeyboardInput
  repeat (first
    | rfl
    | exact eulerKeys_turnSpeed _ _ _ _
    | exact basisKeys_turnSpeed _ _ _ _ _
    | exact quaternionKeys_turnSpeed _ _ _ _ _
    | refine proj_ite PlaneCamera.turnSpeed _ _ _ _ ?_ ?_)

@[simp]
theorem processKeyboardInput_zoomEnabled (M : Scalar α) (c : PlaneCamera α) (key : Int) (dt : α) :
    (processKeyboardInput M c key dt).zoomEnabled = c.zoomEnabled := by
  unfold processKeyboardInput
  repeat (first
    | rfl
    | exact eulerKeys_zoomEnabled _ _ _ _
    | exact basisKeys_zoomEnabled _ _ _ _ _
    | exact quaternionKeys_zoomEnabled _ _ _ _ _
    | refine proj_ite PlaneCamera.zoomEnabled _ _ _ _ ?_ ?_)

@[simp]
theorem processKeyboardInput_firstPerson (M : Scalar α) (c : PlaneCamera α) (key : Int) (dt : α) :
    (processKeyboardInput M c key dt).firstPerson = c.firstPerson := by
  unfold processKeyboardInput
  repeat (first
    | rfl
    | exact eulerKeys_firstPerson _ _ _ _
    | exact basisKeys_firstPerson _ _ _ _ _
    | exact quaternionKeys_firstPerson _ _ _ _ _
    | refine proj_ite PlaneCamera.firstPerson _ _ _ _ ?_ ?_)

@[simp]
theorem processKeyboardInput_moveFreely (M : Scalar α) (c : PlaneCamera α) (key : Int) (dt : α) :
    (processKeyboardInput M c key dt).moveFreely = c.moveFreely := by
  unfold processKeyboardInput
  repeat (first
    | rfl
    | exact eulerKeys_moveFreely _ _ _ _
    | exact basisKeys_moveFreely _ _ _ _ _
    | exact quaternionKeys_moveFreely _ _ _ _ _
    | refine proj_ite PlaneCamera.moveFreely _ _ _ _ ?_ ?_)

/-- The observer branch of `updateCameraPosition`: with `moveFreely = false` and one of
the three modes selected, the camera is put at `planePosition + thirdPersonOffset`. -/
theorem updateCameraPosition_of_observer (M : Scalar α) (c : PlaneCamera α)
    (hfree : c.moveFreely = false) (hmode : isMode c.selectedCameraType) :
    updateCameraPosition M c
      = { c with cameraPosition := c.planePosition.add c.thirdPersonOffset } := by
  unfold updateCameraPosition
  rcases hmode with h | h | h <;> simp [h, hfree, EulerAngles, FrontRightUpVecs, Quaternions]

/-- With `moveFreely = false`, `processKeyboardInput` does not touch `cameraPosition`. -/
theorem processKeyboardInput_cameraPosition_of_observer (M : Scalar α) (c : PlaneCamera α)
    (key : Int) (dt : α) (hfree : c.moveFreely = false) :
    (processKeyboardInput M c key dt).cameraPosition = c.cameraPosition := by
  unfold processKeyboardInput
  simp only []
  split_ifs <;> simp_all

/-- In Euler mode no key moves the plane. -/
theorem processKeyboardInput_planePosition_of_euler (M : Scalar α) (c : PlaneCamera α)
    (key : Int) (dt : α) (hmode : c.selectedCameraType = EulerAngles) :
    (processKeyboardInput M c key dt).planePosition = c.planePosition := by
  unfold processKeyboardInput
  simp only [hmode, if_true]
  split_ifs <;> (unfold eulerKeys; split_ifs <;> rfl)

/-- A key other than W and S does not move the plane. -/
theorem processKeyboardInput_planePosition_of_ne (M : Scalar α) (c : PlaneCamera α)
    (key : Int) (dt : α) (hW : key ≠ GLFW_KEY_W) (hS : key ≠ GLFW_KEY_S) :
    (processKeyboardInput M c key dt).planePosition = c.planePosition := by
  unfold processKeyboardInput
  simp only []
  split_ifs <;>
    first
    | rfl
    | (unfold eulerKeys; split_ifs <;> rfl)
    | (unfold basisKeys; simp only [hW, hS, if_false]; split_ifs <;> rfl)
    | (unfold quaternionKeys; simp only [hW, hS, if_false]; split_ifs <;> rfl)

end PlaneCamera

/-! Section: The scalar functions at the identity orientation. -/

namespace Glm

theorem Scalar.real_atan2_zero_one : Scalar.real.atan2 0 1 = 0 := by
  show Complex.arg ⟨1, 0⟩ = 0
  exact Complex.arg_one

theorem Scalar.real_sqrt_four : Scalar.real.sqrt 4 = 2 := by
  show Real.sqrt 4 = 2
  rw [show (4 : ℝ) = 2 ^ 2 by norm_num]
  exact Real.sqrt_sq (by norm_num)

/-- A rotation by the angle `0` is the identity, whatever the axis. -/
theorem rotate_zero (M : Scalar α) (hsin : M.sin 0 = 0) (hcos : M.cos 0 = 1) (m : Mat4 α)
    (v : Vec3 α) : rotate M m 0 v = m := by
  simp [rotate, hsin, hcos, Vec3.lscale, Vec4.add, Vec4.scale]

/-- The quaternion of the identity matrix is the identity quaternion. -/
theorem quatCast_identity (M : Scalar α) (hsqrt : M.sqrt 4 = 2) :
    quatCast M (⟨⟨1, 0, 0⟩, ⟨0, 1, 0⟩, ⟨0, 0, 1⟩⟩ : Mat3 α) = ⟨1, 0, 0, 0⟩ := by
  have h3 : ¬ ((1 : α) + 1 + 1 < -1) := by norm_num
  have h4 : (1 : α) + 1 + 1 + 1 = 4 := by norm_num
  simp [quatCast, h3, h4, hsqrt]

/-- The identity quaternion fixes every vector. -/
theorem rotateVec_identity (v : Vec3 α) : (⟨1, 0, 0, 0⟩ : Quat α).rotateVec v = v := by
  simp [Quat.rotateVec, cross, Vec3.add, Vec3.scale]

end Glm

namespace PlaneCamera

/-- With all three Euler angles zero, `getRotatedOffset` returns its argument. -/
theorem getRotatedOffset_zero (M : Scalar α) (hsin : M.sin 0 = 0) (hcos : M.cos 0 = 1)
    (c : PlaneCamera α) (hx : c.rotX = 0) (hy : c.rotY = 0) (hz : c.rotZ = 0) (v : Vec3 α) :
    getRotatedOffset M c v = v := by
  simp [getRotatedOffset, hx, hy, hz, rotate_zero M hsin hcos, Mat4.mulVec, Mat4.identity,
    Vec4.add, Vec4.scale, Vec4.ofVec3, Vec4.xyz]

/-- The Basis-to-Euler conversion at the world frame gives three zero angles, for every
scalar implementation with `asin 0 = 0` and `atan2 0 1 = 0`. -/
theorem convertEncodings_basis_world_euler (M : Scalar α) (hasin : M.asin 0 = 0)
    (hatan : M.atan2 0 1 = 0) (c : PlaneCamera α)
    (hmode : c.selectedCameraType = FrontRightUpVecs)
    (hfront : c.front = ⟨0, 0, -1⟩) (hup : c.up = ⟨0, 1, 0⟩) (hright : c.right = ⟨1, 0, 0⟩) :
    (convertEncodings M c).rotX = 0 ∧ (convertEncodings M c).rotY = 0 ∧
    (convertEncodings M c).rotZ = 0 := by
  have hne : ¬ (FrontRightUpVecs = EulerAngles) := by decide
  simp [convertEncodings, hmode, hne, hfront, hup, hright, hasin, hatan]

/-- The Basis-to-quaternion conversion at the world frame gives the identity quaternion,
for every scalar implementation with `sqrt 4 = 2`. -/
theorem convertEncodings_basis_world_quat (M : Scalar α) (hsqrt : M.sqrt 4 = 2)
    (c : PlaneCamera α) (hmode : c.selectedCameraType = FrontRightUpVecs)
    (hfront : c.front = ⟨0, 0, -1⟩) (hup : c.up = ⟨0, 1, 0⟩) (hright : c.right = ⟨1, 0, 0⟩) :
    (convertEncodings M c).planeOrientation = ⟨1, 0, 0, 0⟩ := by
  have hne : ¬ (FrontRightUpVecs = EulerAngles) := by decide
  have hm : (Mat4.toMat3 (⟨Vec4.ofVec3 ⟨1, 0, 0⟩ 0, Vec4.ofVec3 ⟨0, 1, 0⟩ 0,
      Vec4.ofVec3 (Vec3.neg ⟨0, 0, -1⟩) 0, ⟨0, 0, 0, 1⟩⟩ : Mat4 α))
      = ⟨⟨1, 0, 0⟩, ⟨0, 1, 0⟩, ⟨0, 0, 1⟩⟩ := by
    simp [Mat4.toMat3, Vec4.ofVec3, Vec4.xyz, Vec3.neg]
  simp only [convertEncodings, hmode, hne, if_false, if_true, hfront, hup, hright, toQuat,
    Mat4.identity, hm, quatCast_identity M hsqrt]

/-- Leaving Euler mode, `front`, `right` and `up` are the rotated world axes. -/
theorem updateCameraType_basis_of_euler (M : Scalar α) (c : PlaneCamera α) (m : Int)
    (h : c.selectedCameraType = EulerAngles) :
    (updateCameraType M c m).front = getRotatedOffset M c WORLD_FRONT ∧
    (updateCameraType M c m).right = getRotatedOffset M c WORLD_RIGHT ∧
    (updateCameraType M c m).up = getRotatedOffset M c WORLD_UP := by
  simp [updateCameraType, convertEncodings, h]

/-- Leaving Quaternion mode, `front`, `right` and `up` are the world axes rotated by the
quaternion, which is itself unchanged. -/
theorem updateCameraType_basis_of_quaternion (M : Scalar α) (c : PlaneCamera α) (m : Int)
    (h : c.selectedCameraType = Quaternions) :
    (updateCameraType M c m).front = c.planeOrientation.rotateVec WORLD_FRONT ∧
    (updateCameraType M c m).right = c.planeOrientation.rotateVec WORLD_RIGHT ∧
    (updateCameraType M c m).up = c.planeOrientation.rotateVec WORLD_UP ∧
    (updateCameraType M c m).planeOrientation = c.planeOrientation := by
  have h0 : ¬ (Quaternions = EulerAngles) := by decide
  have h1 : ¬ (Quaternions = FrontRightUpVecs) := by decide
  simp [updateCameraType, convertEncodings, h, h0, h1]

/-- The fields of `updateCameraType` other than `cameraPosition` and the mode are those
of the converted state. -/
theorem updateCameraType_encodings (M : Scalar α) (c : PlaneCamera α) (m : Int) :
    (updateCameraType M c m).selectedCameraType = m ∧
    (updateCameraType M c m).rotX = (convertEncodings M c).rotX ∧
    (updateCameraType M c m).rotY = (convertEncodings M c).rotY ∧
    (updateCameraType M c m).rotZ = (convertEncodings M c).rotZ ∧
    (updateCameraType M c m).front = (convertEncodings M c).front ∧
    (updateCameraType M c m).right = (convertEncodings M c).right ∧
    (updateCameraType M c m).up = (convertEncodings M c).up ∧
    (updateCameraType M c m).planeOrientation = (convertEncodings M c).planeOrientation := by
  simp [updateCameraType]

end PlaneCamera

/-! Section: Zoom. -/

/-- C1. With zoom enabled, `processMouseScroll yOff` sets `zoom` to
`min (max (zoom - yOff) MIN_ZOOM) MAX_ZOOM`; the result lies in `[1, 60]`; every delta
`yOff ≥ zoom - 1` gives exactly `1` and every delta `yOff ≤ zoom - 60` gives exactly `60`. -/
theorem processMouseScroll_clamps (c : PlaneCamera α) (yOff : α) (h : c.zoomEnabled = true) :
    (c.processMouseScroll yOff).zoom = clamp (c.zoom - yOff) 1 60 ∧
    (c.processMouseScroll yOff).zoom = min (max (c.zoom - yOff) MIN_ZOOM) MAX_ZOOM ∧
    1 ≤ (c.processMouseScroll yOff).zoom ∧ (c.processMouseScroll yOff).zoom ≤ 60 ∧
    (∀ d : α, c.zoom - 1 ≤ d → (c.processMouseScroll d).zoom = 1) ∧
    (∀ d : α, d ≤ c.zoom - 60 → (c.processMouseScroll d).zoom = 60) := by
  have key : ∀ d : α, (c.processMouseScroll d).zoom = min (max (c.zoom - d) 1) 60 := by
    intro d
    simp only [PlaneCamera.processMouseScroll, h, if_true, MIN_ZOOM, MAX_ZOOM]
    by_cases h1 : c.zoom - d < 1
    · have h2 : ¬ (1 : α) > 60 := by norm_num
      simp [h1, h2, max_eq_right (le_of_lt h1)]
    · have h3 : (1 : α) ≤ c.zoom - d := not_lt.mp h1
      by_cases h2 : c.zoom - d > 60
      · simp [h1, h2, max_eq_left h3, min_eq_right (le_of_lt h2)]
      · simp [h1, h2, max_eq_left h3, min_eq_left (not_lt.mp h2)]
  refine ⟨key yOff, key yOff, ?_, ?_, ?_, ?_⟩
  · rw [key]; exact le_min (le_max_right _ _) (by norm_num)
  · rw [key]; exact min_le_right _ _
  · intro d hd
    rw [key, max_eq_right (by linarith), min_eq_left (by norm_num)]
  · intro d hd
    rw [key, max_eq_left (by linarith), min_eq_right (by linarith)]

/-- C1 at the default camera (zoom 50, enabled) scrolled by 3. -/
theorem processMouseScroll_clamps_witness :
    (PlaneCamera.default : PlaneCamera ℚ).zoomEnabled = true ∧
    ((PlaneCamera.default : PlaneCamera ℚ).processMouseScroll 3).zoom = 47 := by
  have h := (processMouseScroll_clamps (PlaneCamera.default : PlaneCamera ℚ) 3 rfl).1
  refine ⟨rfl, h.trans ?_⟩
  simp only [PlaneCamera.default, PlaneCamera.ctor, ZOOM, clamp]
  norm_num

/-! Section: Perspective toggle and reset. -/

/-- C2. When `cameraOffset` is the preset selected by `firstPerson`, two calls of
`changeCameraPerspective` restore `cameraOffset` and `firstPerson`, and leave
`planePosition`, the Euler angles, the basis vectors and the quaternion unchanged. -/
theorem changeCameraPerspective_twice (M : Scalar α) (c : PlaneCamera α)
    (h : c.cameraOffset = if c.firstPerson then c.firstPersonOffset else c.thirdPersonOffset) :
    ((c.changeCameraPerspective M).changeCameraPerspective M).cameraOffset = c.cameraOffset ∧
    ((c.changeCameraPerspective M).changeCameraPerspective M).firstPerson = c.firstPerson ∧
    ((c.changeCameraPerspective M).changeCameraPerspective M).planePosition = c.planePosition ∧
    ((c.changeCameraPerspective M).changeCameraPerspective M).rotX = c.rotX ∧
    ((c.changeCameraPerspective M).changeCameraPerspective M).rotY = c.rotY ∧
    ((c.changeCameraPerspective M).changeCameraPerspective M).rotZ = c.rotZ ∧
    ((c.changeCameraPerspective M).changeCameraPerspective M).front = c.front ∧
    ((c.changeCameraPerspective M).changeCameraPerspective M).up = c.up ∧
    ((c.changeCameraPerspective M).changeCameraPerspective M).right = c.right ∧
    ((c.changeCameraPerspective M).changeCameraPerspective M).planeOrientation
      = c.planeOrientation := by
  cases hf : c.firstPerson <;>
    simp [PlaneCamera.changeCameraPerspective, hf] <;> simpa [hf] using h.symm

/-- C2 at the constructed camera: its offset is the third-person preset and
`firstPerson` is false, and two toggles give them back. -/
theorem changeCameraPerspective_twice_witness :
    (((PlaneCamera.default : PlaneCamera ℝ).changeCameraPerspective
        Scalar.real).changeCameraPerspective Scalar.real).cameraOffset = ⟨0, 1, 10⟩ ∧
    (((PlaneCamera.default : PlaneCamera ℝ).changeCameraPerspective
        Scalar.real).changeCameraPerspective Scalar.real).firstPerson = false := by
  have h := changeCameraPerspective_twice Scalar.real (PlaneCamera.default : PlaneCamera ℝ) rfl
  exact ⟨h.1, h.2.1⟩

/-- C3. `resetAllParams` is idempotent: a second call changes no field. -/
theorem resetAllParams_idempotent (c : PlaneCamera α) :
    c.resetAllParams.resetAllParams = c.resetAllParams := by
  rfl

/-- C4. After `resetAllParams` the position is the origin, `front`, `up`, `right` are
`(0,0,-1)`, `(0,1,0)`, `(1,0,0)`, the quaternion is `(1,0,0,0)`, the Euler angles are
zero, and the mode, the speeds, the zoom, the flags and the three offsets are unchanged. -/
theorem resetAllParams_spec (c : PlaneCamera α) :
    c.resetAllParams.planePosition = ⟨0, 0, 0⟩ ∧
    c.resetAllParams.front = ⟨0, 0, -1⟩ ∧
    c.resetAllParams.up = ⟨0, 1, 0⟩ ∧
    c.resetAllParams.right = ⟨1, 0, 0⟩ ∧
    c.resetAllParams.right = cross c.resetAllParams.front c.resetAllParams.up ∧
    c.resetAllParams.planeOrientation = ⟨1, 0, 0, 0⟩ ∧
    c.resetAllParams.rotX = 0 ∧ c.resetAllParams.rotY = 0 ∧ c.resetAllParams.rotZ = 0 ∧
    c.resetAllParams.selectedCameraType = c.selectedCameraType ∧
    c.resetAllParams.movementSpeed = c.movementSpeed ∧
    c.resetAllParams.turnSpeed = c.turnSpeed ∧
    c.resetAllParams.zoom = c.zoom ∧
    c.resetAllParams.zoomEnabled = c.zoomEnabled ∧
    c.resetAllParams.firstPerson = c.firstPerson ∧
    c.resetAllParams.moveFreely = c.moveFreely ∧
    c.resetAllParams.cameraOffset = c.cameraOffset ∧
    c.resetAllParams.firstPersonOffset = c.firstPersonOffset ∧
    c.resetAllParams.thirdPersonOffset = c.thirdPersonOffset := by
  simp [PlaneCamera.resetAllParams, WORLD_ORIGIN, WORLD_FRONT, WORLD_UP, QUAT_IDENTITY, cross]

/-- C5. At the observer camera in first person (`moveFreely = false`, offsets `(0,1,0)`
and `(0,1,10)`), `resetAllParams` leaves the camera at `planePosition + cameraOffset =
(0,1,0)`, whereas `updateCameraPosition` on the reset state puts it at
`planePosition + thirdPersonOffset = (0,1,10)`: the reset is not a recomputation. -/
theorem resetAllParams_camera_not_recomputed (M : Scalar ℚ) :
    (PlaneCamera.observerFirstPerson : PlaneCamera ℚ).resetAllParams.cameraPosition
      = ⟨0, 1, 0⟩ ∧
    (PlaneCamera.updateCameraPosition M
      (PlaneCamera.observerFirstPerson : PlaneCamera ℚ).resetAllParams).cameraPosition
      = ⟨0, 1, 10⟩ ∧
    PlaneCamera.updateCameraPosition M
      (PlaneCamera.observerFirstPerson : PlaneCamera ℚ).resetAllParams
      ≠ (PlaneCamera.observerFirstPerson : PlaneCamera ℚ).resetAllParams := by
  have h1 : (PlaneCamera.observerFirstPerson : PlaneCamera ℚ).resetAllParams.cameraPosition
      = ⟨0, 1, 0⟩ := by
    simp [PlaneCamera.observerFirstPerson, PlaneCamera.resetAllParams, WORLD_ORIGIN, Vec3.add]
  have h2 : (PlaneCamera.updateCameraPosition M
      (PlaneCamera.observerFirstPerson : PlaneCamera ℚ).resetAllParams).cameraPosition
      = ⟨0, 1, 10⟩ := by
    simp [PlaneCamera.updateCameraPosition, PlaneCamera.observerFirstPerson,
      PlaneCamera.resetAllParams, PlaneCamera.default, PlaneCamera.ctor, WORLD_ORIGIN,
      Vec3.add, EulerAngles, FrontRightUpVecs]
  refine ⟨h1, h2, fun h => ?_⟩
  rw [h] at h2
  rw [h1] at h2
  simp at h2

/-! Section: Keyboard input. -/

/-- C6. In Basis mode with `moveFreely`, the key W moves `planePosition` by
`front * (movementSpeed * dt)`, keeps `front`, `up`, `right`, and puts the camera at
`newPosition - front * cameraOffset.z + up * cameraOffset.y`; from the constructed
camera, W with `dt = 1` gives position `(0,0,-2.5)` and camera `(0,1,7.5)`. -/
theorem processKeyboardInput_W_basis (M : Scalar α) (c : PlaneCamera α) (dt : α)
    (hmode : c.selectedCameraType = FrontRightUpVecs) (hfree : c.moveFreely = true) :
    (c.processKeyboardInput M GLFW_KEY_W dt).planePosition
      = c.planePosition.add (c.front.scale (c.movementSpeed * dt)) ∧
    (c.processKeyboardInput M GLFW_KEY_W dt).front = c.front ∧
    (c.processKeyboardInput M GLFW_KEY_W dt).up = c.up ∧
    (c.processKeyboardInput M GLFW_KEY_W dt).right = c.right ∧
    (c.processKeyboardInput M GLFW_KEY_W dt).cameraPosition
      = Vec3.add
          ((c.processKeyboardInput M GLFW_KEY_W dt).planePosition.sub
            (c.front.scale c.cameraOffset.z))
          (c.up.scale c.cameraOffset.y) ∧
    ((PlaneCamera.default : PlaneCamera α).processKeyboardInput M GLFW_KEY_W 1).planePosition
      = ⟨0, 0, -(5 / 2)⟩ ∧
    ((PlaneCamera.default : PlaneCamera α).processKeyboardInput M GLFW_KEY_W 1).cameraPosition
      = ⟨0, 1, 15 / 2⟩ := by
  have hne : ¬ (FrontRightUpVecs = EulerAngles) := by decide
  refine ⟨?_, ?_, ?_, ?_, ?_, ?_, ?_⟩
  · simp [PlaneCamera.processKeyboardInput, PlaneCamera.basisKeys, hmode, hfree, hne]
  · simp [PlaneCamera.processKeyboardInput, PlaneCamera.basisKeys, hmode, hfree, hne]
  · simp [PlaneCamera.processKeyboardInput, PlaneCamera.basisKeys, hmode, hfree, hne]
  · simp [PlaneCamera.processKeyboardInput, PlaneCamera.basisKeys, hmode, hfree, hne]
  · simp [PlaneCamera.processKeyboardInput, PlaneCamera.basisKeys, hmode, hfree, hne]
  · simp [PlaneCamera.processKeyboardInput, PlaneCamera.basisKeys, PlaneCamera.default,
      PlaneCamera.ctor, hne, WORLD_ORIGIN, WORLD_FRONT, CAMERA_SPEED, Vec3.add, Vec3.scale]
  · simp [PlaneCamera.processKeyboardInput, PlaneCamera.basisKeys, PlaneCamera.default,
      PlaneCamera.ctor, hne, WORLD_ORIGIN, WORLD_FRONT, WORLD_UP, CAMERA_SPEED, Vec3.add,
      Vec3.sub, Vec3.scale]
    norm_num

/-- C6 at the constructed camera with `dt = 2`: the plane moves to `(0,0,-5)`. -/
theorem processKeyboardInput_W_basis_witness :
    (PlaneCamera.default : PlaneCamera ℝ).selectedCameraType = FrontRightUpVecs ∧
    (PlaneCamera.default : PlaneCamera ℝ).moveFreely = true ∧
    ((PlaneCamera.default : PlaneCamera ℝ).processKeyboardInput
      Scalar.real GLFW_KEY_W 2).planePosition = ⟨0, 0, -5⟩ := by
  refine ⟨rfl, rfl, ?_⟩
  rw [(processKeyboardInput_W_basis Scalar.real (PlaneCamera.default : PlaneCamera ℝ) 2
    rfl rfl).1]
  simp [PlaneCamera.default, PlaneCamera.ctor, WORLD_ORIGIN, WORLD_FRONT, CAMERA_SPEED,
    Vec3.add, Vec3.scale]

/-- C7 as stated fails: at the constructed camera with `moveFreely = false` in Basis
mode, W with `dt = 1` moves the plane to `(0,0,-2.5)` and leaves the camera at
`(0,1,10)`, which is not `planePosition + thirdPersonOffset = (0,1,7.5)`. -/
theorem processKeyboardInput_observer_counterexample :
    (PlaneCamera.observer : PlaneCamera ℝ).moveFreely = false ∧
    PlaneCamera.isMode (PlaneCamera.observer : PlaneCamera ℝ).selectedCameraType ∧
    ((PlaneCamera.observer : PlaneCamera ℝ).processKeyboardInput
      Scalar.real GLFW_KEY_W 1).cameraPosition = ⟨0, 1, 10⟩ ∧
    Vec3.add
      ((PlaneCamera.observer : PlaneCamera ℝ).processKeyboardInput
        Scalar.real GLFW_KEY_W 1).planePosition
      ((PlaneCamera.observer : PlaneCamera ℝ).processKeyboardInput
        Scalar.real GLFW_KEY_W 1).thirdPersonOffset = ⟨0, 1, 15 / 2⟩ ∧
    ((PlaneCamera.observer : PlaneCamera ℝ).processKeyboardInput
      Scalar.real GLFW_KEY_W 1).cameraPosition
      ≠ Vec3.add
          ((PlaneCamera.observer : PlaneCamera ℝ).processKeyboardInput
            Scalar.real GLFW_KEY_W 1).planePosition
          ((PlaneCamera.observer : PlaneCamera ℝ).processKeyboardInput
            Scalar.real GLFW_KEY_W 1).thirdPersonOffset := by
  have hne : ¬ (FrontRightUpVecs = EulerAngles) := by decide
  have h1 : ((PlaneCamera.observer : PlaneCamera ℝ).processKeyboardInput
      Scalar.real GLFW_KEY_W 1).cameraPosition = ⟨0, 1, 10⟩ := by
    simp [PlaneCamera.processKeyboardInput, PlaneCamera.observer, PlaneCamera.default,
      PlaneCamera.ctor, hne, WORLD_ORIGIN, Vec3.add]
  have h2 : Vec3.add
      ((PlaneCamera.observer : PlaneCamera ℝ).processKeyboardInput
        Scalar.real GLFW_KEY_W 1).planePosition
      ((PlaneCamera.observer : PlaneCamera ℝ).processKeyboardInput
        Scalar.real GLFW_KEY_W 1).thirdPersonOffset = ⟨0, 1, 15 / 2⟩ := by
    simp [PlaneCamera.processKeyboardInput, PlaneCamera.basisKeys, PlaneCamera.observer,
      PlaneCamera.default, PlaneCamera.ctor, hne, WORLD_ORIGIN, WORLD_FRONT, CAMERA_SPEED,
      Vec3.add, Vec3.scale]
    norm_num
  refine ⟨rfl, Or.inr (Or.inl rfl), h1, h2, ?_⟩
  rw [h1, h2]
  intro h
  have hz := congrArg Vec3.z h
  norm_num at hz

/-- C7, amended. With `moveFreely = false` and one of the three modes selected,
`processKeyboardInput` leaves `cameraPosition` as it was; the following
`updateCameraPosition` puts it at `planePosition + thirdPersonOffset`; and when the
equality held before the call it still holds after it in Euler mode and for every key
other than W and S. -/
theorem processKeyboardInput_observer (M : Scalar α) (c : PlaneCamera α) (key : Int) (dt : α)
    (hfree : c.moveFreely = false) (hmode : PlaneCamera.isMode c.selectedCameraType) :
    (c.processKeyboardInput M key dt).cameraPosition = c.cameraPosition ∧
    (PlaneCamera.updateCameraPosition M (c.processKeyboardInput M key dt)).cameraPosition
      = Vec3.add (c.processKeyboardInput M key dt).planePosition
          (c.processKeyboardInput M key dt).thirdPersonOffset ∧
    ((c.selectedCameraType = EulerAngles ∨ (key ≠ GLFW_KEY_W ∧ key ≠ GLFW_KEY_S)) →
      c.cameraPosition = c.planePosition.add c.thirdPersonOffset →
      (c.processKeyboardInput M key dt).cameraPosition
        = Vec3.add (c.processKeyboardInput M key dt).planePosition
            (c.processKeyboardInput M key dt).thirdPersonOffset) := by
  refine ⟨PlaneCamera.processKeyboardInput_cameraPosition_of_observer M c key dt hfree, ?_, ?_⟩
  · rw [PlaneCamera.updateCameraPosition_of_observer M _ (by simpa using hfree)
      (by simpa using hmode)]
  · intro hk hc
    rw [PlaneCamera.processKeyboardInput_cameraPosition_of_observer M c key dt hfree, hc]
    rcases hk with hk | ⟨hW, hS⟩
    · rw [PlaneCamera.processKeyboardInput_planePosition_of_euler M c key dt hk]
      simp
    · rw [PlaneCamera.processKeyboardInput_planePosition_of_ne M c key dt hW hS]
      simp

/-- C7, amended, at the constructed camera with `moveFreely = false` and the key W:
the camera stays at `(0,1,10)` and the next `updateCameraPosition` moves it to
`(0,1,7.5)`. -/
theorem processKeyboardInput_observer_witness :
    (PlaneCamera.observer : PlaneCamera ℝ).moveFreely = false ∧
    PlaneCamera.isMode (PlaneCamera.observer : PlaneCamera ℝ).selectedCameraType ∧
    ((PlaneCamera.observer : PlaneCamera ℝ).processKeyboardInput
      Scalar.real GLFW_KEY_W 1).cameraPosition = ⟨0, 1, 10⟩ ∧
    (PlaneCamera.updateCameraPosition Scalar.real
      ((PlaneCamera.observer : PlaneCamera ℝ).processKeyboardInput
        Scalar.real GLFW_KEY_W 1)).cameraPosition = ⟨0, 1, 15 / 2⟩ := by
  have hne : ¬ (FrontRightUpVecs = EulerAngles) := by decide
  have h := processKeyboardInput_observer Scalar.real (PlaneCamera.observer : PlaneCamera ℝ)
    GLFW_KEY_W 1 rfl (Or.inr (Or.inl rfl))
  refine ⟨rfl, Or.inr (Or.inl rfl), ?_, ?_⟩
  · rw [h.1]
    simp [PlaneCamera.observer, PlaneCamera.default, PlaneCamera.ctor, WORLD_ORIGIN, Vec3.add]
  · rw [h.2.1]
    simp [PlaneCamera.processKeyboardInput, PlaneCamera.basisKeys, PlaneCamera.observer,
      PlaneCamera.default, PlaneCamera.ctor, hne, WORLD_ORIGIN, WORLD_FRONT, CAMERA_SPEED,
      Vec3.add, Vec3.scale]
    norm_num

/-! Section: The observer camera. -/

/-- C8. With `moveFreely = false` and one of the three modes selected,
`updateCameraPosition` sets `cameraPosition` to `planePosition + thirdPersonOffset` and
changes nothing else, whatever `cameraOffset`, `firstPerson` and the rotation encodings
are; the same equality holds after `updateCameraType m` for each of the three modes `m`
and after `changeCameraPerspective`. -/
theorem updateCameraPosition_observer (M : Scalar α) (c : PlaneCamera α)
    (hfree : c.moveFreely = false) (hmode : PlaneCamera.isMode c.selectedCameraType) :
    PlaneCamera.updateCameraPosition M c
      = { c with cameraPosition := c.planePosition.add c.thirdPersonOffset } ∧
    (∀ (o f u r : Vec3 α) (fp : Bool) (x y z : α) (q : Quat α),
      (PlaneCamera.updateCameraPosition M
        { c with cameraOffset := o, firstPerson := fp, front := f, up := u, right := r,
                 rotX := x, rotY := y, rotZ := z, planeOrientation := q }).cameraPosition
        = c.planePosition.add c.thirdPersonOffset) ∧
    (∀ m : Int, PlaneCamera.isMode m →
      (c.updateCameraType M m).cameraPosition
        = Vec3.add (c.updateCameraType M m).planePosition
            (c.updateCameraType M m).thirdPersonOffset) ∧
    (c.changeCameraPerspective M).cameraPosition
      = Vec3.add (c.changeCameraPerspective M).planePosition
          (c.changeCameraPerspective M).thirdPersonOffset := by
  refine ⟨PlaneCamera.updateCameraPosition_of_observer M c hfree hmode, ?_, ?_, ?_⟩
  · intro o f u r fp x y z q
    rw [PlaneCamera.updateCameraPosition_of_observer]
    · exact hfree
    · exact hmode
  · intro m hm
    unfold PlaneCamera.updateCameraType
    simp only []
    rw [PlaneCamera.updateCameraPosition_of_observer]
    · simpa using hfree
    · exact hm
  · unfold PlaneCamera.changeCameraPerspective
    simp only []
    split_ifs
    · rw [PlaneCamera.updateCameraPosition_of_observer]
      · exact hfree
      · exact hmode
    · rw [PlaneCamera.updateCameraPosition_of_observer]
      · exact hfree
      · exact hmode

/-- C8 at the constructed camera with `moveFreely = false`, switched to Euler mode: the
camera is at `(0,1,10)`. -/
theorem updateCameraPosition_observer_witness :
    (PlaneCamera.observer : PlaneCamera ℝ).moveFreely = false ∧
    PlaneCamera.isMode (PlaneCamera.observer : PlaneCamera ℝ).selectedCameraType ∧
    ((PlaneCamera.observer : PlaneCamera ℝ).updateCameraType
      Scalar.real EulerAngles).cameraPosition = ⟨0, 1, 10⟩ := by
  have h := (updateCameraPosition_observer Scalar.real (PlaneCamera.observer : PlaneCamera ℝ)
    rfl (Or.inr (Or.inl rfl))).2.2.1 EulerAngles (Or.inl rfl)
  refine ⟨rfl, Or.inr (Or.inl rfl), h.trans ?_⟩
  simp [PlaneCamera.updateCameraType, PlaneCamera.observer, PlaneCamera.default,
    PlaneCamera.ctor, WORLD_ORIGIN, Vec3.add]

/-! Section: Mode switches at the identity orientation. -/

/-- C9. From Basis mode at the world frame (`front = (0,0,-1)`, `up = (0,1,0)`,
`right = (1,0,0)`), switching to Euler mode and back to Basis mode gives exactly the
same `front`, `right` and `up`; the Euler angles in between are all zero. -/
theorem updateCameraType_basis_euler_roundtrip (c : PlaneCamera ℝ)
    (hmode : c.selectedCameraType = FrontRightUpVecs)
    (hfront : c.front = ⟨0, 0, -1⟩) (hup : c.up = ⟨0, 1, 0⟩) (hright : c.right = ⟨1, 0, 0⟩) :
    ((c.updateCameraType Scalar.real EulerAngles).updateCameraType
      Scalar.real FrontRightUpVecs).front = c.front ∧
    ((c.updateCameraType Scalar.real EulerAngles).updateCameraType
      Scalar.real FrontRightUpVecs).right = c.right ∧
    ((c.updateCameraType Scalar.real EulerAngles).updateCameraType
      Scalar.real FrontRightUpVecs).up = c.up ∧
    (c.updateCameraType Scalar.real EulerAngles).rotX = 0 ∧
    (c.updateCameraType Scalar.real EulerAngles).rotY = 0 ∧
    (c.updateCameraType Scalar.real EulerAngles).rotZ = 0 := by
  obtain ⟨hx, hy, hz⟩ := PlaneCamera.convertEncodings_basis_world_euler Scalar.real
    Real.arcsin_zero Scalar.real_atan2_zero_one c hmode hfront hup hright
  obtain ⟨hm1, ex, ey, ez, -⟩ := PlaneCamera.updateCameraType_encodings Scalar.real c EulerAngles
  rw [← ex] at hx
  rw [← ey] at hy
  rw [← ez] at hz
  obtain ⟨hf, hr, hu⟩ := PlaneCamera.updateCameraType_basis_of_euler Scalar.real
    (c.updateCameraType Scalar.real EulerAngles) FrontRightUpVecs hm1
  have hrot : ∀ v : Vec3 ℝ,
      PlaneCamera.getRotatedOffset Scalar.real (c.updateCameraType Scalar.real EulerAngles) v
        = v :=
    PlaneCamera.getRotatedOffset_zero Scalar.real Real.sin_zero Real.cos_zero _ hx hy hz
  rw [hrot] at hf hr hu
  refine ⟨?_, ?_, ?_, hx, hy, hz⟩
  · rw [hf, hfront]; rfl
  · rw [hr, hright]; rfl
  · rw [hu, hup]; rfl

/-- C9 at the constructed camera: Basis to Euler to Basis gives `front = (0,0,-1)`. -/
theorem updateCameraType_basis_euler_roundtrip_witness :
    (PlaneCamera.default : PlaneCamera ℝ).selectedCameraType = FrontRightUpVecs ∧
    (PlaneCamera.default : PlaneCamera ℝ).front = ⟨0, 0, -1⟩ ∧
    (PlaneCamera.default : PlaneCamera ℝ).up = ⟨0, 1, 0⟩ ∧
    (PlaneCamera.default : PlaneCamera ℝ).right = ⟨1, 0, 0⟩ ∧
    (((PlaneCamera.default : PlaneCamera ℝ).updateCameraType
      Scalar.real EulerAngles).updateCameraType Scalar.real FrontRightUpVecs).front
      = ⟨0, 0, -1⟩ := by
  have hright : (PlaneCamera.default : PlaneCamera ℝ).right = ⟨1, 0, 0⟩ := by
    simp [PlaneCamera.default, PlaneCamera.ctor, cross, WORLD_FRONT, WORLD_UP]
  exact ⟨rfl, rfl, rfl, hright,
    (updateCameraType_basis_euler_roundtrip (PlaneCamera.default : PlaneCamera ℝ)
      rfl rfl rfl hright).1⟩

/-- C10. From Basis mode at the world frame, switching to Quaternion mode and back to
Basis mode gives exactly the same `front`, `right` and `up`; the quaternion in between
is the identity `(1,0,0,0)`. -/
theorem updateCameraType_basis_quaternion_roundtrip (c : PlaneCamera ℝ)
    (hmode : c.selectedCameraType = FrontRightUpVecs)
    (hfront : c.front = ⟨0, 0, -1⟩) (hup : c.up = ⟨0, 1, 0⟩) (hright : c.right = ⟨1, 0, 0⟩) :
    ((c.updateCameraType Scalar.real Quaternions).updateCameraType
      Scalar.real FrontRightUpVecs).front = c.front ∧
    ((c.updateCameraType Scalar.real Quaternions).updateCameraType
      Scalar.real FrontRightUpVecs).right = c.right ∧
    ((c.updateCameraType Scalar.real Quaternions).updateCameraType
      Scalar.real FrontRightUpVecs).up = c.up ∧
    (c.updateCameraType Scalar.real Quaternions).planeOrientation = ⟨1, 0, 0, 0⟩ := by
  have hq := PlaneCamera.convertEncodings_basis_world_quat Scalar.real
    Scalar.real_sqrt_four c hmode hfront hup hright
  obtain ⟨hm1, -, -, -, -, -, -, eq⟩ :=
    PlaneCamera.updateCameraType_encodings Scalar.real c Quaternions
  rw [← eq] at hq
  obtain ⟨hf, hr, hu, -⟩ := PlaneCamera.updateCameraType_basis_of_quaternion Scalar.real
    (c.updateCameraType Scalar.real Quaternions) FrontRightUpVecs hm1
  rw [hq, rotateVec_identity] at hf hr hu
  refine ⟨?_, ?_, ?_, hq⟩
  · rw [hf, hfront]; rfl
  · rw [hr, hright]; rfl
  · rw [hu, hup]; rfl

/-- C10 at the constructed camera: Basis to Quaternion to Basis gives `up = (0,1,0)`, and
the quaternion in between is `(1,0,0,0)`. -/
theorem updateCameraType_basis_quaternion_roundtrip_witness :
    (PlaneCamera.default : PlaneCamera ℝ).selectedCameraType = FrontRightUpVecs ∧
    (PlaneCamera.default : PlaneCamera ℝ).front = ⟨0, 0, -1⟩ ∧
    (PlaneCamera.default : PlaneCamera ℝ).up = ⟨0, 1, 0⟩ ∧
    (PlaneCamera.default : PlaneCamera ℝ).right = ⟨1, 0, 0⟩ ∧
    (((PlaneCamera.default : PlaneCamera ℝ).updateCameraType
      Scalar.real Quaternions).updateCameraType Scalar.real FrontRightUpVecs).up
      = ⟨0, 1, 0⟩ ∧
    ((PlaneCamera.default : PlaneCamera ℝ).updateCameraType
      Scalar.real Quaternions).planeOrientation = ⟨1, 0, 0, 0⟩ := by
  have hright : (PlaneCamera.default : PlaneCamera ℝ).right = ⟨1, 0, 0⟩ := by
    simp [PlaneCamera.default, PlaneCamera.ctor, cross, WORLD_FRONT, WORLD_UP]
  have h := updateCameraType_basis_quaternion_roundtrip (PlaneCamera.default : PlaneCamera ℝ)
    rfl rfl rfl hright
  exact ⟨rfl, rfl, rfl, hright, h.2.2.1, h.2.2.2⟩

/-! Section: Quaternion mode: the norm of the orientation. -/

namespace Glm

theorem Quat.dot_self_nonneg (q : Quat α) : 0 ≤ Quat.dot q q := by
  unfold Quat.dot
  nlinarith [mul_self_nonneg q.w, mul_self_nonneg q.x, mul_self_nonneg q.y, mul_self_nonneg q.z]

/-- A normalized quaternion has length one, for every scalar implementation whose `sqrt`
squares back on non-negative arguments and has `sqrt 1 = 1`. -/
theorem Quat.length_normalize (M : Scalar α)
    (hsq : ∀ x : α, 0 ≤ x → M.sqrt x * M.sqrt x = x) (h1 : M.sqrt 1 = 1) (q : Quat α) :
    Quat.length M (Quat.normalize M q) = 1 := by
  unfold Quat.normalize
  simp only []
  by_cases h : Quat.length M q ≤ 0
  · rw [if_pos h]
    simp [Quat.length, Quat.dot, h1]
  · rw [if_neg h]
    have hpos : 0 < Quat.length M q := not_le.mp h
    have hne : Quat.length M q ≠ 0 := ne_of_gt hpos
    have hd : Quat.length M q * Quat.length M q = Quat.dot q q :=
      hsq _ (Quat.dot_self_nonneg q)
    have hone : Quat.dot
        (⟨q.w * (1 / Quat.length M q), q.x * (1 / Quat.length M q),
          q.y * (1 / Quat.length M q), q.z * (1 / Quat.length M q)⟩ : Quat α)
        (⟨q.w * (1 / Quat.length M q), q.x * (1 / Quat.length M q),
          q.y * (1 / Quat.length M q), q.z * (1 / Quat.length M q)⟩ : Quat α) = 1 := by
      have : Quat.dot q q = q.w * q.w + q.x * q.x + q.y * q.y + q.z * q.z := rfl
      simp only [Quat.dot]
      field_simp
      rw [← this, ← hd]
    show M.sqrt _ = 1
    rw [hone, h1]

theorem Scalar.real_sqrt_mul_self (x : ℝ) (hx : 0 ≤ x) :
    Scalar.real.sqrt x * Scalar.real.sqrt x = x :=
  Real.mul_self_sqrt hx

theorem Scalar.real_sqrt_one : Scalar.real.sqrt 1 = 1 := Real.sqrt_one

end Glm

namespace PlaneCamera

/-- In Quaternion mode `processKeyboardInput` leaves the orientation that the key switch
computed. -/
theorem processKeyboardInput_planeOrientation_of_quaternion (M : Scalar α) (c : PlaneCamera α)
    (key : Int) (dt : α) (hmode : c.selectedCameraType = Quaternions) :
    (processKeyboardInput M c key dt).planeOrientation
      = (quaternionKeys M c key (c.movementSpeed * dt) (c.turnSpeed * dt)).planeOrientation := by
  have h0 : ¬ (Quaternions = EulerAngles) := by decide
  have h1 : ¬ (Quaternions = FrontRightUpVecs) := by decide
  unfold processKeyboardInput
  simp only [hmode, h0, h1, if_false, if_true]
  split <;> rfl

/-- Every rotation key of the Quaternion key switch stores a normalized quaternion. -/
theorem quaternionKeys_planeOrientation_of_rotation (M : Scalar α) (c : PlaneCamera α)
    (key : Int) (v rs : α) (hkey : isRotationKey key) :
    ∃ p : Quat α, (quaternionKeys M c key v rs).planeOrientation = Quat.normalize M p := by
  rcases hkey with h | h | h | h | h | h <;> subst h <;>
    exact ⟨_, by simp [quaternionKeys, GLFW_KEY_W, GLFW_KEY_S, GLFW_KEY_A, GLFW_KEY_D,
      GLFW_KEY_Q, GLFW_KEY_E, GLFW_KEY_Z, GLFW_KEY_X]; rfl⟩

/-- Every other key of the Quaternion key switch keeps the orientation. -/
theorem quaternionKeys_planeOrientation_of_not_rotation (M : Scalar α) (c : PlaneCamera α)
    (key : Int) (v rs : α) (hkey : ¬ isRotationKey key) :
    (quaternionKeys M c key v rs).planeOrientation = c.planeOrientation := by
  unfold isRotationKey at hkey
  push_neg at hkey
  obtain ⟨hA, hD, hQ, hE, hZ, hX⟩ := hkey
  unfold quaternionKeys
  simp only [hA, hD, hQ, hE, hZ, hX, if_false]
  split
  · rfl
  · split <;> rfl

end PlaneCamera

/-! Section: Binary32 arithmetic on known values. -/

namespace Glm

/-- The rounding `round32` on known values: `0.1f` is `13421773 * 2^-27`, a third rounds to
`11184811 * 2^-25`, the ties `2^24 + 1` and `2^24 + 3` go to the even neighbours `2^24` and
`2^24 + 4`, `3 * 2^-150` rounds to the subnormal `2^-148` and `2^-150` to zero. -/
theorem round32_values :
    round32 (1 / 10 : ℚ) = 13421773 / 134217728 ∧
    round32 (1 / 3 : ℚ) = 11184811 / 33554432 ∧
    round32 (16777217 : ℚ) = 16777216 ∧
    round32 (16777219 : ℚ) = 16777220 ∧
    round32 (3 / 2 ^ 150 : ℚ) = 1 / 2 ^ 148 ∧
    round32 (1 / 2 ^ 150 : ℚ) = 0 ∧
    round32 (-1 / 10 : ℚ) = -(13421773 / 134217728) := by
  decide!

/-- The functions `sqrtf`, `sinf` and `cosf` of the binary32 embedding on known values:
`sqrtf(2) = 1.41421354`, `sqrtf(4) = 2`, `sinf(1) = 0.841470957`, `cosf(1) = 0.540302277`,
`sinf(0) = 0`, `cosf(0) = 1`. -/
theorem F32.libm_values :
    F32.sqrt 2 = ⟨11863283 / 8388608⟩ ∧
    F32.sqrt 4 = 2 ∧
    F32.sin 1 = ⟨3529385 / 4194304⟩ ∧
    F32.cos 1 = ⟨141637 / 262144⟩ ∧
    F32.sin 0 = 0 ∧
    F32.cos 0 = 1 := by
  decide!

end Glm

namespace PlaneCamera

/-- The Euler key switch ignores a key that is not a rotation key. -/
theorem eulerKeys_of_not_rotation (M : Scalar α) (c : PlaneCamera α) (key : Int) (rs : α)
    (hkey : ¬ isRotationKey key) : eulerKeys M c key rs = c := by
  unfold isRotationKey at hkey
  push_neg at hkey
  obtain ⟨hA, hD, hQ, hE, hZ, hX⟩ := hkey
  unfold eulerKeys
  simp only [hA, hD, hQ, hE, hZ, hX, if_false]

/-- The Basis key switch ignores an unrecognized key. -/
theorem basisKeys_of_not_recognized (M : Scalar α) (c : PlaneCamera α) (key : Int) (v rs : α)
    (hkey : ¬ isRecognizedKey key) : basisKeys M c key v rs = c := by
  unfold isRecognizedKey isRotationKey at hkey
  push_neg at hkey
  obtain ⟨hW, hS, hA, hD, hQ, hE, hZ, hX⟩ := hkey
  unfold basisKeys
  simp only [hW, hS, hA, hD, hQ, hE, hZ, hX, if_false]

/-- The Quaternion key switch ignores an unrecognized key. -/
theorem quaternionKeys_of_not_recognized (M : Scalar α) (c : PlaneCamera α) (key : Int)
    (v rs : α) (hkey : ¬ isRecognizedKey key) : quaternionKeys M c key v rs = c := by
  unfold isRecognizedKey isRotationKey at hkey
  push_neg at hkey
  obtain ⟨hW, hS, hA, hD, hQ, hE, hZ, hX⟩ := hkey
  unfold quaternionKeys
  simp only [hW, hS, hA, hD, hQ, hE, hZ, hX, if_false]

/-- With an unrecognized key, `processKeyboardInput` is `updateCameraPosition` when
`moveFreely` is set and the identity otherwise. -/
theorem processKeyboardInput_of_not_recognized (M : Scalar α) (c : PlaneCamera α) (key : Int)
    (dt : α) (hkey : ¬ isRecognizedKey key) :
    processKeyboardInput M c key dt = if c.moveFreely then updateCameraPosition M c else c := by
  have hrot : ¬ isRotationKey key := fun h => hkey (Or.inr (Or.inr h))
  unfold processKeyboardInput updateCameraPosition
  simp only [eulerKeys_of_not_rotation M c key _ hrot,
    basisKeys_of_not_recognized M c key _ _ hkey,
    quaternionKeys_of_not_recognized M c key _ _ hkey]
  cases hfree : c.moveFreely <;> simp

end PlaneCamera

/-- C12 as stated fails: the camera constructed with `thirdPersonOffset = (1,1,10)` has
`cameraPosition = (1,1,10)`; the key F (code 70, not one of the eight) makes
`processKeyboardInput` recompute it to `(0,1,10)`. -/
theorem processKeyboardInput_unrecognized_counterexample :
    ¬ PlaneCamera.isRecognizedKey 70 ∧
    (PlaneCamera.ctor WORLD_ORIGIN ⟨0, 1, 0⟩ ⟨1, 1, 10⟩ true : PlaneCamera ℝ).cameraPosition
      = ⟨1, 1, 10⟩ ∧
    (PlaneCamera.processKeyboardInput Scalar.real
      (PlaneCamera.ctor WORLD_ORIGIN ⟨0, 1, 0⟩ ⟨1, 1, 10⟩ true : PlaneCamera ℝ)
      70 1).cameraPosition = ⟨0, 1, 10⟩ ∧
    PlaneCamera.processKeyboardInput Scalar.real
      (PlaneCamera.ctor WORLD_ORIGIN ⟨0, 1, 0⟩ ⟨1, 1, 10⟩ true : PlaneCamera ℝ) 70 1
      ≠ (PlaneCamera.ctor WORLD_ORIGIN ⟨0, 1, 0⟩ ⟨1, 1, 10⟩ true : PlaneCamera ℝ) := by
  have hkey : ¬ PlaneCamera.isRecognizedKey 70 := by
    unfold PlaneCamera.isRecognizedKey PlaneCamera.isRotationKey
    decide
  have hne : ¬ (FrontRightUpVecs = EulerAngles) := by decide
  have h1 : (PlaneCamera.ctor WORLD_ORIGIN ⟨0, 1, 0⟩ ⟨1, 1, 10⟩ true :
      PlaneCamera ℝ).cameraPosition = ⟨1, 1, 10⟩ := by
    simp [PlaneCamera.ctor, WORLD_ORIGIN, Vec3.add]
  have h2 : (PlaneCamera.processKeyboardInput Scalar.real
      (PlaneCamera.ctor WORLD_ORIGIN ⟨0, 1, 0⟩ ⟨1, 1, 10⟩ true : PlaneCamera ℝ)
      70 1).cameraPosition = ⟨0, 1, 10⟩ := by
    rw [PlaneCamera.processKeyboardInput_of_not_recognized _ _ _ _ hkey]
    simp [PlaneCamera.updateCameraPosition, PlaneCamera.ctor, hne, WORLD_ORIGIN, WORLD_FRONT,
      WORLD_UP, Vec3.add, Vec3.sub, Vec3.scale]
  refine ⟨hkey, h1, h2, fun h => ?_⟩
  rw [h, h1] at h2
  have hx := congrArg Vec3.x h2
  norm_num at hx

/-- C12, amended. For a key that is not one of W, S, A, D, Q, E, Z, X,
`processKeyboardInput` changes no field other than `cameraPosition`: it is
`updateCameraPosition` when `moveFreely` is set and the identity otherwise; so it is a
no-op when `moveFreely` is false, when the mode is none of the three, and when
`cameraPosition` already is the recomputed camera position. -/
theorem processKeyboardInput_unrecognized (M : Scalar α) (c : PlaneCamera α) (key : Int)
    (dt : α) (hkey : ¬ PlaneCamera.isRecognizedKey key) :
    c.processKeyboardInput M key dt
      = (if c.moveFreely then PlaneCamera.updateCameraPosition M c else c) ∧
    c.processKeyboardInput M key dt
      = { c with cameraPosition := (c.processKeyboardInput M key dt).cameraPosition } ∧
    (c.moveFreely = false → c.processKeyboardInput M key dt = c) ∧
    (¬ PlaneCamera.isMode c.selectedCameraType → c.processKeyboardInput M key dt = c) ∧
    (PlaneCamera.updateCameraPosition M c = c → c.processKeyboardInput M key dt = c) := by
  have h := PlaneCamera.processKeyboardInput_of_not_recognized M c key dt hkey
  refine ⟨h, ?_, ?_, ?_, ?_⟩
  · rw [h]
    by_cases hfree : c.moveFreely = true
    · rw [if_pos hfree]
      apply PlaneCamera.ext <;> simp
    · rw [if_neg hfree]
  · intro hfree
    rw [h, hfree]
    simp
  · intro hmode
    rw [h]
    unfold PlaneCamera.isMode at hmode
    push_neg at hmode
    unfold PlaneCamera.updateCameraPosition
    simp [hmode.1, hmode.2.1, hmode.2.2]
  · intro hup
    rw [h, hup]
    simp

/-- C12, amended, at the constructed camera and the key F: the call changes nothing,
because the camera already is at the recomputed position `(0,1,10)`. -/
theorem processKeyboardInput_unrecognized_witness :
    ¬ PlaneCamera.isRecognizedKey 70 ∧
    (PlaneCamera.default : PlaneCamera ℝ).processKeyboardInput Scalar.real 70 1
      = PlaneCamera.default := by
  have hkey : ¬ PlaneCamera.isRecognizedKey 70 := by
    unfold PlaneCamera.isRecognizedKey PlaneCamera.isRotationKey
    decide
  have hne : ¬ (FrontRightUpVecs = EulerAngles) := by decide
  refine ⟨hkey, (processKeyboardInput_unrecognized Scalar.real
    (PlaneCamera.default : PlaneCamera ℝ) 70 1 hkey).2.2.2.2 ?_⟩
  apply PlaneCamera.ext <;>
    simp [PlaneCamera.updateCameraPosition, PlaneCamera.default, PlaneCamera.ctor, hne,
      WORLD_ORIGIN, WORLD_FRONT, WORLD_UP, Vec3.add, Vec3.sub, Vec3.scale]

/-! Section: Euler mode keys and the frame of a mode switch. -/

namespace PlaneCamera

/-- In Euler mode `processKeyboardInput` changes the Euler key switch's result in
`cameraPosition` only. -/
theorem processKeyboardInput_of_euler (M : Scalar α) (c : PlaneCamera α) (key : Int) (dt : α)
    (hmode : c.selectedCameraType = EulerAngles) :
    (processKeyboardInput M c key dt).rotX = (eulerKeys M c key (c.turnSpeed * dt)).rotX ∧
    (processKeyboardInput M c key dt).rotY = (eulerKeys M c key (c.turnSpeed * dt)).rotY ∧
    (processKeyboardInput M c key dt).rotZ = (eulerKeys M c key (c.turnSpeed * dt)).rotZ ∧
    (processKeyboardInput M c key dt).planePosition = c.planePosition ∧
    (processKeyboardInput M c key dt).front = c.front ∧
    (processKeyboardInput M c key dt).up = c.up ∧
    (processKeyboardInput M c key dt).right = c.right ∧
    (processKeyboardInput M c key dt).planeOrientation = c.planeOrientation := by
  unfold processKeyboardInput
  simp only [hmode, if_true]
  refine ⟨?_, ?_, ?_, ?_, ?_, ?_, ?_, ?_⟩
  · split <;> rfl
  · split <;> rfl
  · split <;> rfl
  · split <;> exact eulerKeys_planePosition _ _ _ _
  · split <;> exact eulerKeys_front _ _ _ _
  · split <;> exact eulerKeys_up _ _ _ _
  · split <;> exact eulerKeys_right _ _ _ _
  · split <;> exact eulerKeys_planeOrientation _ _ _ _

end PlaneCamera

/-- C13. In Euler mode, with `r = radians (turnSpeed * dt) = turnSpeed * dt * π / 180`:
A adds `r` to `rotY` and D subtracts it, Q adds `r` to `rotX` and E subtracts it, X adds
`r` to `rotZ` and Z subtracts it, the two other angles staying as they were; and no key
changes `planePosition`, `front`, `up`, `right` or `planeOrientation`. -/
theorem processKeyboardInput_euler (M : Scalar α) (c : PlaneCamera α) (dt : α)
    (hmode : c.selectedCameraType = EulerAngles) :
    radians M (c.turnSpeed * dt) = c.turnSpeed * dt * M.pi / 180 ∧
    ((c.processKeyboardInput M GLFW_KEY_A dt).rotY = c.rotY + radians M (c.turnSpeed * dt) ∧
      (c.processKeyboardInput M GLFW_KEY_A dt).rotX = c.rotX ∧
      (c.processKeyboardInput M GLFW_KEY_A dt).rotZ = c.rotZ) ∧
    ((c.processKeyboardInput M GLFW_KEY_D dt).rotY = c.rotY - radians M (c.turnSpeed * dt) ∧
      (c.processKeyboardInput M GLFW_KEY_D dt).rotX = c.rotX ∧
      (c.processKeyboardInput M GLFW_KEY_D dt).rotZ = c.rotZ) ∧
    ((c.processKeyboardInput M GLFW_KEY_Q dt).rotX = c.rotX + radians M (c.turnSpeed * dt) ∧
      (c.processKeyboardInput M GLFW_KEY_Q dt).rotY = c.rotY ∧
      (c.processKeyboardInput M GLFW_KEY_Q dt).rotZ = c.rotZ) ∧
    ((c.processKeyboardInput M GLFW_KEY_E dt).rotX = c.rotX - radians M (c.turnSpeed * dt) ∧
      (c.processKeyboardInput M GLFW_KEY_E dt).rotY = c.rotY ∧
      (c.processKeyboardInput M GLFW_KEY_E dt).rotZ = c.rotZ) ∧
    ((c.processKeyboardInput M GLFW_KEY_X dt).rotZ = c.rotZ + radians M (c.turnSpeed * dt) ∧
      (c.processKeyboardInput M GLFW_KEY_X dt).rotX = c.rotX ∧
      (c.processKeyboardInput M GLFW_KEY_X dt).rotY = c.rotY) ∧
    ((c.processKeyboardInput M GLFW_KEY_Z dt).rotZ = c.rotZ - radians M (c.turnSpeed * dt) ∧
      (c.processKeyboardInput M GLFW_KEY_Z dt).rotX = c.rotX ∧
      (c.processKeyboardInput M GLFW_KEY_Z dt).rotY = c.rotY) ∧
    (∀ key : Int,
      (c.processKeyboardInput M key dt).planePosition = c.planePosition ∧
      (c.processKeyboardInput M key dt).front = c.front ∧
      (c.processKeyboardInput M key dt).up = c.up ∧
      (c.processKeyboardInput M key dt).right = c.right ∧
      (c.processKeyboardInput M key dt).planeOrientation = c.planeOrientation) := by
  have hk : ∀ key : Int,
      (c.processKeyboardInput M key dt).rotX
        = (PlaneCamera.eulerKeys M c key (c.turnSpeed * dt)).rotX ∧
      (c.processKeyboardInput M key dt).rotY
        = (PlaneCamera.eulerKeys M c key (c.turnSpeed * dt)).rotY ∧
      (c.processKeyboardInput M key dt).rotZ
        = (PlaneCamera.eulerKeys M c key (c.turnSpeed * dt)).rotZ := fun key =>
    ⟨(PlaneCamera.processKeyboardInput_of_euler M c key dt hmode).1,
      (PlaneCamera.processKeyboardInput_of_euler M c key dt hmode).2.1,
      (PlaneCamera.processKeyboardInput_of_euler M c key dt hmode).2.2.1⟩
  refine ⟨?_, ?_, ?_, ?_, ?_, ?_, ?_, ?_⟩
  · unfold radians; ring
  · rw [(hk _).1, (hk _).2.1, (hk _).2.2]
    simp [PlaneCamera.eulerKeys, GLFW_KEY_A]
  · rw [(hk _).1, (hk _).2.1, (hk _).2.2]
    simp [PlaneCamera.eulerKeys, GLFW_KEY_A, GLFW_KEY_D]
  · rw [(hk _).1, (hk _).2.1, (hk _).2.2]
    simp [PlaneCamera.eulerKeys, GLFW_KEY_A, GLFW_KEY_D, GLFW_KEY_Q]
  · rw [(hk _).1, (hk _).2.1, (hk _).2.2]
    simp [PlaneCamera.eulerKeys, GLFW_KEY_A, GLFW_KEY_D, GLFW_KEY_Q, GLFW_KEY_E]
  · rw [(hk _).1, (hk _).2.1, (hk _).2.2]
    simp [PlaneCamera.eulerKeys, GLFW_KEY_A, GLFW_KEY_D, GLFW_KEY_Q, GLFW_KEY_E, GLFW_KEY_Z,
      GLFW_KEY_X]
  · rw [(hk _).1, (hk _).2.1, (hk _).2.2]
    simp [PlaneCamera.eulerKeys, GLFW_KEY_A, GLFW_KEY_D, GLFW_KEY_Q, GLFW_KEY_E, GLFW_KEY_Z]
  · intro key
    exact (PlaneCamera.processKeyboardInput_of_euler M c key dt hmode).2.2.2

/-- C13 at the constructed camera put in Euler mode with `turnSpeed = 5`: the key A for
two seconds gives `rotY = 10 π / 180`. -/
theorem processKeyboardInput_euler_witness :
    ({ (PlaneCamera.default : PlaneCamera ℝ) with
        selectedCameraType := EulerAngles }).selectedCameraType = EulerAngles ∧
    (PlaneCamera.processKeyboardInput Scalar.real
      { (PlaneCamera.default : PlaneCamera ℝ) with selectedCameraType := EulerAngles }
      GLFW_KEY_A 2).rotY = 10 * Real.pi / 180 := by
  have h := processKeyboardInput_euler Scalar.real
    { (PlaneCamera.default : PlaneCamera ℝ) with selectedCameraType := EulerAngles } 2 rfl
  refine ⟨rfl, ?_⟩
  rw [h.2.1.1, h.1]
  simp [PlaneCamera.default, PlaneCamera.ctor, TURN_SPEED, Scalar.real]
  norm_num

/-- C14. `updateCameraType m` ends with `selectedCameraType = m`; it keeps the Euler
angles when the old mode is Euler, `front`, `right`, `up` when it is Basis, and
`planeOrientation` when it is Quaternion; and it always keeps `planePosition`,
`cameraOffset`, the two presets, the speeds, the zoom and the flags. -/
theorem updateCameraType_frame (M : Scalar α) (c : PlaneCamera α) (m : Int) :
    (c.updateCameraType M m).selectedCameraType = m ∧
    (c.selectedCameraType = EulerAngles →
      (c.updateCameraType M m).rotX = c.rotX ∧ (c.updateCameraType M m).rotY = c.rotY ∧
      (c.updateCameraType M m).rotZ = c.rotZ) ∧
    (c.selectedCameraType = FrontRightUpVecs →
      (c.updateCameraType M m).front = c.front ∧ (c.updateCameraType M m).right = c.right ∧
      (c.updateCameraType M m).up = c.up) ∧
    (c.selectedCameraType = Quaternions →
      (c.updateCameraType M m).planeOrientation = c.planeOrientation) ∧
    (c.updateCameraType M m).planePosition = c.planePosition ∧
    (c.updateCameraType M m).cameraOffset = c.cameraOffset ∧
    (c.updateCameraType M m).firstPersonOffset = c.firstPersonOffset ∧
    (c.updateCameraType M m).thirdPersonOffset = c.thirdPersonOffset ∧
    (c.updateCameraType M m).movementSpeed = c.movementSpeed ∧
    (c.updateCameraType M m).turnSpeed = c.turnSpeed ∧
    (c.updateCameraType M m).zoom = c.zoom ∧
    (c.updateCameraType M m).zoomEnabled = c.zoomEnabled ∧
    (c.updateCameraType M m).firstPerson = c.firstPerson ∧
    (c.updateCameraType M m).moveFreely = c.moveFreely := by
  have h10 : ¬ (FrontRightUpVecs = EulerAngles) := by decide
  have h20 : ¬ (Quaternions = EulerAngles) := by decide
  have h21 : ¬ (Quaternions = FrontRightUpVecs) := by decide
  refine ⟨?_, ?_, ?_, ?_, ?_, ?_, ?_, ?_, ?_, ?_, ?_, ?_, ?_, ?_⟩
  · simp [PlaneCamera.updateCameraType]
  · intro h
    simp [PlaneCamera.updateCameraType, PlaneCamera.convertEncodings, h]
  · intro h
    simp [PlaneCamera.updateCameraType, PlaneCamera.convertEncodings, h, h10]
  · intro h
    simp [PlaneCamera.updateCameraType, PlaneCamera.convertEncodings, h, h20, h21]
  all_goals simp [PlaneCamera.updateCameraType]

/-- C14 at the constructed camera (Basis mode) switched to Quaternion mode: the mode is
Quaternion and `front` still is `(0,0,-1)`. -/
theorem updateCameraType_frame_witness :
    (PlaneCamera.default : PlaneCamera ℝ).selectedCameraType = FrontRightUpVecs ∧
    ((PlaneCamera.default : PlaneCamera ℝ).updateCameraType
      Scalar.real Quaternions).selectedCameraType = Quaternions ∧
    ((PlaneCamera.default : PlaneCamera ℝ).updateCameraType Scalar.real Quaternions).front
      = ⟨0, 0, -1⟩ := by
  have h := updateCameraType_frame Scalar.real (PlaneCamera.default : PlaneCamera ℝ) Quaternions
  exact ⟨rfl, h.1, (h.2.2.1 rfl).1⟩

/-! Section: Leaving Euler mode: the basis and the quaternion. -/

namespace PlaneCamera

theorem getRotatedOffset_yaw_pi_roll_half_pi (c : PlaneCamera ℝ) (hx : c.rotX = 0)
    (hy : c.rotY = Real.pi) (hz : c.rotZ = Real.pi / 2) :
    getRotatedOffset Scalar.real c WORLD_RIGHT = ⟨0, 1, 0⟩ := by
  unfold getRotatedOffset
  simp only [hx, hy, hz, rotate_zero Scalar.real Real.sin_zero Real.cos_zero]
  simp [rotate, Glm.normalize, inversesqrt, dot, Scalar.real, WORLD_FRONT, WORLD_UP,
    WORLD_RIGHT, Mat4.identity, Mat4.mulVec, Vec4.add, Vec4.scale, Vec4.ofVec3, Vec4.xyz,
    Vec3.scale, Vec3.lscale]

end PlaneCamera

namespace Glm

/-- A quaternion with `dot q q = 1` is its own normalization over the reals. -/
theorem Quat.normalize_of_unit_real (q : Quat ℝ) (h : Quat.dot q q = 1) :
    Quat.normalize Scalar.real q = q := by
  have hl : Quat.length Scalar.real q = 1 := by
    show Real.sqrt (Quat.dot q q) = 1
    rw [h, Real.sqrt_one]
  unfold Quat.normalize
  simp only [hl]
  have : ¬ ((1 : ℝ) ≤ 0) := by norm_num
  rw [if_neg this]
  apply Quat.ext <;> simp

/-- The quaternion that the Euler-to-quaternion conversion composes for pitch `0`, yaw
`π` and roll `π / 2`. -/
theorem eulerQuat_yaw_pi_roll_half_pi :
    Quat.normalize Scalar.real
      (((angleAxis Scalar.real Real.pi WORLD_UP).mul
        (angleAxis Scalar.real 0 WORLD_RIGHT)).mul
        (angleAxis Scalar.real (Real.pi / 2) WORLD_FRONT))
      = ⟨0, -(Real.sqrt 2 / 2), Real.sqrt 2 / 2, 0⟩ := by
  have hs : Real.sqrt 2 * Real.sqrt 2 = 2 := Real.mul_self_sqrt (by norm_num)
  have a1 : Real.pi * (1 / 2) = Real.pi / 2 := by ring
  have a2 : Real.pi / 2 * (1 / 2) = Real.pi / 4 := by ring
  have e1 : angleAxis Scalar.real Real.pi WORLD_UP = ⟨0, 0, 1, 0⟩ := by
    simp only [angleAxis, a1]
    simp [Scalar.real, WORLD_UP]
  have e2 : angleAxis Scalar.real 0 WORLD_RIGHT = ⟨1, 0, 0, 0⟩ := by
    simp [angleAxis, Scalar.real, WORLD_RIGHT]
  have e3 : angleAxis Scalar.real (Real.pi / 2) WORLD_FRONT
      = ⟨Real.sqrt 2 / 2, 0, 0, -(Real.sqrt 2 / 2)⟩ := by
    simp only [angleAxis, a2]
    simp [Scalar.real, WORLD_FRONT]
  have e : ((angleAxis Scalar.real Real.pi WORLD_UP).mul
        (angleAxis Scalar.real 0 WORLD_RIGHT)).mul
        (angleAxis Scalar.real (Real.pi / 2) WORLD_FRONT)
      = ⟨0, -(Real.sqrt 2 / 2), Real.sqrt 2 / 2, 0⟩ := by
    rw [e1, e2, e3]
    simp [Quat.mul]
  rw [e]
  apply Quat.normalize_of_unit_real
  simp only [Quat.dot]
  nlinarith [hs]

end Glm

namespace PlaneCamera

/-- Leaving Euler mode with pitch `0`, yaw `π` and roll `π / 2`: `right` is `(0,1,0)`
and the quaternion sends the world right axis to `(0,-1,0)`. -/
theorem updateCameraType_euler_yaw_pi_roll_half_pi (c : PlaneCamera ℝ) (m : Int)
    (hmode : c.selectedCameraType = EulerAngles) (hx : c.rotX = 0) (hy : c.rotY = Real.pi)
    (hz : c.rotZ = Real.pi / 2) :
    (updateCameraType Scalar.real c m).right = ⟨0, 1, 0⟩ ∧
    (updateCameraType Scalar.real c m).planeOrientation.rotateVec WORLD_RIGHT
      = ⟨0, -1, 0⟩ := by
  have hs : Real.sqrt 2 * Real.sqrt 2 = 2 := Real.mul_self_sqrt (by norm_num)
  have h1 : (updateCameraType Scalar.real c m).right = ⟨0, 1, 0⟩ := by
    rw [(updateCameraType_basis_of_euler Scalar.real c m hmode).2.1]
    exact getRotatedOffset_yaw_pi_roll_half_pi c hx hy hz
  have hq : (updateCameraType Scalar.real c m).planeOrientation
      = ⟨0, -(Real.sqrt 2 / 2), Real.sqrt 2 / 2, 0⟩ := by
    rw [(updateCameraType_encodings Scalar.real c m).2.2.2.2.2.2.2]
    simp only [convertEncodings, hmode, if_true, hx, hy, hz]
    exact eulerQuat_yaw_pi_roll_half_pi
  refine ⟨h1, ?_⟩
  rw [hq]
  apply Vec3.ext
  · simp only [Quat.rotateVec, cross, Vec3.add, Vec3.scale, WORLD_RIGHT]
    nlinarith [hs]
  · simp only [Quat.rotateVec, cross, Vec3.add, Vec3.scale, WORLD_RIGHT]
    nlinarith [hs]
  · simp only [Quat.rotateVec, cross, Vec3.add, Vec3.scale, WORLD_RIGHT]
    ring

end PlaneCamera

/-- C15 fails at the Euler state with pitch `0`, yaw `π` and roll `π / 2`: after
`updateCameraType`, `right` is `(0,1,0)` (roll, then yaw, then pitch applied to the
world axis) while `planeOrientation = normalize(qYaw * qPitch * qRoll)` sends the world
right axis to `(0,-1,0)`. -/
theorem updateCameraType_euler_inconsistent :
    (PlaneCamera.eulerState 0 Real.pi (Real.pi / 2)).selectedCameraType = EulerAngles ∧
    ((PlaneCamera.eulerState 0 Real.pi (Real.pi / 2)).updateCameraType
      Scalar.real Quaternions).right = ⟨0, 1, 0⟩ ∧
    ((PlaneCamera.eulerState 0 Real.pi (Real.pi / 2)).updateCameraType
      Scalar.real Quaternions).planeOrientation.rotateVec WORLD_RIGHT = ⟨0, -1, 0⟩ ∧
    ((PlaneCamera.eulerState 0 Real.pi (Real.pi / 2)).updateCameraType
      Scalar.real Quaternions).right
      ≠ ((PlaneCamera.eulerState 0 Real.pi (Real.pi / 2)).updateCameraType
          Scalar.real Quaternions).planeOrientation.rotateVec WORLD_RIGHT := by
  obtain ⟨h1, h2⟩ := PlaneCamera.updateCameraType_euler_yaw_pi_roll_half_pi
    (PlaneCamera.eulerState 0 Real.pi (Real.pi / 2)) Quaternions rfl rfl rfl rfl
  refine ⟨rfl, h1, h2, ?_⟩
  rw [h1, h2]
  intro h
  have hy2 := congrArg Vec3.y h
  norm_num at hy2

/-! Section: Leaving Basis mode for Euler mode. -/

namespace Glm

theorem Scalar.real_atan2_neg_one_zero : Scalar.real.atan2 (-1) 0 = -(Real.pi / 2) := by
  show Complex.arg ⟨0, -1⟩ = -(Real.pi / 2)
  have h : (⟨0, -1⟩ : ℂ) = -Complex.I := by
    apply Complex.ext <;> simp
  rw [h, Complex.arg_neg_I]

end Glm

namespace PlaneCamera

/-- The Basis-to-Euler conversion of the frame `front = (0,0,-1)`, `up = (1,0,0)`,
`right = (0,-1,0)` at the origin, and the first column of the model matrix before and
after the switch. -/
theorem updateCameraType_basis_euler_of_rolled (c : PlaneCamera ℝ)
    (hmode : c.selectedCameraType = FrontRightUpVecs) (hpos : c.planePosition = ⟨0, 0, 0⟩)
    (hfront : c.front = ⟨0, 0, -1⟩) (hup : c.up = ⟨1, 0, 0⟩) (hright : c.right = ⟨0, -1, 0⟩) :
    (updateCameraType Scalar.real c EulerAngles).rotX = 0 ∧
    (updateCameraType Scalar.real c EulerAngles).rotY = 0 ∧
    (updateCameraType Scalar.real c EulerAngles).rotZ = -(Real.pi / 2) ∧
    (getPlaneModelMatrix Scalar.real c).c0 = ⟨0, -1, 0, 0⟩ ∧
    (getPlaneModelMatrix Scalar.real (updateCameraType Scalar.real c EulerAngles)).c0
      = ⟨0, 1, 0, 0⟩ := by
  have h10 : ¬ (FrontRightUpVecs = EulerAngles) := by decide
  obtain ⟨hm, ex, ey, ez, -⟩ := updateCameraType_encodings Scalar.real c EulerAngles
  have hx : (updateCameraType Scalar.real c EulerAngles).rotX = 0 := by
    rw [ex]
    simp only [convertEncodings, hmode, h10, if_false, if_true, hfront]
    exact Real.arcsin_zero
  have hy : (updateCameraType Scalar.real c EulerAngles).rotY = 0 := by
    rw [ey]
    simp only [convertEncodings, hmode, h10, if_false, if_true, hfront, neg_neg]
    rw [Scalar.real_atan2_zero_one, neg_zero]
  have hz : (updateCameraType Scalar.real c EulerAngles).rotZ = -(Real.pi / 2) := by
    rw [ez]
    simp only [convertEncodings, hmode, h10, if_false, if_true, hup, hright]
    exact Scalar.real_atan2_neg_one_zero
  have hp : (updateCameraType Scalar.real c EulerAngles).planePosition = ⟨0, 0, 0⟩ := by
    simp [updateCameraType, hpos]
  refine ⟨hx, hy, hz, ?_, ?_⟩
  · simp [getPlaneModelMatrix, hmode, h10, hpos, hright, Mat4.mul, Mat4.mulCol, Glm.translate,
      Mat4.identity, Vec4.add, Vec4.scale, Vec4.ofVec3]
  · simp only [getPlaneModelMatrix, hm, hx, hy, hz, hp, if_true,
      rotate_zero Scalar.real Real.sin_zero Real.cos_zero]
    simp [rotate, Glm.normalize, inversesqrt, dot, Scalar.real, WORLD_FRONT, Mat4.mul,
      Mat4.mulCol, Glm.translate, Mat4.identity, Vec4.add, Vec4.scale, Vec3.scale, Vec3.lscale]

end PlaneCamera

/-- C16 fails at the Basis frame `front = (0,0,-1)`, `up = (1,0,0)`, `right = (0,-1,0)`
(the world frame rolled by a quarter turn with the key X), a right-handed orthonormal
frame with `front.y = 0`: the conversion gives `rotZ = atan2(-1, 0) = -π/2`, and the
first column of the model matrix changes from `(0,-1,0,0)` in Basis mode to `(0,1,0,0)`
in Euler mode. -/
theorem updateCameraType_basis_euler_roll_flipped :
    (PlaneCamera.basisState ⟨0, 0, -1⟩ ⟨1, 0, 0⟩ ⟨0, -1, 0⟩ : PlaneCamera ℝ).orthonormalFrame ∧
    ((PlaneCamera.basisState ⟨0, 0, -1⟩ ⟨1, 0, 0⟩ ⟨0, -1, 0⟩ : PlaneCamera ℝ).updateCameraType
      Scalar.real EulerAngles).rotZ = -(Real.pi / 2) ∧
    (PlaneCamera.getPlaneModelMatrix Scalar.real
      (PlaneCamera.basisState ⟨0, 0, -1⟩ ⟨1, 0, 0⟩ ⟨0, -1, 0⟩ : PlaneCamera ℝ)).c0
      = ⟨0, -1, 0, 0⟩ ∧
    (PlaneCamera.getPlaneModelMatrix Scalar.real
      ((PlaneCamera.basisState ⟨0, 0, -1⟩ ⟨1, 0, 0⟩ ⟨0, -1, 0⟩ :
        PlaneCamera ℝ).updateCameraType Scalar.real EulerAngles)).c0 = ⟨0, 1, 0, 0⟩ ∧
    PlaneCamera.getPlaneModelMatrix Scalar.real
      ((PlaneCamera.basisState ⟨0, 0, -1⟩ ⟨1, 0, 0⟩ ⟨0, -1, 0⟩ :
        PlaneCamera ℝ).updateCameraType Scalar.real EulerAngles)
      ≠ PlaneCamera.getPlaneModelMatrix Scalar.real
          (PlaneCamera.basisState ⟨0, 0, -1⟩ ⟨1, 0, 0⟩ ⟨0, -1, 0⟩ : PlaneCamera ℝ) := by
  obtain ⟨-, -, hz, hb, ha⟩ := PlaneCamera.updateCameraType_basis_euler_of_rolled
    (PlaneCamera.basisState ⟨0, 0, -1⟩ ⟨1, 0, 0⟩ ⟨0, -1, 0⟩ : PlaneCamera ℝ) rfl rfl rfl rfl rfl
  refine ⟨?_, hz, hb, ha, fun h => ?_⟩
  · simp [PlaneCamera.orthonormalFrame, PlaneCamera.basisState, dot, cross]
  · rw [h, hb] at ha
    have hy := congrArg Vec4.y ha
    norm_num at hy

/-! Section: The camera position after a key. -/

namespace PlaneCamera

/-- Recomputing the camera position twice is recomputing it once. -/
theorem updateCameraPosition_idempotent (M : Scalar α) (c : PlaneCamera α) :
    updateCameraPosition M (updateCameraPosition M c) = updateCameraPosition M c := by
  have h10 : ¬ (FrontRightUpVecs = EulerAngles) := by decide
  have h20 : ¬ (Quaternions = EulerAngles) := by decide
  have h21 : ¬ (Quaternions = FrontRightUpVecs) := by decide
  by_cases h0 : c.selectedCameraType = EulerAngles
  · cases hf : c.moveFreely
    · simp [updateCameraPosition, h0, hf]
    · simp [updateCameraPosition, h0, hf]
      rfl
  · by_cases h1 : c.selectedCameraType = FrontRightUpVecs
    · cases hf : c.moveFreely <;> simp [updateCameraPosition, h1, h10, hf]
    · by_cases h2 : c.selectedCameraType = Quaternions
      · cases hf : c.moveFreely <;> simp [updateCameraPosition, h2, h20, h21, hf]
      · simp [updateCameraPosition, h0, h1, h2]

/-- With `moveFreely` set, `processKeyboardInput` is the key switch of the selected mode
followed by `updateCameraPosition`. -/
theorem processKeyboardInput_of_free (M : Scalar α) (c : PlaneCamera α) (key : Int) (dt : α)
    (hfree : c.moveFreely = true) :
    (c.selectedCameraType = EulerAngles →
      processKeyboardInput M c key dt
        = updateCameraPosition M (eulerKeys M c key (c.turnSpeed * dt))) ∧
    (c.selectedCameraType = FrontRightUpVecs →
      processKeyboardInput M c key dt
        = updateCameraPosition M
            (basisKeys M c key (c.movementSpeed * dt) (c.turnSpeed * dt))) ∧
    (c.selectedCameraType = Quaternions →
      processKeyboardInput M c key dt
        = updateCameraPosition M
            (quaternionKeys M c key (c.movementSpeed * dt) (c.turnSpeed * dt))) := by
  have h10 : ¬ (FrontRightUpVecs = EulerAngles) := by decide
  have h20 : ¬ (Quaternions = EulerAngles) := by decide
  have h21 : ¬ (Quaternions = FrontRightUpVecs) := by decide
  refine ⟨fun h => ?_, fun h => ?_, fun h => ?_⟩
  · simp only [processKeyboardInput, updateCameraPosition, h, eulerKeys_moveFreely,
      eulerKeys_selectedCameraType, hfree, if_true]
  · simp only [processKeyboardInput, updateCameraPosition, h, h10, basisKeys_moveFreely,
      basisKeys_selectedCameraType, hfree, if_true, if_false]
  · simp only [processKeyboardInput, updateCameraPosition, h, h20, h21,
      quaternionKeys_moveFreely, quaternionKeys_selectedCameraType, hfree, if_true, if_false]

end PlaneCamera

/-- C17. With `moveFreely` set and one of the three modes selected, the camera position
that `processKeyboardInput` leaves is the recomputed one: a following
`updateCameraPosition` changes nothing, and the position is `planePosition` plus the
rotated offset (Euler), `planePosition - front * offset.z + up * offset.y` (Basis),
`planePosition + planeOrientation * offset` (Quaternion), on the resulting state. -/
theorem processKeyboardInput_camera_recomputed (M : Scalar α) (c : PlaneCamera α) (key : Int)
    (dt : α) (hfree : c.moveFreely = true) (hmode : PlaneCamera.isMode c.selectedCameraType) :
    PlaneCamera.updateCameraPosition M (c.processKeyboardInput M key dt)
      = c.processKeyboardInput M key dt ∧
    (c.selectedCameraType = EulerAngles →
      (c.processKeyboardInput M key dt).cameraPosition
        = Vec3.add (c.processKeyboardInput M key dt).planePosition
            (PlaneCamera.getRotatedOffset M (c.processKeyboardInput M key dt)
              (c.processKeyboardInput M key dt).cameraOffset)) ∧
    (c.selectedCameraType = FrontRightUpVecs →
      (c.processKeyboardInput M key dt).cameraPosition
        = Vec3.add
            (Vec3.sub (c.processKeyboardInput M key dt).planePosition
              ((c.processKeyboardInput M key dt).front.scale
                (c.processKeyboardInput M key dt).cameraOffset.z))
            ((c.processKeyboardInput M key dt).up.scale
              (c.processKeyboardInput M key dt).cameraOffset.y)) ∧
    (c.selectedCameraType = Quaternions →
      (c.processKeyboardInput M key dt).cameraPosition
        = Vec3.add (c.processKeyboardInput M key dt).planePosition
            ((c.processKeyboardInput M key dt).planeOrientation.rotateVec
              (c.processKeyboardInput M key dt).cameraOffset)) := by
  obtain ⟨hE, hB, hQ⟩ := PlaneCamera.processKeyboardInput_of_free M c key dt hfree
  have h10 : ¬ (FrontRightUpVecs = EulerAngles) := by decide
  have h20 : ¬ (Quaternions = EulerAngles) := by decide
  have h21 : ¬ (Quaternions = FrontRightUpVecs) := by decide
  refine ⟨?_, fun h => ?_, fun h => ?_, fun h => ?_⟩
  · rcases hmode with h | h | h
    · rw [hE h, PlaneCamera.updateCameraPosition_idempotent]
    · rw [hB h, PlaneCamera.updateCameraPosition_idempotent]
    · rw [hQ h, PlaneCamera.updateCameraPosition_idempotent]
  · rw [hE h]
    simp only [PlaneCamera.updateCameraPosition, PlaneCamera.eulerKeys_moveFreely,
      PlaneCamera.eulerKeys_selectedCameraType, h, hfree, if_true]
    rfl
  · rw [hB h]
    simp only [PlaneCamera.updateCameraPosition, PlaneCamera.basisKeys_moveFreely,
      PlaneCamera.basisKeys_selectedCameraType, h, h10, hfree, if_true, if_false]
  · rw [hQ h]
    simp only [PlaneCamera.updateCameraPosition, PlaneCamera.quaternionKeys_moveFreely,
      PlaneCamera.quaternionKeys_selectedCameraType, h, h20, h21, hfree, if_true, if_false]

/-- C17 at the constructed camera with the key S for two seconds: the plane is at
`(0,0,5)` and the camera, already recomputed, at `(0,1,15)`. -/
theorem processKeyboardInput_camera_recomputed_witness :
    (PlaneCamera.default : PlaneCamera ℝ).moveFreely = true ∧
    PlaneCamera.isMode (PlaneCamera.default : PlaneCamera ℝ).selectedCameraType ∧
    PlaneCamera.updateCameraPosition Scalar.real
      ((PlaneCamera.default : PlaneCamera ℝ).processKeyboardInput Scalar.real GLFW_KEY_S 2)
      = (PlaneCamera.default : PlaneCamera ℝ).processKeyboardInput Scalar.real GLFW_KEY_S 2 ∧
    ((PlaneCamera.default : PlaneCamera ℝ).processKeyboardInput
      Scalar.real GLFW_KEY_S 2).cameraPosition = ⟨0, 1, 15⟩ := by
  have hne : ¬ (FrontRightUpVecs = EulerAngles) := by decide
  refine ⟨rfl, Or.inr (Or.inl rfl),
    (processKeyboardInput_camera_recomputed Scalar.real (PlaneCamera.default : PlaneCamera ℝ)
      GLFW_KEY_S 2 rfl (Or.inr (Or.inl rfl))).1, ?_⟩
  simp [PlaneCamera.processKeyboardInput, PlaneCamera.basisKeys, PlaneCamera.default,
    PlaneCamera.ctor, hne, GLFW_KEY_S, GLFW_KEY_W, WORLD_ORIGIN, WORLD_FRONT, WORLD_UP,
    CAMERA_SPEED, Vec3.add, Vec3.sub, Vec3.scale]
  norm_num

/-! Section: The settings panel of main. -/

/-- The settings-panel step with a picked mode `m` is `updateCameraType m` on the state
whose `selectedCameraType` already is `m`: the conversion starts from the encoding of
the new mode. -/
theorem mainSettingsPanel_of_picked (M : Scalar α) (c : PlaneCamera α) (m : Int) :
    mainSettingsPanel M c (some m) false
      = PlaneCamera.updateCameraType M { c with selectedCameraType := m } m := by
  simp [mainSettingsPanel]

/-- C18 fails at the Basis state `front = (-1,0,0)`, `up = (0,1,0)`, `right = (0,0,-1)`
(the constructed camera after a quarter turn of yaw with the key A, quaternion still
the identity): picking Quaternions in the settings panel resets `front` to `(0,0,-1)`
and `right` to `(1,0,0)` and keeps the identity quaternion, whereas `updateCameraType`
called while the mode still is Basis keeps `front` and `right`. -/
theorem mainSettingsPanel_loses_rotation :
    (PlaneCamera.basisState ⟨-1, 0, 0⟩ ⟨0, 1, 0⟩ ⟨0, 0, -1⟩ : PlaneCamera ℝ).selectedCameraType
      = FrontRightUpVecs ∧
    (mainSettingsPanel Scalar.real
      (PlaneCamera.basisState ⟨-1, 0, 0⟩ ⟨0, 1, 0⟩ ⟨0, 0, -1⟩ : PlaneCamera ℝ)
      (some Quaternions) false).selectedCameraType = Quaternions ∧
    (mainSettingsPanel Scalar.real
      (PlaneCamera.basisState ⟨-1, 0, 0⟩ ⟨0, 1, 0⟩ ⟨0, 0, -1⟩ : PlaneCamera ℝ)
      (some Quaternions) false).front = ⟨0, 0, -1⟩ ∧
    (mainSettingsPanel Scalar.real
      (PlaneCamera.basisState ⟨-1, 0, 0⟩ ⟨0, 1, 0⟩ ⟨0, 0, -1⟩ : PlaneCamera ℝ)
      (some Quaternions) false).right = ⟨1, 0, 0⟩ ∧
    (mainSettingsPanel Scalar.real
      (PlaneCamera.basisState ⟨-1, 0, 0⟩ ⟨0, 1, 0⟩ ⟨0, 0, -1⟩ : PlaneCamera ℝ)
      (some Quaternions) false).planeOrientation = ⟨1, 0, 0, 0⟩ ∧
    ((PlaneCamera.basisState ⟨-1, 0, 0⟩ ⟨0, 1, 0⟩ ⟨0, 0, -1⟩ : PlaneCamera ℝ).updateCameraType
      Scalar.real Quaternions).front = ⟨-1, 0, 0⟩ ∧
    ((PlaneCamera.basisState ⟨-1, 0, 0⟩ ⟨0, 1, 0⟩ ⟨0, 0, -1⟩ : PlaneCamera ℝ).updateCameraType
      Scalar.real Quaternions).right = ⟨0, 0, -1⟩ := by
  have hq : ({ (PlaneCamera.basisState ⟨-1, 0, 0⟩ ⟨0, 1, 0⟩ ⟨0, 0, -1⟩ : PlaneCamera ℝ) with
      selectedCameraType := Quaternions } : PlaneCamera ℝ).selectedCameraType = Quaternions :=
    rfl
  obtain ⟨hf, hr, -, hor⟩ := PlaneCamera.updateCameraType_basis_of_quaternion Scalar.real
    { (PlaneCamera.basisState ⟨-1, 0, 0⟩ ⟨0, 1, 0⟩ ⟨0, 0, -1⟩ : PlaneCamera ℝ) with
      selectedCameraType := Quaternions } Quaternions hq
  have hid : ({ (PlaneCamera.basisState ⟨-1, 0, 0⟩ ⟨0, 1, 0⟩ ⟨0, 0, -1⟩ : PlaneCamera ℝ) with
      selectedCameraType := Quaternions } : PlaneCamera ℝ).planeOrientation = ⟨1, 0, 0, 0⟩ :=
    rfl
  rw [hid] at hf hr hor
  rw [rotateVec_identity] at hf hr
  have h10 : ¬ (FrontRightUpVecs = EulerAngles) := by decide
  refine ⟨rfl, ?_, ?_, ?_, ?_, ?_, ?_⟩
  · rw [mainSettingsPanel_of_picked]
    exact (PlaneCamera.updateCameraType_encodings _ _ _).1
  · rw [mainSettingsPanel_of_picked, hf]; rfl
  · rw [mainSettingsPanel_of_picked, hr]; rfl
  · rw [mainSettingsPanel_of_picked, hor]
  · simp [PlaneCamera.updateCameraType, PlaneCamera.convertEncodings,
      PlaneCamera.basisState, PlaneCamera.default, PlaneCamera.ctor, h10]
  · simp [PlaneCamera.updateCameraType, PlaneCamera.convertEncodings,
      PlaneCamera.basisState, PlaneCamera.default, PlaneCamera.ctor, h10]

/-! Section: The offset presets. -/

namespace PlaneCamera

/-- The record that `processMouseScroll` returns differs from the argument in `zoom`
only. -/
theorem processMouseScroll_frame (c : PlaneCamera α) (yOff : α) :
    processMouseScroll c yOff = { c with zoom := (processMouseScroll c yOff).zoom } := by
  unfold processMouseScroll
  simp only []
  split
  · split <;> split <;> rfl
  · rfl

/-- The four fields of the offset predicate after `changeCameraPerspective`. -/
theorem changeCameraPerspective_offsets (M : Scalar α) (c : PlaneCamera α) :
    (changeCameraPerspective M c).firstPerson = !c.firstPerson ∧
    (changeCameraPerspective M c).cameraOffset
      = (if c.firstPerson then c.thirdPersonOffset else c.firstPersonOffset) ∧
    (changeCameraPerspective M c).firstPersonOffset = c.firstPersonOffset ∧
    (changeCameraPerspective M c).thirdPersonOffset = c.thirdPersonOffset := by
  unfold changeCameraPerspective
  cases hf : c.firstPerson <;> simp

/-- An operation that keeps `cameraOffset`, `firstPerson` and the two presets keeps the
offset predicate. -/
theorem offsetFollowsFlag_of_eq {β : Type} (c d : PlaneCamera β) (h : offsetFollowsFlag c)
    (h1 : d.cameraOffset = c.cameraOffset) (h2 : d.firstPerson = c.firstPerson)
    (h3 : d.firstPersonOffset = c.firstPersonOffset)
    (h4 : d.thirdPersonOffset = c.thirdPersonOffset) : offsetFollowsFlag d := by
  unfold offsetFollowsFlag at h ⊢
  rw [h1, h2, h3, h4]
  exact h

end PlaneCamera

/-- C19. The predicate "`cameraOffset` is `firstPersonOffset` if `firstPerson`, else
`thirdPersonOffset`" holds after construction and is kept by `updateCameraType`,
`processKeyboardInput`, `processMouseScroll`, `changeCameraPerspective`,
`resetAllParams`, `updateCameraPosition` and the three setters; none of them changes
`firstPersonOffset` or `thirdPersonOffset`; and `changeCameraPerspective` negates
`firstPerson` and sets `cameraOffset` to the preset of the new flag value. -/
theorem offsetFollowsFlag_invariant (M : Scalar α) (c : PlaneCamera α)
    (h : c.offsetFollowsFlag) :
    (∀ (p f t : Vec3 α) (z : Bool), (PlaneCamera.ctor p f t z).offsetFollowsFlag) ∧
    ((∀ m : Int, (c.updateCameraType M m).offsetFollowsFlag) ∧
      (∀ (key : Int) (dt : α), (c.processKeyboardInput M key dt).offsetFollowsFlag) ∧
      (∀ yOff : α, (c.processMouseScroll yOff).offsetFollowsFlag) ∧
      (c.changeCameraPerspective M).offsetFollowsFlag ∧
      c.resetAllParams.offsetFollowsFlag ∧
      (PlaneCamera.updateCameraPosition M c).offsetFollowsFlag ∧
      (∀ s : α, (c.setCameraMovementSpeed s).offsetFollowsFlag) ∧
      (∀ (e : Bool) (z : α), (c.setZoom e z).offsetFollowsFlag) ∧
      (∀ s : α, (c.setCameraTurnSpeed s).offsetFollowsFlag)) ∧
    ((∀ m : Int, (c.updateCameraType M m).firstPersonOffset = c.firstPersonOffset ∧
        (c.updateCameraType M m).thirdPersonOffset = c.thirdPersonOffset) ∧
      (∀ (key : Int) (dt : α),
        (c.processKeyboardInput M key dt).firstPersonOffset = c.firstPersonOffset ∧
        (c.processKeyboardInput M key dt).thirdPersonOffset = c.thirdPersonOffset) ∧
      (∀ yOff : α, (c.processMouseScroll yOff).firstPersonOffset = c.firstPersonOffset ∧
        (c.processMouseScroll yOff).thirdPersonOffset = c.thirdPersonOffset) ∧
      ((c.changeCameraPerspective M).firstPersonOffset = c.firstPersonOffset ∧
        (c.changeCameraPerspective M).thirdPersonOffset = c.thirdPersonOffset) ∧
      (c.resetAllParams.firstPersonOffset = c.firstPersonOffset ∧
        c.resetAllParams.thirdPersonOffset = c.thirdPersonOffset) ∧
      ((PlaneCamera.updateCameraPosition M c).firstPersonOffset = c.firstPersonOffset ∧
        (PlaneCamera.updateCameraPosition M c).thirdPersonOffset = c.thirdPersonOffset) ∧
      (∀ s : α, (c.setCameraMovementSpeed s).firstPersonOffset = c.firstPersonOffset ∧
        (c.setCameraMovementSpeed s).thirdPersonOffset = c.thirdPersonOffset) ∧
      (∀ (e : Bool) (z : α), (c.setZoom e z).firstPersonOffset = c.firstPersonOffset ∧
        (c.setZoom e z).thirdPersonOffset = c.thirdPersonOffset) ∧
      (∀ s : α, (c.setCameraTurnSpeed s).firstPersonOffset = c.firstPersonOffset ∧
        (c.setCameraTurnSpeed s).thirdPersonOffset = c.thirdPersonOffset)) ∧
    ((c.changeCameraPerspective M).firstPerson = !c.firstPerson ∧
      (c.changeCameraPerspective M).cameraOffset
        = if (c.changeCameraPerspective M).firstPerson
          then (c.changeCameraPerspective M).firstPersonOffset
          else (c.changeCameraPerspective M).thirdPersonOffset) := by
  obtain ⟨hfp, hoff, hfpo, htpo⟩ := PlaneCamera.changeCameraPerspective_offsets M c
  have hscroll : ∀ yOff : α,
      (c.processMouseScroll yOff).cameraOffset = c.cameraOffset ∧
      (c.processMouseScroll yOff).firstPerson = c.firstPerson ∧
      (c.processMouseScroll yOff).firstPersonOffset = c.firstPersonOffset ∧
      (c.processMouseScroll yOff).thirdPersonOffset = c.thirdPersonOffset := by
    intro yOff
    rw [PlaneCamera.processMouseScroll_frame c yOff]
    exact ⟨rfl, rfl, rfl, rfl⟩
  have htoggle : (c.changeCameraPerspective M).cameraOffset
      = if (c.changeCameraPerspective M).firstPerson
        then (c.changeCameraPerspective M).firstPersonOffset
        else (c.changeCameraPerspective M).thirdPersonOffset := by
    rw [hoff, hfp, hfpo, htpo]
    cases c.firstPerson <;> rfl
  refine ⟨?_, ⟨?_, ?_, ?_, htoggle, ?_, ?_, ?_, ?_, ?_⟩,
    ⟨?_, ?_, ?_, ⟨hfpo, htpo⟩, ⟨rfl, rfl⟩, ?_, ?_, ?_, ?_⟩, hfp, htoggle⟩
  · intro p f t z
    simp [PlaneCamera.offsetFollowsFlag, PlaneCamera.ctor]
  · intro m
    exact PlaneCamera.offsetFollowsFlag_of_eq c _ h (by simp [PlaneCamera.updateCameraType])
      (by simp [PlaneCamera.updateCameraType]) (by simp [PlaneCamera.updateCameraType])
      (by simp [PlaneCamera.updateCameraType])
  · intro key dt
    exact PlaneCamera.offsetFollowsFlag_of_eq c _ h (by simp) (by simp) (by simp) (by simp)
  · intro yOff
    exact PlaneCamera.offsetFollowsFlag_of_eq c _ h (hscroll yOff).1 (hscroll yOff).2.1
      (hscroll yOff).2.2.1 (hscroll yOff).2.2.2
  · exact PlaneCamera.offsetFollowsFlag_of_eq c _ h rfl rfl rfl rfl
  · exact PlaneCamera.offsetFollowsFlag_of_eq c _ h (by simp) (by simp) (by simp) (by simp)
  · intro s
    exact PlaneCamera.offsetFollowsFlag_of_eq c _ h rfl rfl rfl rfl
  · intro e z
    exact PlaneCamera.offsetFollowsFlag_of_eq c _ h rfl rfl rfl rfl
  · intro s
    exact PlaneCamera.offsetFollowsFlag_of_eq c _ h rfl rfl rfl rfl
  · intro m
    simp [PlaneCamera.updateCameraType]
  · intro key dt
    simp
  · intro yOff
    exact ⟨(hscroll yOff).2.2.1, (hscroll yOff).2.2.2⟩
  · simp
  · intro s
    exact ⟨rfl, rfl⟩
  · intro e z
    exact ⟨rfl, rfl⟩
  · intro s
    exact ⟨rfl, rfl⟩

/-- C19 at the constructed camera: the predicate holds, and after one toggle the camera
is in first person with the first-person offset `(0,1,0)`. -/
theorem offsetFollowsFlag_invariant_witness :
    (PlaneCamera.default : PlaneCamera ℝ).offsetFollowsFlag ∧
    ((PlaneCamera.default : PlaneCamera ℝ).changeCameraPerspective Scalar.real).firstPerson
      = true ∧
    ((PlaneCamera.default : PlaneCamera ℝ).changeCameraPerspective Scalar.real).cameraOffset
      = ⟨0, 1, 0⟩ := by
  have h0 : (PlaneCamera.default : PlaneCamera ℝ).offsetFollowsFlag := by
    simp [PlaneCamera.offsetFollowsFlag, PlaneCamera.default, PlaneCamera.ctor]
  have h := offsetFollowsFlag_invariant Scalar.real (PlaneCamera.default : PlaneCamera ℝ) h0
  obtain ⟨hfp, hoff⟩ := h.2.2.2
  refine ⟨h0, hfp, ?_⟩
  rw [hoff, hfp]
  simp [PlaneCamera.changeCameraPerspective, PlaneCamera.default, PlaneCamera.ctor]

/-! Section: Basis mode: the orthonormal frame. -/

namespace Glm

theorem dot_comm (a b : Vec3 α) : dot a b = dot b a := by
  simp only [dot]; ring

theorem dot_cross_left (a b : Vec3 α) : dot a (cross a b) = 0 := by
  simp only [dot, cross]; ring

theorem dot_cross_right (a b : Vec3 α) : dot b (cross a b) = 0 := by
  simp only [dot, cross]; ring

/-- Lagrange's identity. -/
theorem dot_cross_cross (a b : Vec3 α) :
    dot (cross a b) (cross a b) = dot a a * dot b b - dot a b * dot a b := by
  simp only [dot, cross]; ring

/-- The triple product expansion of `b × (a × b)`. -/
theorem cross_cross_self (a b : Vec3 α) :
    cross b (cross a b) = (a.scale (dot b b)).sub (b.scale (dot b a)) := by
  apply Vec3.ext <;> simp only [dot, cross, Vec3.sub, Vec3.scale] <;> ring

/-- A unit vector is its own normalization when `sqrt 1 = 1`. -/
theorem normalize_of_unit (M : Scalar α) (h1 : M.sqrt 1 = 1) (a : Vec3 α)
    (ha : dot a a = 1) : normalize M a = a := by
  unfold normalize inversesqrt
  rw [ha, h1]
  apply Vec3.ext <;> simp [Vec3.scale]

/-- Rodrigues' formula for `glm::rotate` about a unit axis `a` applied to a vector `v`
orthogonal to it: `cos θ v + sin θ (a × v)`. -/
theorem rotate_mulVec_of_orthogonal (M : Scalar α) (h1 : M.sqrt 1 = 1) (θ : α)
    (a v : Vec3 α) (ha : dot a a = 1) (hav : dot a v = 0) :
    (rotate M Mat4.identity θ a).toMat3.mulVec v
      = (v.scale (M.cos θ)).add ((cross a v).scale (M.sin θ)) := by
  unfold rotate
  simp only [normalize_of_unit M h1 a ha]
  simp only [dot] at hav
  apply Vec3.ext
  · simp only [Mat3.mulVec, Mat4.toMat3, Mat4.identity, Vec4.xyz, Vec4.add, Vec4.scale,
      Vec3.lscale, Vec3.add, Vec3.scale, cross]
    linear_combination ((1 - M.cos θ) * a.x) * hav
  · simp only [Mat3.mulVec, Mat4.toMat3, Mat4.identity, Vec4.xyz, Vec4.add, Vec4.scale,
      Vec3.lscale, Vec3.add, Vec3.scale, cross]
    linear_combination ((1 - M.cos θ) * a.y) * hav
  · simp only [Mat3.mulVec, Mat4.toMat3, Mat4.identity, Vec4.xyz, Vec4.add, Vec4.scale,
      Vec3.lscale, Vec3.add, Vec3.scale, cross]
    linear_combination ((1 - M.cos θ) * a.z) * hav

/-- The vector `cos θ v + sin θ (a × v)` is a unit vector orthogonal to `a` when `a` and
`v` are orthogonal unit vectors and `sin² + cos² = 1`. -/
theorem rotated_unit (c s : α) (hsc : s * s + c * c = 1) (a v : Vec3 α)
    (ha : dot a a = 1) (hv : dot v v = 1) (hav : dot a v = 0) :
    dot ((v.scale c).add ((cross a v).scale s)) ((v.scale c).add ((cross a v).scale s)) = 1 ∧
    dot a ((v.scale c).add ((cross a v).scale s)) = 0 := by
  constructor
  · have e : dot ((v.scale c).add ((cross a v).scale s))
        ((v.scale c).add ((cross a v).scale s))
        = c * c * dot v v + s * s * (dot a a * dot v v - dot a v * dot a v) := by
      simp only [dot, cross, Vec3.add, Vec3.scale]; ring
    rw [e, ha, hv, hav]
    linear_combination hsc
  · have e : dot a ((v.scale c).add ((cross a v).scale s)) = c * dot a v := by
      simp only [dot, cross, Vec3.add, Vec3.scale]; ring
    rw [e, hav, mul_zero]

end Glm

namespace Glm

/-- The rotation of `glm::rotate` about a unit axis `a` sends a unit vector `v` orthogonal
to `a` to a unit vector orthogonal to `a`. -/
theorem rotate_mulVec_unit (M : Scalar α) (h1 : M.sqrt 1 = 1)
    (hsc : ∀ x : α, M.sin x * M.sin x + M.cos x * M.cos x = 1) (θ : α) (a v : Vec3 α)
    (ha : dot a a = 1) (hv : dot v v = 1) (hav : dot a v = 0) :
    dot ((rotate M Mat4.identity θ a).toMat3.mulVec v)
      ((rotate M Mat4.identity θ a).toMat3.mulVec v) = 1 ∧
    dot a ((rotate M Mat4.identity θ a).toMat3.mulVec v) = 0 := by
  rw [rotate_mulVec_of_orthogonal M h1 θ a v ha hav]
  exact rotated_unit (M.cos θ) (M.sin θ) (hsc θ) a v ha hv hav

end Glm

/-- A predicate that holds of both branches of a conditional holds of the conditional. -/
theorem pred_ite {σ : Type} (P : σ → Prop) (p : Prop) [Decidable p] (a b : σ)
    (ha : P a) (hb : P b) : P (if p then a else b) := by
  split <;> assumption

namespace PlaneCamera

/-- The Basis key switch keeps the frame predicate, for every scalar implementation with
`sqrt 1 = 1` and `sin² + cos² = 1`. -/
theorem basisKeys_orthonormalFrame (M : Scalar α) (h1 : M.sqrt 1 = 1)
    (hsc : ∀ x : α, M.sin x * M.sin x + M.cos x * M.cos x = 1) (c : PlaneCamera α)
    (key : Int) (v rs : α) (h : orthonormalFrame c) :
    orthonormalFrame (basisKeys M c key v rs) := by
  obtain ⟨hf, hu, hfu, hr⟩ := h
  have huf : dot c.up c.front = 0 := by rw [dot_comm]; exact hfu
  have hrr : dot c.right c.right = 1 := by
    rw [hr, dot_cross_cross, hf, hu, hfu]; ring
  have hrf : dot c.right c.front = 0 := by
    rw [hr, dot_comm]; exact dot_cross_left _ _
  -- yaw: `front` is rotated about `up`, then `right = front × up`
  have yaw : ∀ θ : α, orthonormalFrame
      { c with front := (rotate M Mat4.identity θ c.up).toMat3.mulVec c.front
               right := cross ((rotate M Mat4.identity θ c.up).toMat3.mulVec c.front) c.up } := by
    intro θ
    obtain ⟨e1, e2⟩ := rotate_mulVec_unit M h1 hsc θ c.up c.front hu hf huf
    exact ⟨e1, hu, by rw [dot_comm]; exact e2, rfl⟩
  -- pitch: `front` is rotated about `right`, then `up = right × front`
  have pitch : ∀ θ : α, orthonormalFrame
      { c with front := (rotate M Mat4.identity θ c.right).toMat3.mulVec c.front
               up := cross c.right ((rotate M Mat4.identity θ c.right).toMat3.mulVec c.front) } := by
    intro θ
    obtain ⟨e1, e2⟩ := rotate_mulVec_unit M h1 hsc θ c.right c.front hrr hf hrf
    refine ⟨e1, ?_, dot_cross_right _ _, ?_⟩
    · show dot (cross c.right _) (cross c.right _) = 1
      rw [dot_cross_cross, hrr, e1, e2]; ring
    · show c.right = cross _ (cross c.right _)
      rw [cross_cross_self, e1, dot_comm, e2]
      apply Vec3.ext <;> simp [Vec3.sub, Vec3.scale]
  -- roll: `up` is rotated about `front`, then `right = front × up`
  have roll : ∀ θ : α, orthonormalFrame
      { c with up := (rotate M Mat4.identity θ c.front).toMat3.mulVec c.up
               right := cross c.front ((rotate M Mat4.identity θ c.front).toMat3.mulVec c.up) } := by
    intro θ
    obtain ⟨e1, e2⟩ := rotate_mulVec_unit M h1 hsc θ c.front c.up hf hu hfu
    exact ⟨hf, e1, e2, rfl⟩
  have keep : ∀ p : Vec3 α, orthonormalFrame { c with planePosition := p } :=
    fun _ => ⟨hf, hu, hfu, hr⟩
  unfold basisKeys
  refine pred_ite orthonormalFrame _ _ _ (keep _) ?_
  refine pred_ite orthonormalFrame _ _ _ (keep _) ?_
  refine pred_ite orthonormalFrame _ _ _ (yaw (radians M rs)) ?_
  refine pred_ite orthonormalFrame _ _ _ (yaw (radians M (-rs))) ?_
  refine pred_ite orthonormalFrame _ _ _ (pitch (radians M rs)) ?_
  refine pred_ite orthonormalFrame _ _ _ (pitch (radians M (-rs))) ?_
  refine pred_ite orthonormalFrame _ _ _ (roll (radians M (-rs))) ?_
  refine pred_ite orthonormalFrame _ _ _ (roll (radians M rs)) ?_
  exact ⟨hf, hu, hfu, hr⟩

/-- In Basis mode `processKeyboardInput` changes the Basis key switch's result in
`cameraPosition` only. -/
theorem processKeyboardInput_of_basis (M : Scalar α) (c : PlaneCamera α) (key : Int) (dt : α)
    (hmode : c.selectedCameraType = FrontRightUpVecs) :
    (processKeyboardInput M c key dt).front
      = (basisKeys M c key (c.movementSpeed * dt) (c.turnSpeed * dt)).front ∧
    (processKeyboardInput M c key dt).up
      = (basisKeys M c key (c.movementSpeed * dt) (c.turnSpeed * dt)).up ∧
    (processKeyboardInput M c key dt).right
      = (basisKeys M c key (c.movementSpeed * dt) (c.turnSpeed * dt)).right := by
  have h10 : ¬ (FrontRightUpVecs = EulerAngles) := by decide
  unfold processKeyboardInput
  simp only [hmode, h10, if_true, if_false]
  refine ⟨?_, ?_, ?_⟩ <;> (split <;> rfl)

end PlaneCamera

/-- C20. Over the reals, in Basis mode, `processKeyboardInput` keeps the right-handed
orthonormal frame: if `front` and `up` are orthogonal unit vectors and
`right = front × up` before the call, the same holds after it, for every key and every
`dt` (and every `turnSpeed`, a field of the state). -/
theorem processKeyboardInput_basis_orthonormal (c : PlaneCamera ℝ) (key : Int) (dt : ℝ)
    (hmode : c.selectedCameraType = FrontRightUpVecs) (h : c.orthonormalFrame) :
    (c.processKeyboardInput Scalar.real key dt).orthonormalFrame := by
  have hsc : ∀ x : ℝ, Scalar.real.sin x * Scalar.real.sin x
      + Scalar.real.cos x * Scalar.real.cos x = 1 := by
    intro x
    show Real.sin x * Real.sin x + Real.cos x * Real.cos x = 1
    have := Real.sin_sq_add_cos_sq x
    nlinarith [this]
  have hb := PlaneCamera.basisKeys_orthonormalFrame Scalar.real Real.sqrt_one hsc c key
    (c.movementSpeed * dt) (c.turnSpeed * dt) h
  obtain ⟨e1, e2, e3⟩ := PlaneCamera.processKeyboardInput_of_basis Scalar.real c key dt hmode
  unfold PlaneCamera.orthonormalFrame at hb ⊢
  rw [e1, e2, e3]
  exact hb

/-- C20 at the constructed camera: its frame is the world frame, and it still is a
right-handed orthonormal frame after the key A for one second. -/
theorem processKeyboardInput_basis_orthonormal_witness :
    (PlaneCamera.default : PlaneCamera ℝ).selectedCameraType = FrontRightUpVecs ∧
    (PlaneCamera.default : PlaneCamera ℝ).orthonormalFrame ∧
    ((PlaneCamera.default : PlaneCamera ℝ).processKeyboardInput
      Scalar.real GLFW_KEY_A 1).orthonormalFrame := by
  have h0 : (PlaneCamera.default : PlaneCamera ℝ).orthonormalFrame := by
    simp [PlaneCamera.orthonormalFrame, PlaneCamera.default, PlaneCamera.ctor, dot, cross,
      WORLD_FRONT, WORLD_UP]
  exact ⟨rfl, h0, processKeyboardInput_basis_orthonormal (PlaneCamera.default : PlaneCamera ℝ)
    GLFW_KEY_A 1 rfl h0⟩

/-! Section: Leaving Quaternion mode: the model matrix. -/

namespace Glm

/-- The columns of the matrix of a quaternion are the rotated world right and up axes and
the opposite of the rotated world front axis, for every quaternion, unit or not. -/
theorem mat3Cast_columns (q : Quat α) :
    mat3Cast q
      = ⟨q.rotateVec WORLD_RIGHT, q.rotateVec WORLD_UP, (q.rotateVec WORLD_FRONT).neg⟩ := by
  apply Mat3.ext <;> apply Vec3.ext <;>
    simp only [mat3Cast, Quat.rotateVec, cross, Vec3.add, Vec3.scale, Vec3.neg, WORLD_RIGHT,
      WORLD_UP, WORLD_FRONT] <;> ring

end Glm

namespace PlaneCamera

/-- The model matrix in Basis mode. -/
theorem getPlaneModelMatrix_of_basis (M : Scalar α) (c : PlaneCamera α)
    (hmode : c.selectedCameraType = FrontRightUpVecs) :
    getPlaneModelMatrix M c
      = (Glm.translate Mat4.identity c.planePosition).mul
          (Mat3.toMat4 ⟨c.right, c.up, c.front.neg⟩) := by
  have h10 : ¬ (FrontRightUpVecs = EulerAngles) := by decide
  unfold getPlaneModelMatrix
  simp only [hmode, h10, if_true, if_false]
  rfl

/-- The model matrix in Quaternion mode. -/
theorem getPlaneModelMatrix_of_quaternion (M : Scalar α) (c : PlaneCamera α)
    (hmode : c.selectedCameraType = Quaternions) :
    getPlaneModelMatrix M c
      = (Glm.translate Mat4.identity c.planePosition).mul
          (Mat3.toMat4 (mat3Cast c.planeOrientation)) := by
  have h20 : ¬ (Quaternions = EulerAngles) := by decide
  have h21 : ¬ (Quaternions = FrontRightUpVecs) := by decide
  unfold getPlaneModelMatrix
  simp only [hmode, h20, h21, if_true, if_false]
  rfl

end PlaneCamera

/-- C21. For every quaternion, unit or not, and every position: switching from Quaternion
mode to Basis mode leaves `getPlaneModelMatrix` unchanged, the columns of the matrix of
the quaternion being `planeOrientation * WORLD_RIGHT`, `planeOrientation * WORLD_UP` and
`-(planeOrientation * WORLD_FRONT)`. -/
theorem updateCameraType_quaternion_basis_model (M : Scalar α) (c : PlaneCamera α)
    (hmode : c.selectedCameraType = Quaternions) :
    PlaneCamera.getPlaneModelMatrix M (c.updateCameraType M FrontRightUpVecs)
      = PlaneCamera.getPlaneModelMatrix M c ∧
    (mat3Cast c.planeOrientation).c0 = c.planeOrientation.rotateVec WORLD_RIGHT ∧
    (mat3Cast c.planeOrientation).c1 = c.planeOrientation.rotateVec WORLD_UP ∧
    (mat3Cast c.planeOrientation).c2 = (c.planeOrientation.rotateVec WORLD_FRONT).neg := by
  obtain ⟨hf, hr, hu, -⟩ :=
    PlaneCamera.updateCameraType_basis_of_quaternion M c FrontRightUpVecs hmode
  have hm := (PlaneCamera.updateCameraType_encodings M c FrontRightUpVecs).1
  have hp : (c.updateCameraType M FrontRightUpVecs).planePosition = c.planePosition := by
    simp [PlaneCamera.updateCameraType]
  refine ⟨?_, ?_, ?_, ?_⟩
  · rw [PlaneCamera.getPlaneModelMatrix_of_basis M _ hm,
      PlaneCamera.getPlaneModelMatrix_of_quaternion M c hmode, hf, hr, hu, hp,
      mat3Cast_columns]
  · rw [mat3Cast_columns]
  · rw [mat3Cast_columns]
  · rw [mat3Cast_columns]

/-- C21 at the constructed camera put in Quaternion mode at position `(1,2,3)` with the
non-unit quaternion `(1,1,0,0)`: the model matrix is the same after the switch to Basis
mode, and the second column of the matrix of the quaternion is `(0,-1,2)`. -/
theorem updateCameraType_quaternion_basis_model_witness :
    (PlaneCamera.quaternionState ⟨1, 2, 3⟩ ⟨1, 1, 0, 0⟩ : PlaneCamera ℝ).selectedCameraType
      = Quaternions ∧
    PlaneCamera.getPlaneModelMatrix Scalar.real
      ((PlaneCamera.quaternionState ⟨1, 2, 3⟩ ⟨1, 1, 0, 0⟩ : PlaneCamera ℝ).updateCameraType
        Scalar.real FrontRightUpVecs)
      = PlaneCamera.getPlaneModelMatrix Scalar.real
          (PlaneCamera.quaternionState ⟨1, 2, 3⟩ ⟨1, 1, 0, 0⟩ : PlaneCamera ℝ) ∧
    (mat3Cast (⟨1, 1, 0, 0⟩ : Quat ℝ)).c1 = ⟨0, -1, 2⟩ := by
  have h := updateCameraType_quaternion_basis_model Scalar.real
    (PlaneCamera.quaternionState ⟨1, 2, 3⟩ ⟨1, 1, 0, 0⟩ : PlaneCamera ℝ) rfl
  refine ⟨rfl, h.1, ?_⟩
  simp [mat3Cast]
  norm_num

/-! Section: Leaving Euler mode: the model matrix and the frame. -/

namespace Glm

/-- The rotation `glm::rotate` about the world front axis `(0,0,-1)`. -/
theorem rotate_world_front (M : Scalar α) (h1 : M.sqrt 1 = 1) (m : Mat4 α) (θ : α) :
    rotate M m θ WORLD_FRONT
      = ⟨(m.c0.scale (M.cos θ)).add (m.c1.scale (-M.sin θ)),
          (m.c0.scale (M.sin θ)).add (m.c1.scale (M.cos θ)), m.c2, m.c3⟩ := by
  have nf : Glm.normalize M (WORLD_FRONT : Vec3 α) = WORLD_FRONT :=
    normalize_of_unit M h1 _ (by simp [dot, WORLD_FRONT])
  unfold rotate
  simp only [nf]
  apply Mat4.ext <;> apply Vec4.ext <;>
    simp only [Vec4.add, Vec4.scale, Vec3.lscale, WORLD_FRONT] <;> ring

/-- The rotation `glm::rotate` about the world up axis `(0,1,0)`. -/
theorem rotate_world_up (M : Scalar α) (h1 : M.sqrt 1 = 1) (m : Mat4 α) (θ : α) :
    rotate M m θ WORLD_UP
      = ⟨(m.c0.scale (M.cos θ)).add (m.c2.scale (-M.sin θ)), m.c1,
          (m.c0.scale (M.sin θ)).add (m.c2.scale (M.cos θ)), m.c3⟩ := by
  have nu : Glm.normalize M (WORLD_UP : Vec3 α) = WORLD_UP :=
    normalize_of_unit M h1 _ (by simp [dot, WORLD_UP])
  unfold rotate
  simp only [nu]
  apply Mat4.ext <;> apply Vec4.ext <;>
    simp only [Vec4.add, Vec4.scale, Vec3.lscale, WORLD_UP] <;> ring

/-- The rotation `glm::rotate` about the world right axis `(1,0,0)`. -/
theorem rotate_world_right (M : Scalar α) (h1 : M.sqrt 1 = 1) (m : Mat4 α) (θ : α) :
    rotate M m θ WORLD_RIGHT
      = ⟨m.c0, (m.c1.scale (M.cos θ)).add (m.c2.scale (M.sin θ)),
          (m.c1.scale (-M.sin θ)).add (m.c2.scale (M.cos θ)), m.c3⟩ := by
  have nr : Glm.normalize M (WORLD_RIGHT : Vec3 α) = WORLD_RIGHT :=
    normalize_of_unit M h1 _ (by simp [dot, WORLD_RIGHT])
  unfold rotate
  simp only [nr]
  apply Mat4.ext <;> apply Vec4.ext <;>
    simp only [Vec4.add, Vec4.scale, Vec3.lscale, WORLD_RIGHT] <;> ring

/-- The matrix that `getRotatedOffset` and `getPlaneModelMatrix` build from the Euler
angles `x`, `y`, `z`: roll about the world front, then yaw, then pitch. -/
theorem rotate_euler (M : Scalar α) (h1 : M.sqrt 1 = 1) (x y z : α) :
    rotate M (rotate M (rotate M Mat4.identity z WORLD_FRONT) y WORLD_UP) x WORLD_RIGHT
      = (eulerMatrix M x y z).toMat4 := by
  rw [rotate_world_front M h1, rotate_world_up M h1, rotate_world_right M h1]
  apply Mat4.ext <;> apply Vec4.ext <;>
    simp only [eulerMatrix, Mat3.toMat4, Mat4.identity, Vec4.add, Vec4.scale,
      Vec4.ofVec3] <;> ring

/-- Multiplying the homogeneous extension of a 3×3 matrix with a point is multiplying the
matrix with the vector. -/
theorem toMat4_mulVec_xyz (m : Mat3 α) (v : Vec3 α) :
    ((m.toMat4).mulVec (Vec4.ofVec3 v 1)).xyz = m.mulVec v := by
  apply Vec3.ext <;>
    simp only [Mat3.toMat4, Mat4.mulVec, Mat3.mulVec, Vec4.add, Vec4.scale, Vec4.ofVec3,
      Vec4.xyz] <;> ring

/-- The columns of the Euler rotation matrix form a right-handed orthonormal frame when
`sin² + cos² = 1`. -/
theorem eulerMatrix_orthonormal (M : Scalar α)
    (hsc : ∀ t : α, M.sin t * M.sin t + M.cos t * M.cos t = 1) (x y z : α) :
    dot (eulerMatrix M x y z).c0 (eulerMatrix M x y z).c0 = 1 ∧
    dot (eulerMatrix M x y z).c1 (eulerMatrix M x y z).c1 = 1 ∧
    dot (eulerMatrix M x y z).c2 (eulerMatrix M x y z).c2 = 1 ∧
    dot (eulerMatrix M x y z).c0 (eulerMatrix M x y z).c1 = 0 ∧
    dot (eulerMatrix M x y z).c0 (eulerMatrix M x y z).c2 = 0 ∧
    dot (eulerMatrix M x y z).c1 (eulerMatrix M x y z).c2 = 0 ∧
    (eulerMatrix M x y z).c0 = cross (eulerMatrix M x y z).c1 (eulerMatrix M x y z).c2 := by
  have hX := hsc x
  have hY := hsc y
  have hZ := hsc z
  refine ⟨?_, ?_, ?_, ?_, ?_, ?_, ?_⟩
  · simp only [dot, eulerMatrix]
    linear_combination (M.cos y * M.cos y) * hZ + hY
  · simp only [dot, eulerMatrix]
    linear_combination
      (M.sin y * M.sin y * M.sin x * M.sin x + M.cos x * M.cos x) * hZ
        + (M.sin x * M.sin x) * hY + hX
  · simp only [dot, eulerMatrix]
    linear_combination
      (M.sin y * M.sin y * M.cos x * M.cos x + M.sin x * M.sin x) * hZ
        + (M.cos x * M.cos x) * hY + hX
  · simp only [dot, eulerMatrix]
    linear_combination (M.cos y * M.sin y * M.sin x) * hZ
  · simp only [dot, eulerMatrix]
    linear_combination (M.cos y * M.sin y * M.cos x) * hZ
  · simp only [dot, eulerMatrix]
    linear_combination
      (M.sin x * M.cos x * (M.sin y * M.sin y - 1)) * hZ + (M.sin x * M.cos x) * hY
  · apply Vec3.ext
    · simp only [cross, eulerMatrix]
      linear_combination (-(M.cos z * M.cos y)) * hX
    · simp only [cross, eulerMatrix]
      linear_combination (M.sin z * M.cos y) * hX
    · simp only [cross, eulerMatrix]
      linear_combination
        (M.sin y * (M.sin x * M.sin x + M.cos x * M.cos x)) * hZ + M.sin y * hX

end Glm

namespace PlaneCamera

/-- The function `getRotatedOffset` multiplies with the Euler rotation matrix. -/
theorem getRotatedOffset_eq_mulVec (M : Scalar α) (h1 : M.sqrt 1 = 1) (c : PlaneCamera α)
    (v : Vec3 α) :
    getRotatedOffset M c v = (eulerMatrix M c.rotX c.rotY c.rotZ).mulVec v := by
  unfold getRotatedOffset
  simp only []
  rw [rotate_euler M h1, toMat4_mulVec_xyz]

/-- The rotated world axes are the columns of the Euler rotation matrix, the front axis
being the opposite of the third column. -/
theorem getRotatedOffset_world (M : Scalar α) (h1 : M.sqrt 1 = 1) (c : PlaneCamera α) :
    getRotatedOffset M c WORLD_RIGHT = (eulerMatrix M c.rotX c.rotY c.rotZ).c0 ∧
    getRotatedOffset M c WORLD_UP = (eulerMatrix M c.rotX c.rotY c.rotZ).c1 ∧
    (getRotatedOffset M c WORLD_FRONT).neg = (eulerMatrix M c.rotX c.rotY c.rotZ).c2 := by
  rw [getRotatedOffset_eq_mulVec M h1, getRotatedOffset_eq_mulVec M h1,
    getRotatedOffset_eq_mulVec M h1]
  refine ⟨?_, ?_, ?_⟩ <;>
    (apply Vec3.ext <;>
      simp only [Mat3.mulVec, Vec3.neg, WORLD_RIGHT, WORLD_UP, WORLD_FRONT] <;> ring)

/-- The model matrix in Euler mode. -/
theorem getPlaneModelMatrix_of_euler (M : Scalar α) (h1 : M.sqrt 1 = 1) (c : PlaneCamera α)
    (hmode : c.selectedCameraType = EulerAngles) :
    getPlaneModelMatrix M c
      = (Glm.translate Mat4.identity c.planePosition).mul
          (Mat3.toMat4 (eulerMatrix M c.rotX c.rotY c.rotZ)) := by
  unfold getPlaneModelMatrix
  simp only [hmode, if_true]
  rw [rotate_euler M h1]

/-- Leaving Euler mode for Basis mode keeps the model matrix and gives a right-handed
orthonormal frame, for every scalar implementation with `sqrt 1 = 1` and
`sin² + cos² = 1`. -/
theorem updateCameraType_euler_basis (M : Scalar α) (h1 : M.sqrt 1 = 1)
    (hsc : ∀ t : α, M.sin t * M.sin t + M.cos t * M.cos t = 1) (c : PlaneCamera α)
    (hmode : c.selectedCameraType = EulerAngles) :
    getPlaneModelMatrix M (updateCameraType M c FrontRightUpVecs) = getPlaneModelMatrix M c ∧
    orthonormalFrame (updateCameraType M c FrontRightUpVecs) ∧
    dot (updateCameraType M c FrontRightUpVecs).right
      (updateCameraType M c FrontRightUpVecs).right = 1 ∧
    dot (updateCameraType M c FrontRightUpVecs).front
      (updateCameraType M c FrontRightUpVecs).right = 0 ∧
    dot (updateCameraType M c FrontRightUpVecs).up
      (updateCameraType M c FrontRightUpVecs).right = 0 := by
  obtain ⟨hf, hr, hu⟩ := updateCameraType_basis_of_euler M c FrontRightUpVecs hmode
  obtain ⟨er, eu, ef⟩ := getRotatedOffset_world M h1 c
  obtain ⟨o00, o11, o22, o01, o02, o12, ocr⟩ :=
    eulerMatrix_orthonormal M hsc c.rotX c.rotY c.rotZ
  have hm := (updateCameraType_encodings M c FrontRightUpVecs).1
  have hp : (updateCameraType M c FrontRightUpVecs).planePosition = c.planePosition := by
    simp [updateCameraType]
  rw [er] at hr
  rw [eu] at hu
  have hfn : (updateCameraType M c FrontRightUpVecs).front.neg
      = (eulerMatrix M c.rotX c.rotY c.rotZ).c2 := by rw [hf, ef]
  have hfe : (updateCameraType M c FrontRightUpVecs).front
      = (eulerMatrix M c.rotX c.rotY c.rotZ).c2.neg := by
    rw [← hfn]
    apply Vec3.ext <;> simp [Vec3.neg]
  have dneg : ∀ a b : Vec3 α, dot a.neg b = -dot a b := by
    intro a b; simp only [dot, Vec3.neg]; ring
  have dnegneg : ∀ a : Vec3 α, dot a.neg a.neg = dot a a := by
    intro a; simp only [dot, Vec3.neg]; ring
  have cneg : ∀ a b : Vec3 α, cross a.neg b = cross b a := by
    intro a b
    apply Vec3.ext <;> simp only [cross, Vec3.neg] <;> ring
  refine ⟨?_, ⟨?_, ?_, ?_, ?_⟩, ?_, ?_, ?_⟩
  · rw [getPlaneModelMatrix_of_basis M _ hm, getPlaneModelMatrix_of_euler M h1 c hmode, hp,
      hr, hu, hfn]
  · rw [hfe, dnegneg]; exact o22
  · rw [hu]; exact o11
  · rw [hfe, hu, dneg, dot_comm, o12, neg_zero]
  · rw [hr, hfe, hu, cneg]; exact ocr
  · rw [hr]; exact o00
  · rw [hfe, hr, dneg, dot_comm, o02, neg_zero]
  · rw [hu, hr, dot_comm]; exact o01

end PlaneCamera

namespace Glm

/-- The branch that `glm::quat_cast` takes: the value `B` it selects is the greatest of
the four candidates `4w²-1`, `4x²-1`, `4y²-1`, `4z²-1`, and the result is built from
`sqrt (B + 1)` by the formulas of that branch. -/
theorem quatCast_cases (M : Scalar α) (m : Mat3 α) :
    ∃ B : α,
      (m.c0.x + m.c1.y + m.c2.z ≤ B ∧ m.c0.x - m.c1.y - m.c2.z ≤ B ∧
        m.c1.y - m.c0.x - m.c2.z ≤ B ∧ m.c2.z - m.c0.x - m.c1.y ≤ B) ∧
      ((B = m.c0.x + m.c1.y + m.c2.z ∧
          quatCast M m
            = ⟨M.sqrt (B + 1) * (1 / 2),
                (m.c1.z - m.c2.y) * ((1 / 4) / (M.sqrt (B + 1) * (1 / 2))),
                (m.c2.x - m.c0.z) * ((1 / 4) / (M.sqrt (B + 1) * (1 / 2))),
                (m.c0.y - m.c1.x) * ((1 / 4) / (M.sqrt (B + 1) * (1 / 2)))⟩) ∨
        (B = m.c0.x - m.c1.y - m.c2.z ∧
          quatCast M m
            = ⟨(m.c1.z - m.c2.y) * ((1 / 4) / (M.sqrt (B + 1) * (1 / 2))),
                M.sqrt (B + 1) * (1 / 2),
                (m.c0.y + m.c1.x) * ((1 / 4) / (M.sqrt (B + 1) * (1 / 2))),
                (m.c2.x + m.c0.z) * ((1 / 4) / (M.sqrt (B + 1) * (1 / 2)))⟩) ∨
        (B = m.c1.y - m.c0.x - m.c2.z ∧
          quatCast M m
            = ⟨(m.c2.x - m.c0.z) * ((1 / 4) / (M.sqrt (B + 1) * (1 / 2))),
                (m.c0.y + m.c1.x) * ((1 / 4) / (M.sqrt (B + 1) * (1 / 2))),
                M.sqrt (B + 1) * (1 / 2),
                (m.c1.z + m.c2.y) * ((1 / 4) / (M.sqrt (B + 1) * (1 / 2)))⟩) ∨
        (B = m.c2.z - m.c0.x - m.c1.y ∧
          quatCast M m
            = ⟨(m.c0.y - m.c1.x) * ((1 / 4) / (M.sqrt (B + 1) * (1 / 2))),
                (m.c2.x + m.c0.z) * ((1 / 4) / (M.sqrt (B + 1) * (1 / 2))),
                (m.c1.z + m.c2.y) * ((1 / 4) / (M.sqrt (B + 1) * (1 / 2))),
                M.sqrt (B + 1) * (1 / 2)⟩)) := by
  by_cases hX : m.c0.x - m.c1.y - m.c2.z > m.c0.x + m.c1.y + m.c2.z
  · by_cases hY : m.c1.y - m.c0.x - m.c2.z > m.c0.x - m.c1.y - m.c2.z
    · by_cases hZ : m.c2.z - m.c0.x - m.c1.y > m.c1.y - m.c0.x - m.c2.z
      · refine ⟨m.c2.z - m.c0.x - m.c1.y, ⟨by linarith, by linarith, by linarith, le_refl _⟩,
          Or.inr (Or.inr (Or.inr ⟨rfl, ?_⟩))⟩
        unfold quatCast
        simp only [if_pos hX, if_pos hY, if_pos hZ]
        rfl
      · refine ⟨m.c1.y - m.c0.x - m.c2.z, ⟨by linarith, by linarith, le_refl _, by linarith⟩,
          Or.inr (Or.inr (Or.inl ⟨rfl, ?_⟩))⟩
        unfold quatCast
        simp only [if_pos hX, if_pos hY, if_neg hZ]
        rfl
    · by_cases hZ : m.c2.z - m.c0.x - m.c1.y > m.c0.x - m.c1.y - m.c2.z
      · refine ⟨m.c2.z - m.c0.x - m.c1.y, ⟨by linarith, by linarith, by linarith, le_refl _⟩,
          Or.inr (Or.inr (Or.inr ⟨rfl, ?_⟩))⟩
        unfold quatCast
        simp only [if_pos hX, if_neg hY, if_pos hZ]
        rfl
      · refine ⟨m.c0.x - m.c1.y - m.c2.z, ⟨by linarith, le_refl _, by linarith, by linarith⟩,
          Or.inr (Or.inl ⟨rfl, ?_⟩)⟩
        unfold quatCast
        simp only [if_pos hX, if_neg hY, if_neg hZ]
        rfl
  · by_cases hY : m.c1.y - m.c0.x - m.c2.z > m.c0.x + m.c1.y + m.c2.z
    · by_cases hZ : m.c2.z - m.c0.x - m.c1.y > m.c1.y - m.c0.x - m.c2.z
      · refine ⟨m.c2.z - m.c0.x - m.c1.y, ⟨by linarith, by linarith, by linarith, le_refl _⟩,
          Or.inr (Or.inr (Or.inr ⟨rfl, ?_⟩))⟩
        unfold quatCast
        simp only [if_neg hX, if_pos hY, if_pos hZ]
        rfl
      · refine ⟨m.c1.y - m.c0.x - m.c2.z, ⟨by linarith, by linarith, le_refl _, by linarith⟩,
          Or.inr (Or.inr (Or.inl ⟨rfl, ?_⟩))⟩
        unfold quatCast
        simp only [if_neg hX, if_pos hY, if_neg hZ]
        rfl
    · by_cases hZ : m.c2.z - m.c0.x - m.c1.y > m.c0.x + m.c1.y + m.c2.z
      · refine ⟨m.c2.z - m.c0.x - m.c1.y, ⟨by linarith, by linarith, by linarith, le_refl _⟩,
          Or.inr (Or.inr (Or.inr ⟨rfl, ?_⟩))⟩
        unfold quatCast
        simp only [if_neg hX, if_neg hY, if_pos hZ]
        rfl
      · refine ⟨m.c0.x + m.c1.y + m.c2.z, ⟨le_refl _, by linarith, by linarith, by linarith⟩,
          Or.inl ⟨rfl, ?_⟩⟩
        unfold quatCast
        simp only [if_neg hX, if_neg hY, if_neg hZ]
        rfl


/-- The matrix of the quaternion `(nw, nx, ny, nz) * k` is `m`, and the quaternion is a
unit one, when `k² (4 T) = 1` and the numerators satisfy the ten quadratic identities
that relate a rotation matrix to the products of the components of its quaternion. -/
theorem mat3Cast_of_numerators (T k nw nx ny nz : α) (m : Mat3 α) (hk : k * k * (4 * T) = 1)
    (i00 : 2 * (ny * ny + nz * nz) = 4 * T * (1 - m.c0.x))
    (i01 : nx * ny + nw * nz = 2 * T * m.c0.y)
    (i02 : nx * nz - nw * ny = 2 * T * m.c0.z)
    (i10 : nx * ny - nw * nz = 2 * T * m.c1.x)
    (i11 : 2 * (nx * nx + nz * nz) = 4 * T * (1 - m.c1.y))
    (i12 : ny * nz + nw * nx = 2 * T * m.c1.z)
    (i20 : nx * nz + nw * ny = 2 * T * m.c2.x)
    (i21 : ny * nz - nw * nx = 2 * T * m.c2.y)
    (i22 : 2 * (nx * nx + ny * ny) = 4 * T * (1 - m.c2.z))
    (iN : nw * nw + nx * nx + ny * ny + nz * nz = 4 * T) :
    mat3Cast ⟨nw * k, nx * k, ny * k, nz * k⟩ = m ∧
    Quat.dot ⟨nw * k, nx * k, ny * k, nz * k⟩ ⟨nw * k, nx * k, ny * k, nz * k⟩ = 1 := by
  refine ⟨?_, ?_⟩
  · apply Mat3.ext
    · apply Vec3.ext
      · simp only [mat3Cast]
        linear_combination (-(k * k)) * i00 + (-(1 - m.c0.x)) * hk
      · simp only [mat3Cast]
        linear_combination (2 * (k * k)) * i01 + m.c0.y * hk
      · simp only [mat3Cast]
        linear_combination (2 * (k * k)) * i02 + m.c0.z * hk
    · apply Vec3.ext
      · simp only [mat3Cast]
        linear_combination (2 * (k * k)) * i10 + m.c1.x * hk
      · simp only [mat3Cast]
        linear_combination (-(k * k)) * i11 + (-(1 - m.c1.y)) * hk
      · simp only [mat3Cast]
        linear_combination (2 * (k * k)) * i12 + m.c1.z * hk
    · apply Vec3.ext
      · simp only [mat3Cast]
        linear_combination (2 * (k * k)) * i20 + m.c2.x * hk
      · simp only [mat3Cast]
        linear_combination (2 * (k * k)) * i21 + m.c2.y * hk
      · simp only [mat3Cast]
        linear_combination (-(k * k)) * i22 + (-(1 - m.c2.z)) * hk
  · simp only [Quat.dot]
    linear_combination (k * k) * iN + hk

/-- The multiplier of `glm::quat_cast`: with `s² = T` and `s ≠ 0`, the factor
`k = (1/4) / (s/2)` satisfies `k² (4 T) = 1`, and the greatest component `s/2` is
`T k`. -/
theorem quatCast_multiplier (s T : α) (hs : s ≠ 0) (hT : s * s = T) :
    (1 / 4) / (s * (1 / 2)) * ((1 / 4) / (s * (1 / 2))) * (4 * T) = 1 ∧
    s * (1 / 2) = T * ((1 / 4) / (s * (1 / 2))) := by
  subst hT
  constructor
  · field_simp
    ring
  · field_simp
    ring


/-- The ten quadratic identities between the entries of the rotation matrix with columns
`front × up`, `up`, `-front` and the numerators of the branch of `glm::quat_cast` with
greatest `w`, for orthogonal unit vectors `front` and `up`. -/
theorem rotation_numerators_w (f u : Vec3 α) (hff : dot f f = 1) (huu : dot u u = 1)
    (hfu : dot f u = 0) (m : Mat3 α) (h0 : m.c0 = cross f u) (h1 : m.c1 = u)
    (h2 : m.c2 = f.neg) :
    2 * ((m.c2.x - m.c0.z) * (m.c2.x - m.c0.z) + (m.c0.y - m.c1.x) * (m.c0.y - m.c1.x))
      = 4 * (m.c0.x + m.c1.y + m.c2.z + 1) * (1 - m.c0.x) ∧
    (m.c1.z - m.c2.y) * (m.c2.x - m.c0.z) + (m.c0.x + m.c1.y + m.c2.z + 1) * (m.c0.y - m.c1.x)
      = 2 * (m.c0.x + m.c1.y + m.c2.z + 1) * m.c0.y ∧
    (m.c1.z - m.c2.y) * (m.c0.y - m.c1.x) - (m.c0.x + m.c1.y + m.c2.z + 1) * (m.c2.x - m.c0.z)
      = 2 * (m.c0.x + m.c1.y + m.c2.z + 1) * m.c0.z ∧
    (m.c1.z - m.c2.y) * (m.c2.x - m.c0.z) - (m.c0.x + m.c1.y + m.c2.z + 1) * (m.c0.y - m.c1.x)
      = 2 * (m.c0.x + m.c1.y + m.c2.z + 1) * m.c1.x ∧
    2 * ((m.c1.z - m.c2.y) * (m.c1.z - m.c2.y) + (m.c0.y - m.c1.x) * (m.c0.y - m.c1.x))
      = 4 * (m.c0.x + m.c1.y + m.c2.z + 1) * (1 - m.c1.y) ∧
    (m.c2.x - m.c0.z) * (m.c0.y - m.c1.x) + (m.c0.x + m.c1.y + m.c2.z + 1) * (m.c1.z - m.c2.y)
      = 2 * (m.c0.x + m.c1.y + m.c2.z + 1) * m.c1.z ∧
    (m.c1.z - m.c2.y) * (m.c0.y - m.c1.x) + (m.c0.x + m.c1.y + m.c2.z + 1) * (m.c2.x - m.c0.z)
      = 2 * (m.c0.x + m.c1.y + m.c2.z + 1) * m.c2.x ∧
    (m.c2.x - m.c0.z) * (m.c0.y - m.c1.x) - (m.c0.x + m.c1.y + m.c2.z + 1) * (m.c1.z - m.c2.y)
      = 2 * (m.c0.x + m.c1.y + m.c2.z + 1) * m.c2.y ∧
    2 * ((m.c1.z - m.c2.y) * (m.c1.z - m.c2.y) + (m.c2.x - m.c0.z) * (m.c2.x - m.c0.z))
      = 4 * (m.c0.x + m.c1.y + m.c2.z + 1) * (1 - m.c2.z) ∧
    (m.c0.x + m.c1.y + m.c2.z + 1) * (m.c0.x + m.c1.y + m.c2.z + 1)
      + (m.c1.z - m.c2.y) * (m.c1.z - m.c2.y) + (m.c2.x - m.c0.z) * (m.c2.x - m.c0.z)
      + (m.c0.y - m.c1.x) * (m.c0.y - m.c1.x) = 4 * (m.c0.x + m.c1.y + m.c2.z + 1) := by
  simp only [dot] at hff huu hfu
  rw [h0, h1, h2]
  simp only [cross, Vec3.neg]
  refine ⟨?_, ?_, ?_, ?_, ?_, ?_, ?_, ?_, ?_, ?_⟩
  · linear_combination
      (4 * u.z * u.z + 4 * u.y + 4 * u.y * u.y + 2 * u.x * u.x) * hff
        + (4 - 4 * f.z - 2 * f.x * f.x) * huu
        + (4 * u.z - 4 * f.z * u.z - 4 * f.y - 4 * f.y * u.y) * hfu
  · linear_combination
      (u.x + u.x * u.y) * hff
        + (f.x * f.y) * huu
        + (-f.y * u.x - f.x - f.x * u.y) * hfu
  · linear_combination
      (u.x * u.z) * hff
        + (-f.x + f.x * f.z) * huu
        + (u.x - f.z * u.x - f.x * u.z) * hfu
  · linear_combination
      (u.x + u.x * u.y) * hff
        + (f.x * f.y) * huu
        + (-f.y * u.x - f.x - f.x * u.y) * hfu
  · linear_combination
      (2 * u.z * u.z + 2 * u.x * u.x) * hff
        + (4 - 4 * f.z - 2 * f.y * f.y) * huu
        + (4 * u.z - 2 * f.z * u.z + 2 * f.y * u.y - 2 * f.x * u.x) * hfu
  · linear_combination
      (u.z + u.y * u.z) * hff
        + (-f.y + f.y * f.z) * huu
        + (1 + u.y - f.z - f.z * u.y - f.y * u.z) * hfu
  · linear_combination
      (u.x * u.z) * hff
        + (-f.x + f.x * f.z) * huu
        + (u.x - f.z * u.x - f.x * u.z) * hfu
  · linear_combination
      (u.z + u.y * u.z) * hff
        + (-f.y + f.y * f.z) * huu
        + (1 + u.y - f.z - f.z * u.y - f.y * u.z) * hfu
  · linear_combination
      (4 - 2 * u.z * u.z + 4 * u.y) * hff
        + (2 * f.y * f.y + 2 * f.x * f.x) * huu
        + (2 * f.z * u.z - 4 * f.y - 2 * f.y * u.y - 2 * f.x * u.x) * hfu
  · linear_combination
      (1 + u.z * u.z + 2 * u.y + u.y * u.y + u.x * u.x) * hff
        + (2 - 2 * f.z) * huu
        + (2 * u.z - f.z * u.z - 2 * f.y - f.y * u.y - f.x * u.x) * hfu

/-- The ten quadratic identities between the entries of the rotation matrix with columns
`front × up`, `up`, `-front` and the numerators of the branch of `glm::quat_cast` with
greatest `x`, for orthogonal unit vectors `front` and `up`. -/
theorem rotation_numerators_x (f u : Vec3 α) (hff : dot f f = 1) (huu : dot u u = 1)
    (hfu : dot f u = 0) (m : Mat3 α) (h0 : m.c0 = cross f u) (h1 : m.c1 = u)
    (h2 : m.c2 = f.neg) :
    2 * ((m.c0.y + m.c1.x) * (m.c0.y + m.c1.x) + (m.c2.x + m.c0.z) * (m.c2.x + m.c0.z))
      = 4 * (m.c0.x - m.c1.y - m.c2.z + 1) * (1 - m.c0.x) ∧
    (m.c0.x - m.c1.y - m.c2.z + 1) * (m.c0.y + m.c1.x) + (m.c1.z - m.c2.y) * (m.c2.x + m.c0.z)
      = 2 * (m.c0.x - m.c1.y - m.c2.z + 1) * m.c0.y ∧
    (m.c0.x - m.c1.y - m.c2.z + 1) * (m.c2.x + m.c0.z) - (m.c1.z - m.c2.y) * (m.c0.y + m.c1.x)
      = 2 * (m.c0.x - m.c1.y - m.c2.z + 1) * m.c0.z ∧
    (m.c0.x - m.c1.y - m.c2.z + 1) * (m.c0.y + m.c1.x) - (m.c1.z - m.c2.y) * (m.c2.x + m.c0.z)
      = 2 * (m.c0.x - m.c1.y - m.c2.z + 1) * m.c1.x ∧
    2 * ((m.c0.x - m.c1.y - m.c2.z + 1) * (m.c0.x - m.c1.y - m.c2.z + 1) + (m.c2.x
      + m.c0.z) * (m.c2.x + m.c0.z)) = 4 * (m.c0.x - m.c1.y - m.c2.z + 1) * (1 - m.c1.y) ∧
    (m.c0.y + m.c1.x) * (m.c2.x + m.c0.z) + (m.c1.z - m.c2.y) * (m.c0.x - m.c1.y - m.c2.z + 1)
      = 2 * (m.c0.x - m.c1.y - m.c2.z + 1) * m.c1.z ∧
    (m.c0.x - m.c1.y - m.c2.z + 1) * (m.c2.x + m.c0.z) + (m.c1.z - m.c2.y) * (m.c0.y + m.c1.x)
      = 2 * (m.c0.x - m.c1.y - m.c2.z + 1) * m.c2.x ∧
    (m.c0.y + m.c1.x) * (m.c2.x + m.c0.z) - (m.c1.z - m.c2.y) * (m.c0.x - m.c1.y - m.c2.z + 1)
      = 2 * (m.c0.x - m.c1.y - m.c2.z + 1) * m.c2.y ∧
    2 * ((m.c0.x - m.c1.y - m.c2.z + 1) * (m.c0.x - m.c1.y - m.c2.z + 1) + (m.c0.y
      + m.c1.x) * (m.c0.y + m.c1.x)) = 4 * (m.c0.x - m.c1.y - m.c2.z + 1) * (1 - m.c2.z) ∧
    (m.c1.z - m.c2.y) * (m.c1.z - m.c2.y)
      + (m.c0.x - m.c1.y - m.c2.z + 1) * (m.c0.x - m.c1.y - m.c2.z + 1)
      + (m.c0.y + m.c1.x) * (m.c0.y + m.c1.x) + (m.c2.x + m.c0.z) * (m.c2.x + m.c0.z)
      = 4 * (m.c0.x - m.c1.y - m.c2.z + 1) := by
  simp only [dot] at hff huu hfu
  rw [h0, h1, h2]
  simp only [cross, Vec3.neg]
  refine ⟨?_, ?_, ?_, ?_, ?_, ?_, ?_, ?_, ?_, ?_⟩
  · linear_combination
      (4 * u.z * u.z - 4 * u.y + 4 * u.y * u.y + 2 * u.x * u.x) * hff
        + (4 + 4 * f.z - 2 * f.x * f.x) * huu
        + (-4 * u.z - 4 * f.z * u.z + 4 * f.y - 4 * f.y * u.y) * hfu
  · linear_combination
      (-u.x + u.x * u.y) * hff
        + (f.x * f.y) * huu
        + (-f.y * u.x + f.x - f.x * u.y) * hfu
  · linear_combination
      (u.x * u.z) * hff
        + (f.x + f.x * f.z) * huu
        + (-u.x - f.z * u.x - f.x * u.z) * hfu
  · linear_combination
      (u.x - u.x * u.y) * hff
        + (-f.x * f.y) * huu
        + (f.y * u.x - f.x + f.x * u.y) * hfu
  · linear_combination
      (2 - 4 * u.y + 2 * u.y * u.y) * hff
        + (2 * f.y * f.y) * huu
        + (4 * f.y - 4 * f.y * u.y) * hfu
  · linear_combination
      (u.z - u.y * u.z) * hff
        + (-f.y - f.y * f.z) * huu
        + (-1 + u.y - f.z + f.z * u.y + f.y * u.z) * hfu
  · linear_combination
      (-u.x * u.z) * hff
        + (-f.x - f.x * f.z) * huu
        + (u.x + f.z * u.x + f.x * u.z) * hfu
  · linear_combination
      (u.z - u.y * u.z) * hff
        + (-f.y - f.y * f.z) * huu
        + (-1 + u.y - f.z + f.z * u.y + f.y * u.z) * hfu
  · linear_combination
      (-2 + 4 * u.z * u.z + 2 * u.y * u.y + 2 * u.x * u.x) * hff
        + (4 + 4 * f.z - 2 * f.y * f.y - 2 * f.x * f.x) * huu
        + (-4 * u.z - 4 * f.z * u.z) * hfu
  · linear_combination
      (1 + u.z * u.z - 2 * u.y + u.y * u.y + u.x * u.x) * hff
        + (2 + 2 * f.z) * huu
        + (-2 * u.z - f.z * u.z + 2 * f.y - f.y * u.y - f.x * u.x) * hfu

/-- The ten quadratic identities between the entries of the rotation matrix with columns
`front × up`, `up`, `-front` and the numerators of the branch of `glm::quat_cast` with
greatest `y`, for orthogonal unit vectors `front` and `up`. -/
theorem rotation_numerators_y (f u : Vec3 α) (hff : dot f f = 1) (huu : dot u u = 1)
    (hfu : dot f u = 0) (m : Mat3 α) (h0 : m.c0 = cross f u) (h1 : m.c1 = u)
    (h2 : m.c2 = f.neg) :
    2 * ((m.c1.y - m.c0.x - m.c2.z + 1) * (m.c1.y - m.c0.x - m.c2.z + 1) + (m.c1.z
      + m.c2.y) * (m.c1.z + m.c2.y)) = 4 * (m.c1.y - m.c0.x - m.c2.z + 1) * (1 - m.c0.x) ∧
    (m.c0.y + m.c1.x) * (m.c1.y - m.c0.x - m.c2.z + 1) + (m.c2.x - m.c0.z) * (m.c1.z + m.c2.y)
      = 2 * (m.c1.y - m.c0.x - m.c2.z + 1) * m.c0.y ∧
    (m.c0.y + m.c1.x) * (m.c1.z + m.c2.y) - (m.c2.x - m.c0.z) * (m.c1.y - m.c0.x - m.c2.z + 1)
      = 2 * (m.c1.y - m.c0.x - m.c2.z + 1) * m.c0.z ∧
    (m.c0.y + m.c1.x) * (m.c1.y - m.c0.x - m.c2.z + 1) - (m.c2.x - m.c0.z) * (m.c1.z + m.c2.y)
      = 2 * (m.c1.y - m.c0.x - m.c2.z + 1) * m.c1.x ∧
    2 * ((m.c0.y + m.c1.x) * (m.c0.y + m.c1.x) + (m.c1.z + m.c2.y) * (m.c1.z + m.c2.y))
      = 4 * (m.c1.y - m.c0.x - m.c2.z + 1) * (1 - m.c1.y) ∧
    (m.c1.y - m.c0.x - m.c2.z + 1) * (m.c1.z + m.c2.y) + (m.c2.x - m.c0.z) * (m.c0.y + m.c1.x)
      = 2 * (m.c1.y - m.c0.x - m.c2.z + 1) * m.c1.z ∧
    (m.c0.y + m.c1.x) * (m.c1.z + m.c2.y) + (m.c2.x - m.c0.z) * (m.c1.y - m.c0.x - m.c2.z + 1)
      = 2 * (m.c1.y - m.c0.x - m.c2.z + 1) * m.c2.x ∧
    (m.c1.y - m.c0.x - m.c2.z + 1) * (m.c1.z + m.c2.y) - (m.c2.x - m.c0.z) * (m.c0.y + m.c1.x)
      = 2 * (m.c1.y - m.c0.x - m.c2.z + 1) * m.c2.y ∧
    2 * ((m.c0.y + m.c1.x) * (m.c0.y + m.c1.x) + (m.c1.y - m.c0.x - m.c2.z + 1) * (m.c1.y - m.c0.x
      - m.c2.z + 1)) = 4 * (m.c1.y - m.c0.x - m.c2.z + 1) * (1 - m.c2.z) ∧
    (m.c2.x - m.c0.z) * (m.c2.x - m.c0.z) + (m.c0.y + m.c1.x) * (m.c0.y + m.c1.x)
      + (m.c1.y - m.c0.x - m.c2.z + 1) * (m.c1.y - m.c0.x - m.c2.z + 1)
      + (m.c1.z + m.c2.y) * (m.c1.z + m.c2.y) = 4 * (m.c1.y - m.c0.x - m.c2.z + 1) := by
  simp only [dot] at hff huu hfu
  rw [h0, h1, h2]
  simp only [cross, Vec3.neg]
  refine ⟨?_, ?_, ?_, ?_, ?_, ?_, ?_, ?_, ?_, ?_⟩
  · linear_combination
      (2 - 2 * u.z * u.z - 2 * u.y * u.y) * hff
        + (2 * f.x * f.x) * huu
        + (2 * f.z * u.z + 2 * f.y * u.y - 2 * f.x * u.x) * hfu
  · linear_combination
      (-u.x - u.x * u.y) * hff
        + (-f.x * f.y) * huu
        + (f.y * u.x + f.x + f.x * u.y) * hfu
  · linear_combination
      (-u.x * u.z) * hff
        + (-f.x - f.x * f.z) * huu
        + (u.x + f.z * u.x + f.x * u.z) * hfu
  · linear_combination
      (u.x + u.x * u.y) * hff
        + (f.x * f.y) * huu
        + (-f.y * u.x - f.x - f.x * u.y) * hfu
  · linear_combination
      (2 * u.z * u.z + 2 * u.x * u.x) * hff
        + (4 + 4 * f.z - 2 * f.y * f.y) * huu
        + (-4 * u.z - 2 * f.z * u.z + 2 * f.y * u.y - 2 * f.x * u.x) * hfu
  · linear_combination
      (u.z + u.y * u.z) * hff
        + (f.y + f.y * f.z) * huu
        + (-1 - u.y - f.z - f.z * u.y - f.y * u.z) * hfu
  · linear_combination
      (-u.x * u.z) * hff
        + (-f.x - f.x * f.z) * huu
        + (u.x + f.z * u.x + f.x * u.z) * hfu
  · linear_combination
      (-u.z - u.y * u.z) * hff
        + (-f.y - f.y * f.z) * huu
        + (1 + u.y + f.z + f.z * u.y + f.y * u.z) * hfu
  · linear_combination
      (-2 + 4 * u.z * u.z + 2 * u.y * u.y + 2 * u.x * u.x) * hff
        + (4 + 4 * f.z - 2 * f.y * f.y - 2 * f.x * f.x) * huu
        + (-4 * u.z - 4 * f.z * u.z) * hfu
  · linear_combination
      (1 + u.z * u.z + 2 * u.y + u.y * u.y + u.x * u.x) * hff
        + (2 + 2 * f.z) * huu
        + (-2 * u.z - f.z * u.z - 2 * f.y - f.y * u.y - f.x * u.x) * hfu

/-- The ten quadratic identities between the entries of the rotation matrix with columns
`front × up`, `up`, `-front` and the numerators of the branch of `glm::quat_cast` with
greatest `z`, for orthogonal unit vectors `front` and `up`. -/
theorem rotation_numerators_z (f u : Vec3 α) (hff : dot f f = 1) (huu : dot u u = 1)
    (hfu : dot f u = 0) (m : Mat3 α) (h0 : m.c0 = cross f u) (h1 : m.c1 = u)
    (h2 : m.c2 = f.neg) :
    2 * ((m.c1.z + m.c2.y) * (m.c1.z + m.c2.y) + (m.c2.z - m.c0.x - m.c1.y + 1) * (m.c2.z - m.c0.x
      - m.c1.y + 1)) = 4 * (m.c2.z - m.c0.x - m.c1.y + 1) * (1 - m.c0.x) ∧
    (m.c2.x + m.c0.z) * (m.c1.z + m.c2.y) + (m.c0.y - m.c1.x) * (m.c2.z - m.c0.x - m.c1.y + 1)
      = 2 * (m.c2.z - m.c0.x - m.c1.y + 1) * m.c0.y ∧
    (m.c2.x + m.c0.z) * (m.c2.z - m.c0.x - m.c1.y + 1) - (m.c0.y - m.c1.x) * (m.c1.z + m.c2.y)
      = 2 * (m.c2.z - m.c0.x - m.c1.y + 1) * m.c0.z ∧
    (m.c2.x + m.c0.z) * (m.c1.z + m.c2.y) - (m.c0.y - m.c1.x) * (m.c2.z - m.c0.x - m.c1.y + 1)
      = 2 * (m.c2.z - m.c0.x - m.c1.y + 1) * m.c1.x ∧
    2 * ((m.c2.x + m.c0.z) * (m.c2.x + m.c0.z) + (m.c2.z - m.c0.x - m.c1.y + 1) * (m.c2.z - m.c0.x
      - m.c1.y + 1)) = 4 * (m.c2.z - m.c0.x - m.c1.y + 1) * (1 - m.c1.y) ∧
    (m.c1.z + m.c2.y) * (m.c2.z - m.c0.x - m.c1.y + 1) + (m.c0.y - m.c1.x) * (m.c2.x + m.c0.z)
      = 2 * (m.c2.z - m.c0.x - m.c1.y + 1) * m.c1.z ∧
    (m.c2.x + m.c0.z) * (m.c2.z - m.c0.x - m.c1.y + 1) + (m.c0.y - m.c1.x) * (m.c1.z + m.c2.y)
      = 2 * (m.c2.z - m.c0.x - m.c1.y + 1) * m.c2.x ∧
    (m.c1.z + m.c2.y) * (m.c2.z - m.c0.x - m.c1.y + 1) - (m.c0.y - m.c1.x) * (m.c2.x + m.c0.z)
      = 2 * (m.c2.z - m.c0.x - m.c1.y + 1) * m.c2.y ∧
    2 * ((m.c2.x + m.c0.z) * (m.c2.x + m.c0.z) + (m.c1.z + m.c2.y) * (m.c1.z + m.c2.y))
      = 4 * (m.c2.z - m.c0.x - m.c1.y + 1) * (1 - m.c2.z) ∧
    (m.c0.y - m.c1.x) * (m.c0.y - m.c1.x) + (m.c2.x + m.c0.z) * (m.c2.x + m.c0.z)
      + (m.c1.z + m.c2.y) * (m.c1.z + m.c2.y)
      + (m.c2.z - m.c0.x - m.c1.y + 1) * (m.c2.z - m.c0.x - m.c1.y + 1)
      = 4 * (m.c2.z - m.c0.x - m.c1.y + 1) := by
  simp only [dot] at hff huu hfu
  rw [h0, h1, h2]
  simp only [cross, Vec3.neg]
  refine ⟨?_, ?_, ?_, ?_, ?_, ?_, ?_, ?_, ?_, ?_⟩
  · linear_combination
      (2 - 2 * u.z * u.z - 2 * u.y * u.y) * hff
        + (2 * f.x * f.x) * huu
        + (2 * f.z * u.z + 2 * f.y * u.y - 2 * f.x * u.x) * hfu
  · linear_combination
      (u.x - u.x * u.y) * hff
        + (-f.x * f.y) * huu
        + (f.y * u.x - f.x + f.x * u.y) * hfu
  · linear_combination
      (-u.x * u.z) * hff
        + (f.x - f.x * f.z) * huu
        + (-u.x + f.z * u.x + f.x * u.z) * hfu
  · linear_combination
      (u.x - u.x * u.y) * hff
        + (-f.x * f.y) * huu
        + (f.y * u.x - f.x + f.x * u.y) * hfu
  · linear_combination
      (2 - 4 * u.y + 2 * u.y * u.y) * hff
        + (2 * f.y * f.y) * huu
        + (4 * f.y - 4 * f.y * u.y) * hfu
  · linear_combination
      (u.z - u.y * u.z) * hff
        + (f.y - f.y * f.z) * huu
        + (1 - u.y - f.z + f.z * u.y + f.y * u.z) * hfu
  · linear_combination
      (u.x * u.z) * hff
        + (-f.x + f.x * f.z) * huu
        + (u.x - f.z * u.x - f.x * u.z) * hfu
  · linear_combination
      (-u.z + u.y * u.z) * hff
        + (-f.y + f.y * f.z) * huu
        + (-1 + u.y + f.z - f.z * u.y - f.y * u.z) * hfu
  · linear_combination
      (4 - 2 * u.z * u.z - 4 * u.y) * hff
        + (2 * f.y * f.y + 2 * f.x * f.x) * huu
        + (2 * f.z * u.z + 4 * f.y - 2 * f.y * u.y - 2 * f.x * u.x) * hfu
  · linear_combination
      (1 + u.z * u.z - 2 * u.y + u.y * u.y + u.x * u.x) * hff
        + (2 - 2 * f.z) * huu
        + (2 * u.z - f.z * u.z + 2 * f.y - f.y * u.y - f.x * u.x) * hfu


/-- The function `glm::quat_cast` inverts `glm::mat3_cast` on rotation matrices: for
orthogonal unit vectors `front` and `up`, the quaternion of the matrix with columns
`front × up`, `up`, `-front` is a unit quaternion whose matrix is that matrix, for every
scalar implementation whose `sqrt` squares back on non-negative arguments. -/
theorem quatCast_rotation (M : Scalar α) (hsq : ∀ x : α, 0 ≤ x → M.sqrt x * M.sqrt x = x)
    (f u : Vec3 α) (hff : dot f f = 1) (huu : dot u u = 1) (hfu : dot f u = 0) (m : Mat3 α)
    (h0 : m.c0 = cross f u) (h1 : m.c1 = u) (h2 : m.c2 = f.neg) :
    mat3Cast (quatCast M m) = m ∧ Quat.dot (quatCast M m) (quatCast M m) = 1 := by
  obtain ⟨B, ⟨hW, hX, hY, hZ⟩, hcase⟩ := quatCast_cases M m
  have hB : 0 ≤ B := by linarith
  have hT : 0 < B + 1 := by linarith
  have hs2 : M.sqrt (B + 1) * M.sqrt (B + 1) = B + 1 := hsq _ (le_of_lt hT)
  have hs : M.sqrt (B + 1) ≠ 0 := by
    intro h
    rw [h, mul_zero] at hs2
    linarith
  obtain ⟨hk, hbv⟩ := quatCast_multiplier (M.sqrt (B + 1)) (B + 1) hs hs2
  rcases hcase with ⟨hBe, hq⟩ | ⟨hBe, hq⟩ | ⟨hBe, hq⟩ | ⟨hBe, hq⟩
  · obtain ⟨i00, i01, i02, i10, i11, i12, i20, i21, i22, iN⟩ :=
      rotation_numerators_w f u hff huu hfu m h0 h1 h2
    rw [← hBe] at i00 i01 i02 i10 i11 i12 i20 i21 i22 iN
    have h := mat3Cast_of_numerators (B + 1) _ _ _ _ _ m hk i00 i01 i02 i10 i11 i12 i20 i21
      i22 iN
    rw [← hbv] at h
    rw [hq]
    exact h
  · obtain ⟨i00, i01, i02, i10, i11, i12, i20, i21, i22, iN⟩ :=
      rotation_numerators_x f u hff huu hfu m h0 h1 h2
    rw [← hBe] at i00 i01 i02 i10 i11 i12 i20 i21 i22 iN
    have h := mat3Cast_of_numerators (B + 1) _ _ _ _ _ m hk i00 i01 i02 i10 i11 i12 i20 i21
      i22 iN
    rw [← hbv] at h
    rw [hq]
    exact h
  · obtain ⟨i00, i01, i02, i10, i11, i12, i20, i21, i22, iN⟩ :=
      rotation_numerators_y f u hff huu hfu m h0 h1 h2
    rw [← hBe] at i00 i01 i02 i10 i11 i12 i20 i21 i22 iN
    have h := mat3Cast_of_numerators (B + 1) _ _ _ _ _ m hk i00 i01 i02 i10 i11 i12 i20 i21
      i22 iN
    rw [← hbv] at h
    rw [hq]
    exact h
  · obtain ⟨i00, i01, i02, i10, i11, i12, i20, i21, i22, iN⟩ :=
      rotation_numerators_z f u hff huu hfu m h0 h1 h2
    rw [← hBe] at i00 i01 i02 i10 i11 i12 i20 i21 i22 iN
    have h := mat3Cast_of_numerators (B + 1) _ _ _ _ _ m hk i00 i01 i02 i10 i11 i12 i20 i21
      i22 iN
    rw [← hbv] at h
    rw [hq]
    exact h

end Glm

namespace PlaneCamera

/-- Leaving Basis mode, the quaternion is `glm::quat_cast` of the matrix whose columns
are `right`, `up` and `-front`. -/
theorem convertEncodings_basis_quat (M : Scalar α) (c : PlaneCamera α)
    (hmode : c.selectedCameraType = FrontRightUpVecs) :
    (convertEncodings M c).planeOrientation = quatCast M ⟨c.right, c.up, c.front.neg⟩ := by
  have hne : ¬ (FrontRightUpVecs = EulerAngles) := by decide
  simp only [convertEncodings, hmode, hne, if_false, if_true, toQuat, Mat4.identity,
    Mat4.toMat3, Vec4.ofVec3, Vec4.xyz]

/-- From Basis mode with an orthonormal right-handed frame, the switch to Quaternion
mode gives a quaternion `q` with `q·q = 1`, and the switch back gives the frame again,
for every scalar implementation whose `sqrt` squares back on non-negative arguments. -/
theorem updateCameraType_basis_quaternion_basis (M : Scalar α)
    (hsq : ∀ x : α, 0 ≤ x → M.sqrt x * M.sqrt x = x) (c : PlaneCamera α)
    (hmode : c.selectedCameraType = FrontRightUpVecs) (hframe : c.orthonormalFrame) :
    ((c.updateCameraType M Quaternions).updateCameraType M FrontRightUpVecs).front
      = c.front ∧
    ((c.updateCameraType M Quaternions).updateCameraType M FrontRightUpVecs).right
      = c.right ∧
    ((c.updateCameraType M Quaternions).updateCameraType M FrontRightUpVecs).up = c.up ∧
    Quat.dot (c.updateCameraType M Quaternions).planeOrientation
      (c.updateCameraType M Quaternions).planeOrientation = 1 := by
  obtain ⟨hff, huu, hfu, hr⟩ := hframe
  obtain ⟨hm1, -, -, -, -, -, -, eq⟩ := updateCameraType_encodings M c Quaternions
  rw [convertEncodings_basis_quat M c hmode] at eq
  obtain ⟨hf, hri, hu, -⟩ := updateCameraType_basis_of_quaternion M
    (c.updateCameraType M Quaternions) FrontRightUpVecs hm1
  obtain ⟨hmat, hdot⟩ := quatCast_rotation M hsq c.front c.up hff huu hfu
    ⟨c.right, c.up, c.front.neg⟩ hr rfl rfl
  rw [← eq] at hmat hdot
  rw [mat3Cast_columns] at hmat
  have h0 := congrArg Mat3.c0 hmat
  have h1 := congrArg Mat3.c1 hmat
  have h2 := congrArg Mat3.c2 hmat
  simp only at h0 h1 h2
  refine ⟨?_, ?_, ?_, hdot⟩
  · rw [hf]
    have h3 := congrArg Vec3.neg h2
    simp only [Vec3.neg, neg_neg] at h3
    exact h3
  · rw [hri, h0]
  · rw [hu, h1]

end PlaneCamera

namespace PlaneCamera

/-- The rotated offset depends on the state through the three Euler angles only. -/
theorem getRotatedOffset_congr (M : Scalar α) (c d : PlaneCamera α) (v : Vec3 α)
    (hx : d.rotX = c.rotX) (hy : d.rotY = c.rotY) (hz : d.rotZ = c.rotZ) :
    getRotatedOffset M d v = getRotatedOffset M c v := by
  unfold getRotatedOffset
  rw [hx, hy, hz]

/-- The conversion of encodings depends on the state through the selected mode and the
encoding of that mode only, and writes the two other encodings only: converting again
after the camera position was recomputed changes nothing. -/
theorem convertEncodings_updateCameraPosition_convertEncodings (M : Scalar α)
    (c : PlaneCamera α) :
    convertEncodings M (updateCameraPosition M (convertEncodings M c))
      = updateCameraPosition M (convertEncodings M c) := by
  have h10 : ¬ (FrontRightUpVecs = EulerAngles) := by decide
  have h20 : ¬ (Quaternions = EulerAngles) := by decide
  have h21 : ¬ (Quaternions = FrontRightUpVecs) := by decide
  by_cases h0 : c.selectedCameraType = EulerAngles
  · have e : convertEncodings M c =
        { c with
          front := getRotatedOffset M c WORLD_FRONT
          right := getRotatedOffset M c WORLD_RIGHT
          up := getRotatedOffset M c WORLD_UP
          planeOrientation := Quat.normalize M
            (((angleAxis M c.rotY WORLD_UP).mul (angleAxis M c.rotX WORLD_RIGHT)).mul
              (angleAxis M c.rotZ WORLD_FRONT)) } := by
      unfold convertEncodings
      rw [if_pos h0]
    generalize hd : updateCameraPosition M (convertEncodings M c) = d
    have hdm : d.selectedCameraType = EulerAngles := by rw [← hd]; simp [h0]
    have hdx : d.rotX = c.rotX := by rw [← hd, e]; simp
    have hdy : d.rotY = c.rotY := by rw [← hd, e]; simp
    have hdz : d.rotZ = c.rotZ := by rw [← hd, e]; simp
    have hdf : d.front = getRotatedOffset M c WORLD_FRONT := by rw [← hd, e]; simp
    have hdr : d.right = getRotatedOffset M c WORLD_RIGHT := by rw [← hd, e]; simp
    have hdu : d.up = getRotatedOffset M c WORLD_UP := by rw [← hd, e]; simp
    have hdq : d.planeOrientation = Quat.normalize M
        (((angleAxis M c.rotY WORLD_UP).mul (angleAxis M c.rotX WORLD_RIGHT)).mul
          (angleAxis M c.rotZ WORLD_FRONT)) := by rw [← hd, e]; simp
    unfold convertEncodings
    rw [if_pos hdm]
    apply PlaneCamera.ext <;>
      simp only [getRotatedOffset_congr M c d _ hdx hdy hdz, hdx, hdy, hdz, hdf, hdr, hdu, hdq]
  · by_cases h1 : c.selectedCameraType = FrontRightUpVecs
    · have e : convertEncodings M c =
          { c with
            rotX := M.asin c.front.y
            rotY := -M.atan2 c.front.x (-c.front.z)
            rotZ := M.atan2 c.right.y c.up.y
            planeOrientation := toQuat M
              ⟨Vec4.ofVec3 c.right 0, Vec4.ofVec3 c.up 0, Vec4.ofVec3 c.front.neg 0,
                ⟨0, 0, 0, 1⟩⟩ } := by
        unfold convertEncodings
        rw [if_neg h0, if_pos h1]
        rfl
      generalize hd : updateCameraPosition M (convertEncodings M c) = d
      have hdm : d.selectedCameraType = FrontRightUpVecs := by rw [← hd]; simp [h1]
      have hdf : d.front = c.front := by rw [← hd, e]; simp
      have hdr : d.right = c.right := by rw [← hd, e]; simp
      have hdu : d.up = c.up := by rw [← hd, e]; simp
      have hdx : d.rotX = M.asin c.front.y := by rw [← hd, e]; simp
      have hdy : d.rotY = -M.atan2 c.front.x (-c.front.z) := by rw [← hd, e]; simp
      have hdz : d.rotZ = M.atan2 c.right.y c.up.y := by rw [← hd, e]; simp
      have hdq : d.planeOrientation = toQuat M
          ⟨Vec4.ofVec3 c.right 0, Vec4.ofVec3 c.up 0, Vec4.ofVec3 c.front.neg 0,
            ⟨0, 0, 0, 1⟩⟩ := by rw [← hd, e]; simp
      have hne : ¬ d.selectedCameraType = EulerAngles := by rw [hdm]; exact h10
      unfold convertEncodings
      rw [if_neg hne, if_pos hdm]
      apply PlaneCamera.ext <;> simp only [hdf, hdr, hdu, hdx, hdy, hdz, hdq]
      rfl
    · by_cases h2 : c.selectedCameraType = Quaternions
      · have e : convertEncodings M c =
            { c with
              rotX := (eulerAngles M c.planeOrientation).x
              rotY := (eulerAngles M c.planeOrientation).y
              rotZ := (eulerAngles M c.planeOrientation).z
              front := c.planeOrientation.rotateVec WORLD_FRONT
              right := c.planeOrientation.rotateVec WORLD_RIGHT
              up := c.planeOrientation.rotateVec WORLD_UP } := by
          unfold convertEncodings
          rw [if_neg h0, if_neg h1, if_pos h2]
        generalize hd : updateCameraPosition M (convertEncodings M c) = d
        have hdm : d.selectedCameraType = Quaternions := by rw [← hd]; simp [h2]
        have hdq : d.planeOrientation = c.planeOrientation := by rw [← hd, e]; simp
        have hdx : d.rotX = (eulerAngles M c.planeOrientation).x := by rw [← hd, e]; simp
        have hdy : d.rotY = (eulerAngles M c.planeOrientation).y := by rw [← hd, e]; simp
        have hdz : d.rotZ = (eulerAngles M c.planeOrientation).z := by rw [← hd, e]; simp
        have hdf : d.front = c.planeOrientation.rotateVec WORLD_FRONT := by
          rw [← hd, e]; simp
        have hdr : d.right = c.planeOrientation.rotateVec WORLD_RIGHT := by
          rw [← hd, e]; simp
        have hdu : d.up = c.planeOrientation.rotateVec WORLD_UP := by rw [← hd, e]; simp
        have hn0 : ¬ d.selectedCameraType = EulerAngles := by rw [hdm]; exact h20
        have hn1 : ¬ d.selectedCameraType = FrontRightUpVecs := by rw [hdm]; exact h21
        unfold convertEncodings
        rw [if_neg hn0, if_neg hn1, if_pos hdm]
        apply PlaneCamera.ext <;>
          simp only [hdf, hdr, hdu, hdx, hdy, hdz, hdq]
      · have e : convertEncodings M c = c := by
          unfold convertEncodings
          rw [if_neg h0, if_neg h1, if_neg h2]
        rw [e]
        have e2 : updateCameraPosition M c = c := by
          unfold updateCameraPosition
          rw [if_neg h0, if_neg h1, if_neg h2]
        rw [e2, e]

end PlaneCamera

/-- C24. Selecting again the mode that already is selected is idempotent:
`updateCameraType selectedCameraType` applied twice is the same state as applied once,
for the three modes and for every other value of the mode as well. -/
theorem updateCameraType_reselect_idempotent (M : Scalar α) (c : PlaneCamera α) :
    (c.updateCameraType M c.selectedCameraType).updateCameraType M
        (c.updateCameraType M c.selectedCameraType).selectedCameraType
      = c.updateCameraType M c.selectedCameraType ∧
    (c.updateCameraType M c.selectedCameraType).updateCameraType M c.selectedCameraType
      = c.updateCameraType M c.selectedCameraType := by
  have hsel : (c.updateCameraType M c.selectedCameraType).selectedCameraType
      = c.selectedCameraType := (PlaneCamera.updateCameraType_encodings M c _).1
  have hconv : ({ PlaneCamera.convertEncodings M c with
      selectedCameraType := c.selectedCameraType } : PlaneCamera α)
      = PlaneCamera.convertEncodings M c := by
    have := PlaneCamera.convertEncodings_selectedCameraType M c
    rw [← this]
  have h1 : c.updateCameraType M c.selectedCameraType
      = PlaneCamera.updateCameraPosition M (PlaneCamera.convertEncodings M c) := by
    unfold PlaneCamera.updateCameraType
    simp only []
    rw [hconv]
  have key : (c.updateCameraType M c.selectedCameraType).updateCameraType M c.selectedCameraType
      = c.updateCameraType M c.selectedCameraType := by
    rw [h1]
    unfold PlaneCamera.updateCameraType
    simp only []
    rw [PlaneCamera.convertEncodings_updateCameraPosition_convertEncodings]
    have hs : (PlaneCamera.updateCameraPosition M
        (PlaneCamera.convertEncodings M c)).selectedCameraType = c.selectedCameraType := by
      simp
    have hrec : ({ PlaneCamera.updateCameraPosition M (PlaneCamera.convertEncodings M c) with
        selectedCameraType := c.selectedCameraType } : PlaneCamera α)
        = PlaneCamera.updateCameraPosition M (PlaneCamera.convertEncodings M c) := by
      rw [← hs]
    rw [hrec, PlaneCamera.updateCameraPosition_idempotent]
  exact ⟨by rw [hsel]; exact key, key⟩

/-! Section: Leaving Quaternion mode: the camera. -/

namespace Glm

/-- The rotation by a quaternion of an offset with `x = 0` is the combination of the
rotated world up and front axes that the Basis camera position uses. -/
theorem rotateVec_offset (q : Quat α) (v : Vec3 α) (hx : v.x = 0) :
    q.rotateVec v
      = Vec3.add (Vec3.sub ⟨0, 0, 0⟩ ((q.rotateVec WORLD_FRONT).scale v.z))
          ((q.rotateVec WORLD_UP).scale v.y) := by
  apply Vec3.ext <;>
    simp only [Quat.rotateVec, cross, Vec3.add, Vec3.sub, Vec3.scale, WORLD_FRONT, WORLD_UP,
      hx] <;> ring

end Glm

/-- C26. `processMouseScroll` changes no field other than `zoom`, and nothing at all when
`zoomEnabled` is false. -/
theorem processMouseScroll_frame_zoom (c : PlaneCamera α) (yOff : α) :
    c.processMouseScroll yOff = { c with zoom := (c.processMouseScroll yOff).zoom } ∧
    (c.zoomEnabled = false → c.processMouseScroll yOff = c) := by
  refine ⟨PlaneCamera.processMouseScroll_frame c yOff, fun h => ?_⟩
  unfold PlaneCamera.processMouseScroll
  rw [h]
  rfl

/-- C26 at the camera that `main` constructs with zoom disabled: scrolling by 3 changes
nothing. -/
theorem processMouseScroll_frame_zoom_witness :
    (PlaneCamera.ctor WORLD_ORIGIN ⟨0, 1, 0⟩ ⟨0, 1, 10⟩ false : PlaneCamera ℚ).zoomEnabled
      = false ∧
    (PlaneCamera.ctor WORLD_ORIGIN ⟨0, 1, 0⟩ ⟨0, 1, 10⟩ false : PlaneCamera ℚ).processMouseScroll 3
      = PlaneCamera.ctor WORLD_ORIGIN ⟨0, 1, 0⟩ ⟨0, 1, 10⟩ false :=
  ⟨rfl, (processMouseScroll_frame_zoom
    (PlaneCamera.ctor WORLD_ORIGIN ⟨0, 1, 0⟩ ⟨0, 1, 10⟩ false : PlaneCamera ℚ) 3).2 rfl⟩
